import Mathlib

/-!
# libcycle: the per-component failure / repair state machine

A shallow embedding of `src/libcycle/component.cpp` (class `Component`) and
of the declarations it relies on.

Conventions of the embedding.

* The state machine is embedded twice. In the first embedding a C++ `double` is
  an exact rational (`ℚ`): it serves the statements about the control flow of
  the state machine, which are stated with the very expressions the source
  evaluates and use no law of exact arithmetic. Where a double may hold
  INFINITY (`HoursToFailure`) it is a `WithTop ℚ`.
* In the second embedding (`F64`) a `double` is a binary64 value (`Dbl`): NaN,
  the two infinities, or a finite value, with every `+`, `-` and `*` rounded
  to nearest (ties to even) and every comparison false on NaN. It serves the
  statements whose truth depends on rounding, on NaN or on the infinities: the
  sign of downtime_remaining, the repair by repeated `AdvanceDowntime`, a ramp
  multiplier of 0 and the sign of life_remaining.
* A C++ `int` (`t`, `fail_idx`) is an `Int`; a `size_t` loop index is a `Nat`.
* A member function that can throw returns an `Exec`: either `done s` (normal
  return with final state `s`) or `threw what s` (an exception, with the state
  as it was when the exception left the function: C++ does not roll back).
* The generator and the event log are passed to the component by reference;
  they live next to the component in the record `Sim`.
-/

namespace Libcycle

/-! ## Outcome of a call -/

/-- Outcome of a member function: normal return, or a thrown exception together
with the state reached when it was thrown. -/
inductive Exec (σ : Type) where
  | done (s : σ) : Exec σ
  | threw (what : String) (s : σ) : Exec σ

namespace Exec

/-- State left behind by the call, whether or not it threw. -/
def state {σ : Type} : Exec σ → σ
  | done s => s
  | threw _ s => s

/-- Did the call throw. -/
def raised {σ : Type} : Exec σ → Bool
  | done _ => false
  | threw _ _ => true

/-- Sequencing of statements: an exception skips the rest. -/
def bind {σ : Type} : Exec σ → (σ → Exec σ) → Exec σ
  | done s, f => f s
  | threw w s, _ => threw w s

/-- Run a call on a part of the state and put the part back. -/
def lift {σ τ : Type} (put : σ → τ) : Exec σ → Exec τ
  | done s => done (put s)
  | threw w s => threw w (put s)

end Exec

/-! ## The uniform generator (`well512.h`) -/

/-- Modelled from the spec: the body of `WELLFiveTwelve::getVariate` is not in
the sources (only the declaration in `well512.h`). The generator is
deterministic and every call returns one value and advances the state
irreversibly, so it is represented by the sequence of values it will return
(`seq`) and the number of values already returned (`state_i`). -/
structure WELLFiveTwelve where
  seq : ℕ → ℚ
  state_i : ℕ

/-- Modelled from the spec: `nextVariate() -> double`, one value per call, the
state advances by one. -/
def WELLFiveTwelve.getVariate (gen : WELLFiveTwelve) : ℚ × WELLFiveTwelve :=
  (gen.seq gen.state_i, { gen with state_i := gen.state_i + 1 })

/-- Modelled from the spec: class `Distribution` (`ExponentialDist`, the Gamma and
Beta samplers) is not in the sources. A distribution exposes a single
`sample(rng) -> double` capability, which may consume any number of variates. -/
structure Distribution where
  GetVariate : WELLFiveTwelve → ℚ × WELLFiveTwelve

/-! ## Failure modes (class `FailureType`) -/

/-- Modelled from the spec: class `FailureType` is not in the sources. Its state is
the operating-mode label, the bound distribution and the current
life-or-probability value; one storage slot holds whichever of life remaining
or failure probability is semantically active. -/
structure FailureType where
  failure_mode : String
  dist : Distribution
  life_or_prob : ℚ

namespace FailureType

/-- Modelled from the spec: accessor for the mode label. -/
def GetFailureMode (ft : FailureType) : String := ft.failure_mode

/-- Modelled from the spec: accessor for the life-or-probability slot. -/
def GetLifeOrProb (ft : FailureType) : ℚ := ft.life_or_prob

/-- Modelled from the spec: accessor for life remaining (the shared slot). -/
def GetLifeRemaining (ft : FailureType) : ℚ := ft.life_or_prob

/-- Modelled from the spec: accessor for the failure probability (the shared slot). -/
def GetFailureProbability (ft : FailureType) : ℚ := ft.life_or_prob

/-- Modelled from the spec: `setLifeOrProb(value)`, direct overwrite without
sampling. -/
def SetLifeOrProb (ft : FailureType) (value : ℚ) : FailureType :=
  { ft with life_or_prob := value }

/-- Modelled from the spec: `reduceLifeRemaining(delta_hours)` subtracts from life
remaining and does not clamp at zero. -/
def ReduceLifeRemaining (ft : FailureType) (delta_hours : ℚ) : FailureType :=
  { ft with life_or_prob := ft.life_or_prob - delta_hours }

/-- Modelled from the spec: `regenerate(rng)` draws a fresh sample from the bound
distribution and overwrites the life-or-probability value. -/
def GenerateFailureVariate (ft : FailureType) (gen : WELLFiveTwelve) :
    FailureType × WELLFiveTwelve :=
  ({ ft with life_or_prob := (ft.dist.GetVariate gen).1 }, (ft.dist.GetVariate gen).2)

end FailureType

/-! ## Records -/

/-- The record `failure_event` (constructor at component.cpp:11). -/
structure failure_event where
  time : Int
  component : String
  fail_idx : Int
  duration : ℚ
  new_life : ℚ
deriving DecidableEq

/-- The record `ComponentStatus`. The three-argument constructor
(component.cpp:25) initialises `lifetimes`, `hazard_rate` and
`downtime_remaining`; `operational` is the fourth member, used through
`m_status.operational`. -/
structure ComponentStatus where
  lifetimes : List ℚ
  hazard_rate : ℚ
  downtime_remaining : ℚ
  operational : Bool

/-- The data members of `Component` that component.cpp reads or writes. The
pointer `m_parent_failure_events` is the field `failure_events` of `Sim`. -/
structure Component where
  m_name : String
  m_type : String
  m_hot_start_penalty : ℚ
  m_warm_start_penalty : ℚ
  m_cold_start_penalty : ℚ
  m_repair_cost : ℚ
  m_availability_reduction : ℚ
  m_cooldown_time : ℚ
  m_status : ComponentStatus
  m_repair_dist : Distribution
  m_failure_types : List FailureType

/-- The map `std::unordered_map<std::string, failure_event>` owned by the caller. -/
abbrev FailureEvents := String → Option failure_event

/-- The assignment `events[label] = ev` of the map: insert or overwrite. -/
def FailureEvents.assign (events : FailureEvents) (label : String) (ev : failure_event) :
    FailureEvents :=
  fun k => if k = label then some ev else events k

/-- A component together with the two objects it reaches by reference: the
generator passed to its member functions and the caller's event log.
`generated` is a ghost history, not program state: the `fail_idx` argument of
every `GenerateFailure` call made so far, oldest first. -/
structure Sim where
  comp : Component
  gen : WELLFiveTwelve
  failure_events : FailureEvents
  generated : List Int

/-- The call `v.at(i)` of a vector with an `int` index: the index is converted to
`size_t`, so a negative one is out of range. -/
def vectorAt {α : Type} (v : List α) (i : Int) : Option α :=
  if i < 0 then none else v[i.toNat]?

/-- The text of `std::to_string(int)`. -/
def to_string (n : Int) : String := toString n

/-! ## Member functions of `Component` -/

namespace Component

/-- The constructor, component.cpp:35-79. `ExponentialDist` stands for the
constructor of the repair distribution, whose code is not in the sources. -/
def ctor (ExponentialDist : ℚ → ℚ → String → Distribution)
    (name type : String) (repair_rate repair_cooldown_time : ℚ)
    (hot_start_penalty warm_start_penalty cold_start_penalty : ℚ)
    (availability_reduction repair_cost : ℚ) : Except String Component :=
  if name = "MAINTENANCE" then
    .error "cannot name a component 'MAINTENANCE'"
  else
    .ok
      { m_name := name
        m_type := type
        m_hot_start_penalty := hot_start_penalty
        m_warm_start_penalty := warm_start_penalty
        m_cold_start_penalty := cold_start_penalty
        m_repair_cost := repair_cost
        m_availability_reduction := availability_reduction
        m_cooldown_time := repair_cooldown_time
        m_status :=
          { lifetimes := [], hazard_rate := 1, downtime_remaining := 0, operational := true }
        m_repair_dist := ExponentialDist repair_rate repair_cooldown_time "exponential"
        m_failure_types := [] }

/-- The restore `ReadStatus`, component.cpp:82-91. -/
def ReadStatus.loop (status : ComponentStatus) : Nat → Nat → Component → Exec Component
  | 0, _, c => .done c
  | fuel + 1, j, c =>
    if j < c.m_failure_types.length then
      match c.m_failure_types[j]?, status.lifetimes[j]? with
      | some ft, some v =>
        ReadStatus.loop status fuel (j + 1)
          { c with m_failure_types := c.m_failure_types.set j (ft.SetLifeOrProb v) }
      | _, _ => .threw "out_of_range" c
    else .done c

/-- The restore `ReadStatus`, component.cpp:82-91. -/
def ReadStatus (c : Component) (status : ComponentStatus) : Exec Component :=
  let c1 := { c with m_status := { c.m_status with hazard_rate := status.hazard_rate } }
  let c2 := { c1 with m_status :=
    { c1.m_status with downtime_remaining := status.downtime_remaining } }
  let c3 := { c2 with m_status :=
    { c2.m_status with
      operational := decide (c2.m_status.downtime_remaining < 1 / 100000000) } }
  ReadStatus.loop status c3.m_failure_types.length 0 c3

/-- The accessor `GetName`, component.cpp:94. -/
def GetName (c : Component) : String := c.m_name

/-- The call `AddFailureMode`, component.cpp:110-114. `mkDist` stands for the part
of the `FailureType` constructor that binds the distribution. -/
def AddFailureMode (mkDist : String → ℚ → ℚ → Distribution) (c : Component)
    (_component _id failure_mode dist_type : String) (alpha beta : ℚ) : Component :=
  { c with m_failure_types :=
      c.m_failure_types ++
        [{ failure_mode := failure_mode, dist := mkDist dist_type alpha beta, life_or_prob := 0 }] }

/-- The accessor `IsOperational`, component.cpp:138. -/
def IsOperational (c : Component) : Bool := c.m_status.operational

/-- The call `Shutdown`, component.cpp:144-154. -/
def Shutdown (c : Component) (time : ℚ) : Component :=
  { c with m_status := { c.m_status with operational := false, downtime_remaining := time } }

/-- The call `RestoreComponent`, component.cpp:157-161. -/
def RestoreComponent (c : Component) : Component :=
  { c with m_status := { c.m_status with operational := true, downtime_remaining := 0 } }

/-- The call `ResetHazardRate`, component.cpp:164-167. -/
def ResetHazardRate (c : Component) : Component :=
  { c with m_status := { c.m_status with hazard_rate := 1 } }

/-- The call `SetDowntimeRemaining`, component.cpp:176-179. -/
def SetDowntimeRemaining (c : Component) (time : ℚ) : Component :=
  { c with m_status := { c.m_status with downtime_remaining := time } }

/-- The call `ReadFailure`, component.cpp:348-363. The parameter `reset_hazard` is
not read by the body. -/
def ReadFailure (c : Component) (downtime life_remaining : ℚ) (fail_idx : Int)
    (_reset_hazard : Bool) : Exec Component :=
  let c1 := { c with m_status := { c.m_status with operational := false } }
  let c2 := c1.SetDowntimeRemaining downtime
  match vectorAt c2.m_failure_types fail_idx with
  | none => .threw "out_of_range" c2
  | some ft =>
    let c3 := { c2 with m_failure_types :=
      c2.m_failure_types.set fail_idx.toNat (ft.SetLifeOrProb life_remaining) }
    .done c3.ResetHazardRate

/-- The call `AdvanceDowntime`, component.cpp:392-401, on exact values;
`F64.Component.AdvanceDowntime` is the same call on binary64 values. -/
def AdvanceDowntime (c : Component) (time : ℚ) : Component :=
  let c1 := { c with m_status :=
    { c.m_status with downtime_remaining := c.m_status.downtime_remaining - time } }
  if c1.m_status.downtime_remaining ≤ 0 then
    { c1 with m_status := { c1.m_status with downtime_remaining := 0, operational := true } }
  else c1

/-- The call `GetLifetimesAndProbs`, component.cpp:403-412. -/
def GetLifetimesAndProbs (c : Component) : List ℚ :=
  c.m_failure_types.map FailureType.GetLifeOrProb

/-- The call `GetState`, component.cpp:427-436. The three-argument constructor of
`ComponentStatus` leaves `operational` uninitialised: its value is the
parameter `indeterminate`. -/
def GetState (c : Component) (indeterminate : Bool) : ComponentStatus :=
  { lifetimes := c.GetLifetimesAndProbs
    hazard_rate := c.m_status.hazard_rate * 1
    downtime_remaining := c.m_status.downtime_remaining * 1
    operational := indeterminate }

end Component

/-! ## Member functions that use the generator or the event log -/

/-- The loop `for (size_t j = 0; j < m_failure_types.size(); j++) body`. The
condition is evaluated on the current state before every iteration; `fuel`
bounds the number of iterations and is the size of the vector at loop entry,
which is enough because no body changes that size (`forLoop_fuel`). -/
def forLoop (body : Nat → Sim → Exec Sim) : Nat → Nat → Sim → Exec Sim
  | 0, _, s => .done s
  | fuel + 1, j, s =>
    if j < s.comp.m_failure_types.length then
      (body j s).bind (forLoop body fuel (j + 1))
    else .done s

/-- The call `GenerateTimeToRepair`, component.cpp:200-211. -/
def GenerateTimeToRepair (s : Sim) : Sim :=
  { s with
    comp := { s.comp with m_status :=
      { s.comp.m_status with downtime_remaining := (s.comp.m_repair_dist.GetVariate s.gen).1 } }
    gen := (s.comp.m_repair_dist.GetVariate s.gen).2 }

/-- The key of an event in the log, component.cpp:382. -/
def eventLabel (t : Int) (name : String) (fail_idx : Int) : String :=
  to_string t ++ name ++ to_string fail_idx

/-- The call `GenerateFailure`, component.cpp:366-389. -/
def GenerateFailure (t : Int) (fail_idx : Int) (s : Sim) : Exec Sim :=
  let s0 := { s with generated := s.generated ++ [fail_idx] }
  let s1 := { s0 with comp := { s0.comp with m_status :=
    { s0.comp.m_status with operational := false } } }
  let s2 := GenerateTimeToRepair s1
  match vectorAt s2.comp.m_failure_types fail_idx with
  | none => .threw "out_of_range" s2
  | some ft =>
    let s3 := { s2 with
      comp := { s2.comp with m_failure_types :=
        (s2.comp.m_failure_types.set fail_idx.toNat (ft.GenerateFailureVariate s2.gen).1) }
      gen := (ft.GenerateFailureVariate s2.gen).2 }
    let s4 := { s3 with comp := s3.comp.ResetHazardRate }
    let label := eventLabel t s4.comp.GetName fail_idx
    match vectorAt s4.comp.m_failure_types fail_idx with
    | none => .threw "out_of_range" s4
    | some ft4 =>
      .done { s4 with failure_events := (s4.failure_events.assign label
        { time := t, component := s4.comp.GetName, fail_idx := fail_idx,
          duration := s4.comp.m_status.downtime_remaining, new_life := ft4.GetLifeOrProb }) }

/-- The body of the loop of `TestForBinaryFailure`, component.cpp:246-251. -/
def TestForBinaryFailure.body (mode : String) (t : Int) (j : Nat) (s : Sim) : Exec Sim :=
  match s.comp.m_failure_types[j]? with
  | none => .threw "out_of_range" s
  | some ft =>
    if ft.GetFailureMode = mode then
      let var := s.gen.getVariate.1
      let s1 := { s with gen := s.gen.getVariate.2 }
      if var * s1.comp.m_status.hazard_rate ≤ ft.GetFailureProbability then
        GenerateFailure t j s1
      else .done s1
    else .done s

/-- The call `TestForBinaryFailure`, component.cpp:241-253. -/
def TestForBinaryFailure (mode : String) (t : Int) (s : Sim) : Exec Sim :=
  forLoop (TestForBinaryFailure.body mode t) s.comp.m_failure_types.length 0 s

/-- The start penalty selected by `start`, component.cpp:261-267: three
independent tests on the same string, the last match wins. -/
def startPenalty (c : Component) (start : String) : ℚ :=
  let hazard_mult : ℚ := 0
  let hazard_mult := if start = "HotStart" then c.m_hot_start_penalty else hazard_mult
  let hazard_mult := if start = "WarmStart" then c.m_warm_start_penalty else hazard_mult
  let hazard_mult := if start = "ColdStart" then c.m_cold_start_penalty else hazard_mult
  hazard_mult

/-- The body of the wear-out loop of `TestForFailure`, component.cpp:286-290, on
exact values; `F64.TestForFailure.body` is the same body on binary64 values. -/
def TestForFailure.body (time ramp_mult hazard_mult : ℚ) (t : Int) (opmode : String)
    (j : Nat) (s : Sim) : Exec Sim :=
  match s.comp.m_failure_types[j]? with
  | none => .threw "out_of_range" s
  | some ft =>
    if ft.GetFailureMode = opmode then
      if time * (s.comp.m_status.hazard_rate + hazard_mult) * ramp_mult > ft.GetLifeRemaining then
        GenerateFailure t j s
      else .done s
    else .done s

/-- The call `TestForFailure`, component.cpp:255-293. -/
def TestForFailure (time ramp_mult : ℚ) (t : Int) (start mode : String) (s : Sim) : Exec Sim :=
  let hazard_mult := startPenalty s.comp start
  let wear (opmode : String) (s1 : Sim) : Exec Sim :=
    forLoop (TestForFailure.body time ramp_mult hazard_mult t opmode)
      s1.comp.m_failure_types.length 0 s1
  if mode = "OS" then
    (TestForBinaryFailure mode t s).bind (wear "OF")
  else if mode = "SS" then
    (TestForBinaryFailure mode t s).bind (wear "SF")
  else
    wear mode s

/-- The body of the depletion loop of `Operate`, component.cpp:339-344, on exact
values; `F64.Operate.body` is the same body on binary64 values. -/
def Operate.body (time ramp_mult : ℚ) (read_only : Bool) (opmode : String)
    (j : Nat) (s : Sim) : Exec Sim :=
  match s.comp.m_failure_types[j]? with
  | none => .threw "out_of_range" s
  | some ft =>
    if ft.GetFailureMode = opmode then
      if time * s.comp.m_status.hazard_rate * ramp_mult > ft.GetLifeRemaining ∧ ¬ read_only then
        .threw "failure should be thrown." s
      else
        .done { s with comp := { s.comp with m_failure_types :=
          (s.comp.m_failure_types.set j
            (ft.ReduceLifeRemaining (time * s.comp.m_status.hazard_rate * ramp_mult))) } }
    else .done s

/-- The start penalty is added into the stored rate, component.cpp:313-318. -/
def addStartPenalty (c : Component) (start : String) : Component :=
  let c := if start = "HotStart" then
    { c with m_status := { c.m_status with
        hazard_rate := c.m_status.hazard_rate + c.m_hot_start_penalty } } else c
  let c := if start = "WarmStart" then
    { c with m_status := { c.m_status with
        hazard_rate := c.m_status.hazard_rate + c.m_warm_start_penalty } } else c
  let c := if start = "ColdStart" then
    { c with m_status := { c.m_status with
        hazard_rate := c.m_status.hazard_rate + c.m_cold_start_penalty } } else c
  c

/-- The call `Operate`, component.cpp:296-346. -/
def Operate (time ramp_mult : ℚ) (read_only : Bool) (t : Int) (start mode : String)
    (s : Sim) : Exec Sim :=
  if ¬ s.comp.IsOperational then
    .threw "can't operate a plant in downtime." s
  else
    let s1 := { s with comp := addStartPenalty s.comp start }
    let deplete (opmode : String) (s2 : Sim) : Exec Sim :=
      forLoop (Operate.body time ramp_mult read_only opmode) s2.comp.m_failure_types.length 0 s2
    if mode = "OS" then
      (TestForBinaryFailure mode t s1).bind (deplete "OF")
    else if mode = "SS" then
      (TestForBinaryFailure mode t s1).bind (deplete "SF")
    else
      deplete mode s1

/-- The call `GenerateInitialLifesAndProbs`, component.cpp:414-425: every failure
mode draws its first value, in index order. -/
def GenerateInitialLifesAndProbs.go :
    List FailureType → WELLFiveTwelve → List FailureType × WELLFiveTwelve
  | [], gen => ([], gen)
  | ft :: rest, gen =>
    let r := GenerateInitialLifesAndProbs.go rest (ft.GenerateFailureVariate gen).2
    ((ft.GenerateFailureVariate gen).1 :: r.1, r.2)

/-- The call `GenerateInitialLifesAndProbs`, component.cpp:414-425. -/
def GenerateInitialLifesAndProbs (s : Sim) : Sim :=
  { s with
    comp := { s.comp with m_failure_types :=
      (GenerateInitialLifesAndProbs.go s.comp.m_failure_types s.gen).1 }
    gen := (GenerateInitialLifesAndProbs.go s.comp.m_failure_types s.gen).2 }

/-! ## Sequences of calls -/

/-- One call of the dispatcher on a component. -/
inductive Call where
  | Operate (time ramp_mult : ℚ) (read_only : Bool) (t : Int) (start mode : String)
  | TestForFailure (time ramp_mult : ℚ) (t : Int) (start mode : String)
  | GenerateFailure (t : Int) (fail_idx : Int)
  | ReadFailure (downtime life_remaining : ℚ) (fail_idx : Int) (reset_hazard : Bool)
  | AdvanceDowntime (time : ℚ)
  | Shutdown (time : ℚ)
  | RestoreComponent

/-- Effect of one call. -/
def Call.run : Call → Sim → Exec Sim
  | .Operate time ramp_mult read_only t start mode, s =>
    Libcycle.Operate time ramp_mult read_only t start mode s
  | .TestForFailure time ramp_mult t start mode, s =>
    Libcycle.TestForFailure time ramp_mult t start mode s
  | .GenerateFailure t fail_idx, s => Libcycle.GenerateFailure t fail_idx s
  | .ReadFailure downtime life_remaining fail_idx reset_hazard, s =>
    (s.comp.ReadFailure downtime life_remaining fail_idx reset_hazard).lift
      (fun c => { s with comp := c })
  | .AdvanceDowntime time, s => .done { s with comp := s.comp.AdvanceDowntime time }
  | .Shutdown time, s => .done { s with comp := s.comp.Shutdown time }
  | .RestoreComponent, s => .done { s with comp := s.comp.RestoreComponent }

/-- State after a sequence of calls; a caller that catches an exception goes on
from the state the exception left behind. -/
def runCalls : List Call → Sim → Sim
  | [], s => s
  | c :: cs, s => runCalls cs (c.run s).state

/-- No call of the sequence throws. -/
def noneRaises : List Call → Sim → Bool
  | [], _ => true
  | c :: cs, s => !(c.run s).raised && noneRaises cs (c.run s).state

/-- Arguments of one `AddFailureMode` call. -/
structure ModeConfig where
  component : String
  id : String
  failure_mode : String
  dist_type : String
  alpha : ℚ
  beta : ℚ

/-- A freshly constructed component with its failure modes added
(`AddFailureMode`, in the order of `modes`) and initialised
(`GenerateInitialLifesAndProbs`), attached to the caller's log and generator. -/
def freshSim (ExponentialDist : ℚ → ℚ → String → Distribution)
    (mkDist : String → ℚ → ℚ → Distribution)
    (name type : String) (repair_rate repair_cooldown_time : ℚ)
    (hot_start_penalty warm_start_penalty cold_start_penalty : ℚ)
    (availability_reduction repair_cost : ℚ)
    (modes : List ModeConfig) (events : FailureEvents) (gen : WELLFiveTwelve) :
    Except String Sim :=
  match Component.ctor ExponentialDist name type repair_rate repair_cooldown_time
      hot_start_penalty warm_start_penalty cold_start_penalty
      availability_reduction repair_cost with
  | .error e => .error e
  | .ok c =>
    .ok (GenerateInitialLifesAndProbs
      { comp := modes.foldl
          (fun c m => c.AddFailureMode mkDist m.component m.id m.failure_mode m.dist_type
            m.alpha m.beta) c
        gen := gen
        failure_events := events
        generated := [] })

/-! ## Vocabulary of the statements -/

/-- Start penalty in the words of the spec: the hot, warm or cold penalty,
0 for any other start value. -/
def penaltyOf (c : Component) (start : String) : ℚ :=
  if start = "HotStart" then c.m_hot_start_penalty
  else if start = "WarmStart" then c.m_warm_start_penalty
  else if start = "ColdStart" then c.m_cold_start_penalty
  else 0

/-- A state with its vector of failure modes replaced. -/
def Sim.withModes (s : Sim) (T : List FailureType) : Sim :=
  { s with comp := { s.comp with m_failure_types := T } }

/-- The loop of `TestForBinaryFailure` stopped when it is about to visit index
`k`: the iterations `0 .. k-1` have run. -/
def TestForBinaryFailure.before (mode : String) (t : Int) (k : Nat) (s : Sim) : Exec Sim :=
  forLoop (TestForBinaryFailure.body mode t) k 0 s

/-- A property of the repair distribution and of the pair (operational,
downtime_remaining). -/
def StatusInv (D : Distribution) (R : Bool → ℚ → Prop) (s : Sim) : Prop :=
  s.comp.m_repair_dist = D ∧
    R s.comp.m_status.operational s.comp.m_status.downtime_remaining

/-- Calls named by the operational-flag invariant: `Operate`, `AdvanceDowntime`
and `GenerateFailure`. -/
def Call.isOperateAdvanceGenerate : Call → Bool
  | .Operate _ _ _ _ _ _ => true
  | .AdvanceDowntime _ => true
  | .GenerateFailure _ _ => true
  | _ => false

/-- Calls named by the downtime invariant: `Operate`, `TestForFailure`,
`AdvanceDowntime` and `GenerateFailure`. -/
def Call.isOperateTestAdvanceGenerate : Call → Bool
  | .Operate _ _ _ _ _ _ => true
  | .TestForFailure _ _ _ _ _ => true
  | .AdvanceDowntime _ => true
  | .GenerateFailure _ _ => true
  | _ => false

/-- The time given to an `AdvanceDowntime` call is non-negative (any other call
qualifies). -/
def Call.advancesForward : Call → Bool
  | .AdvanceDowntime time => decide (0 ≤ time)
  | _ => true

/-! ## Concrete components used as test inputs -/

/-- A generator whose every variate is 0. -/
def zeroGen : WELLFiveTwelve := { seq := fun _ => 0, state_i := 0 }

/-- A repair distribution for tests: the cooldown floor plus the size of one
variate; every sample is at least the floor. -/
def floorDist (_rate floor : ℚ) (_kind : String) : Distribution :=
  { GetVariate := fun gen => (floor + |gen.getVariate.1|, gen.getVariate.2) }

/-- A failure distribution for tests: `alpha` plus the size of one variate. -/
def alphaDist (_dist_type : String) (alpha _beta : ℚ) : Distribution :=
  { GetVariate := fun gen => (alpha + |gen.getVariate.1|, gen.getVariate.2) }

/-- An empty event log. -/
def noEvents : FailureEvents := fun _ => none

/-- A component "pump" with the given hazard rate and failure modes, operational,
with hot, warm and cold start penalties 1, 2 and 3 and a repair floor of 1 h. -/
def pump (hazard_rate : ℚ) (modes : List FailureType) : Sim :=
  { comp :=
      { m_name := "pump"
        m_type := "rotating"
        m_hot_start_penalty := 1
        m_warm_start_penalty := 2
        m_cold_start_penalty := 3
        m_repair_cost := 0
        m_availability_reduction := 1
        m_cooldown_time := 1
        m_status :=
          { lifetimes := [], hazard_rate := hazard_rate, downtime_remaining := 0,
            operational := true }
        m_repair_dist := floorDist 1 1 "exponential"
        m_failure_types := modes }
    gen := zeroGen
    failure_events := noEvents
    generated := [] }

/-- A wear-out mode with the given label and life remaining. -/
def wearMode (label : String) (life : ℚ) : FailureType :=
  { failure_mode := label, dist := alphaDist "gamma" 100 1, life_or_prob := life }

/-- The scenario of the spec: one wear-out mode of 100 h, hazard rate 1. -/
def pump100 : Sim := pump 1 [wearMode "OF" 100]

/-- A component whose stored hazard rate is 2 (one hot start since the last
repair) with two wear-out modes of the same operating mode. -/
def pumpTwoModes : Sim := pump 2 [wearMode "OF" 10, wearMode "OF" 10]

/-- A component with one start-type mode of failure probability 1/2 between two
wear-out modes. -/
def pumpStart : Sim :=
  pump 1 [wearMode "OF" 100,
    { failure_mode := "OS", dist := alphaDist "beta" (1 / 2) 1, life_or_prob := 1 / 2 },
    wearMode "SF" 100]

/-- A fresh "pump" built through the constructor, one wear-out mode added and
initialised. -/
def freshPump : Except String Sim :=
  freshSim floorDist alphaDist "pump" "rotating" 1 1 1 2 3 1 0
    [{ component := "pump", id := "0", failure_mode := "OF", dist_type := "gamma",
       alpha := 100, beta := 1 }]
    noEvents zeroGen

/-- The state `freshPump` returns. -/
def freshPumpSim : Sim :=
  { comp :=
      { m_name := "pump"
        m_type := "rotating"
        m_hot_start_penalty := 1
        m_warm_start_penalty := 2
        m_cold_start_penalty := 3
        m_repair_cost := 0
        m_availability_reduction := 1
        m_cooldown_time := 1
        m_status :=
          { lifetimes := [], hazard_rate := 1, downtime_remaining := 0, operational := true }
        m_repair_dist := floorDist 1 1 "exponential"
        m_failure_types :=
          [{ failure_mode := "OF", dist := alphaDist "gamma" 100 1, life_or_prob := 100 }] }
    gen := { seq := fun _ => 0, state_i := 1 }
    failure_events := noEvents
    generated := [] }

/-- A failure, then a repair that stops one nanohour short of the sampled
downtime. -/
def almostRepaired : List Call :=
  [.GenerateFailure 0 0, .AdvanceDowntime (999999999 / 1000000000)]

/-! ## Further vocabulary and member functions -/

/-- The start penalties are non-negative and the stored hazard rate is at
least 1. -/
def HazardInv (s : Sim) : Prop :=
  0 ≤ s.comp.m_hot_start_penalty ∧ 0 ≤ s.comp.m_warm_start_penalty ∧
    0 ≤ s.comp.m_cold_start_penalty ∧ 1 ≤ s.comp.m_status.hazard_rate

/-- The loop of `HoursToFailure`, component.cpp:227-236. The local `hours` is a
double that holds INFINITY or a finite value: a `WithTop ℚ`. The quotient is
the division of `ℚ`; the loop only runs when `ramp_mult` is not 0. -/
def Component.HoursToFailure.loop (c : Component) (ramp_mult : ℚ) (mode : String) :
    Nat → Nat → WithTop ℚ → Except String (WithTop ℚ)
  | 0, _, hours => .ok hours
  | fuel + 1, j, hours =>
    if j < c.m_failure_types.length then
      match c.m_failure_types[j]? with
      | none => .error "out_of_range"
      | some ft =>
        if ft.GetFailureMode = mode then
          Component.HoursToFailure.loop c ramp_mult mode fuel (j + 1)
            (min hours
              ((ft.GetLifeRemaining / (c.m_status.hazard_rate * ramp_mult) : ℚ) : WithTop ℚ))
        else Component.HoursToFailure.loop c ramp_mult mode fuel (j + 1) hours
    else .ok hours

/-- The call `HoursToFailure`, component.cpp:214-238: the minimum is computed into
`hours`, and the function returns INFINITY. -/
def Component.HoursToFailure (c : Component) (ramp_mult : ℚ) (mode : String) :
    Except String (WithTop ℚ) :=
  if ramp_mult = 0 then .ok ⊤
  else
    match Component.HoursToFailure.loop c ramp_mult mode c.m_failure_types.length 0 ⊤ with
    | .error e => .error e
    | .ok _hours => .ok ⊤

/-- Hours to failure in the words of the claim: for `ramp_mult` other than 0 the
minimum, over the failure modes whose label equals `mode`, of
`life_remaining / (hazard_rate * ramp_mult)`, infinity when no mode matches;
infinity for `ramp_mult` equal to 0. -/
def hoursToFailureClaimed (c : Component) (ramp_mult : ℚ) (mode : String) : WithTop ℚ :=
  if ramp_mult = 0 then ⊤
  else
    (((c.m_failure_types.filter (fun ft => decide (ft.GetFailureMode = mode))).map
      (fun ft =>
        ((ft.GetLifeRemaining / (c.m_status.hazard_rate * ramp_mult) : ℚ) : WithTop ℚ))).foldr
      min ⊤)

/-- The name is not empty and its first character is not a decimal digit. -/
def startsWithNonDigit (name : String) : Bool :=
  match name.data with
  | [] => false
  | c :: _ => !c.isDigit

/-- The name is not empty and its last character is not a decimal digit. -/
def endsWithNonDigit (name : String) : Bool :=
  match name.data.reverse with
  | [] => false
  | c :: _ => !c.isDigit

/-- A component name that cannot be confused with the numbers written around it
in the key of an event: it neither starts nor ends with a decimal digit. -/
def keySafeName (name : String) : Bool :=
  startsWithNonDigit name && endsWithNonDigit name

/-! ## Binary64 arithmetic

The statements whose truth depends on how a `double` rounds, overflows or
holds NaN are made on the definitions below: the same member functions, with
every `double` a value of `Dbl` and every operation the IEEE 754 one (the
exact result rounded to nearest, ties to even, one operation at a time). -/

/-- A value of the C++ type `double` (IEEE 754 binary64), up to the sign of zero
and the payload of NaN: NaN, an infinity, or a finite value. A finite value
is a double when rounding leaves it as it is (`isDouble`); `+`, `-` and `*`
return the rounded exact result, and the sign of a zero, which they cannot
observe, is not kept. -/
inductive Dbl where
  | nan : Dbl
  | inf (negative : Bool) : Dbl
  | fin (value : ℚ) : Dbl
deriving DecidableEq

namespace Dbl

/-- The power of two with an integer exponent. -/
def pow2 (e : Int) : ℚ :=
  if 0 ≤ e then ((2 ^ e.toNat : Nat) : ℚ) else 1 / ((2 ^ (-e).toNat : Nat) : ℚ)

/-- The number of binary digits of `n` (0 for 0); `fuel` bounds the recursion
and `n` itself is enough. -/
def bitLength : Nat → Nat → Nat
  | 0, _ => 0
  | fuel + 1, n => if n = 0 then 0 else bitLength fuel (n / 2) + 1

/-- The floor of the base 2 logarithm of n / d, for positive n and d: the
difference of the bit lengths, or one less. -/
def binade (n d : Nat) : Int :=
  let e0 : Int := (bitLength n n : Int) - (bitLength d d : Int)
  if 0 ≤ e0 then
    if d * 2 ^ e0.toNat ≤ n then e0 else e0 - 1
  else
    if d ≤ n * 2 ^ (-e0).toNat then e0 else e0 - 1

/-- The integer nearest to n / d, a tie going to the even one. -/
def nearestEven (n d : Nat) : Nat :=
  let f := n / d
  let r := n % d
  if 2 * r < d then f
  else if d < 2 * r then f + 1
  else if f % 2 = 0 then f else f + 1

/-- The magnitude n / d (n, d positive) rounded to binary64: 53 significant bits,
the last place never below 2^-1074; `none` when the rounded value does not
fit (it is 2^1024 or more). -/
def roundMagnitude (n d : Nat) : Option ℚ :=
  let s : Int := max (binade n d - 52) (-1074)
  let m : Nat :=
    if 0 ≤ s then nearestEven n (d * 2 ^ s.toNat) else nearestEven (n * 2 ^ (-s).toNat) d
  let y : ℚ := (m : ℚ) * pow2 s
  if pow2 1024 ≤ y then none else some y

/-- The double nearest to the exact value x (round to nearest, ties to even), an
infinity on overflow. -/
def round (x : ℚ) : Dbl :=
  if x = 0 then fin 0
  else
    match roundMagnitude x.num.natAbs x.den with
    | none => inf (decide (x < 0))
    | some y => fin (if x < 0 then -y else y)

/-- The sum `a + b` of two doubles. -/
def add : Dbl → Dbl → Dbl
  | nan, _ => nan
  | _, nan => nan
  | inf s, inf s' => if s = s' then inf s else nan
  | inf s, fin _ => inf s
  | fin _, inf s => inf s
  | fin a, fin b => round (a + b)

/-- The difference `a - b` of two doubles. -/
def sub : Dbl → Dbl → Dbl
  | nan, _ => nan
  | _, nan => nan
  | inf s, inf s' => if s = s' then nan else inf s
  | inf s, fin _ => inf s
  | fin _, inf s => inf (!s)
  | fin a, fin b => round (a - b)

/-- The product `a * b` of two doubles. -/
def mul : Dbl → Dbl → Dbl
  | nan, _ => nan
  | _, nan => nan
  | inf s, inf s' => inf (s != s')
  | inf s, fin b => if b = 0 then nan else inf (s != decide (b < 0))
  | fin a, inf s => if a = 0 then nan else inf (s != decide (a < 0))
  | fin a, fin b => round (a * b)

/-- The comparison `a < b` of two doubles: false when either is NaN. -/
def lt : Dbl → Dbl → Bool
  | nan, _ => false
  | _, nan => false
  | inf s, inf s' => s && !s'
  | inf s, fin _ => s
  | fin _, inf s => !s
  | fin a, fin b => decide (a < b)

/-- The comparison `a <= b` of two doubles: false when either is NaN. -/
def le : Dbl → Dbl → Bool
  | nan, _ => false
  | _, nan => false
  | inf s, inf s' => s || !s'
  | inf s, fin _ => s
  | fin _, inf s => !s
  | fin a, fin b => decide (a ≤ b)

instance : Add Dbl := ⟨add⟩
instance : Sub Dbl := ⟨sub⟩
instance : Mul Dbl := ⟨mul⟩
instance : LT Dbl := ⟨fun a b => lt a b = true⟩
instance : LE Dbl := ⟨fun a b => le a b = true⟩
instance (a b : Dbl) : Decidable (a < b) := inferInstanceAs (Decidable (lt a b = true))
instance (a b : Dbl) : Decidable (a ≤ b) := inferInstanceAs (Decidable (le a b = true))
instance : OfNat Dbl 0 := ⟨fin 0⟩
instance : OfNat Dbl 1 := ⟨fin 1⟩

/-- The value is a double: rounding leaves it as it is. -/
def isDouble : Dbl → Bool
  | fin a => decide (round a = fin a)
  | _ => true

/-- The value is finite: neither NaN nor an infinity. -/
def isFinite : Dbl → Bool
  | fin _ => true
  | _ => false

end Dbl

/-! ## The state machine on binary64 values

The member functions of `Component` once more, with `double` read as `Dbl`.
The conventions are those of the first embedding (`Exec`, `Sim`, the ghost
history `generated`, the absent classes modelled from the spec). -/

namespace F64

/-- Modelled from the spec: the generator of `well512.h`, as the sequence of
doubles it will return and the number of values already returned. -/
structure WELLFiveTwelve where
  seq : ℕ → Dbl
  state_i : ℕ

/-- Modelled from the spec: `nextVariate() -> double`, one value per call, the
state advances by one. -/
def WELLFiveTwelve.getVariate (gen : WELLFiveTwelve) : Dbl × WELLFiveTwelve :=
  (gen.seq gen.state_i, { gen with state_i := gen.state_i + 1 })

/-- Modelled from the spec: class `Distribution`, a single
`sample(rng) -> double` capability. -/
structure Distribution where
  GetVariate : WELLFiveTwelve → Dbl × WELLFiveTwelve

/-- Modelled from the spec: class `FailureType`: the operating-mode label, the
bound distribution and the life-or-probability slot. -/
structure FailureType where
  failure_mode : String
  dist : Distribution
  life_or_prob : Dbl

namespace FailureType

/-- Modelled from the spec: accessor for the mode label. -/
def GetFailureMode (ft : FailureType) : String := ft.failure_mode

/-- Modelled from the spec: accessor for the life-or-probability slot. -/
def GetLifeOrProb (ft : FailureType) : Dbl := ft.life_or_prob

/-- Modelled from the spec: accessor for life remaining (the shared slot). -/
def GetLifeRemaining (ft : FailureType) : Dbl := ft.life_or_prob

/-- Modelled from the spec: accessor for the failure probability (the shared slot). -/
def GetFailureProbability (ft : FailureType) : Dbl := ft.life_or_prob

/-- Modelled from the spec: `setLifeOrProb(value)`, direct overwrite without
sampling. -/
def SetLifeOrProb (ft : FailureType) (value : Dbl) : FailureType :=
  { ft with life_or_prob := value }

/-- Modelled from the spec: `reduceLifeRemaining(delta_hours)` subtracts from life
remaining and does not clamp at zero. -/
def ReduceLifeRemaining (ft : FailureType) (delta_hours : Dbl) : FailureType :=
  { ft with life_or_prob := ft.life_or_prob - delta_hours }

/-- Modelled from the spec: `regenerate(rng)` draws a fresh sample from the bound
distribution and overwrites the life-or-probability value. -/
def GenerateFailureVariate (ft : FailureType) (gen : WELLFiveTwelve) :
    FailureType × WELLFiveTwelve :=
  ({ ft with life_or_prob := (ft.dist.GetVariate gen).1 }, (ft.dist.GetVariate gen).2)

end FailureType

/-- The record `failure_event` (constructor at component.cpp:11). -/
structure failure_event where
  time : Int
  component : String
  fail_idx : Int
  duration : Dbl
  new_life : Dbl
deriving DecidableEq

/-- The record `ComponentStatus` (component.cpp:25). -/
structure ComponentStatus where
  lifetimes : List Dbl
  hazard_rate : Dbl
  downtime_remaining : Dbl
  operational : Bool

/-- The data members of `Component` that component.cpp reads or writes. -/
structure Component where
  m_name : String
  m_type : String
  m_hot_start_penalty : Dbl
  m_warm_start_penalty : Dbl
  m_cold_start_penalty : Dbl
  m_repair_cost : Dbl
  m_availability_reduction : Dbl
  m_cooldown_time : Dbl
  m_status : ComponentStatus
  m_repair_dist : Distribution
  m_failure_types : List FailureType

/-- The map `std::unordered_map<std::string, failure_event>` owned by the caller. -/
abbrev FailureEvents := String → Option failure_event

/-- The assignment `events[label] = ev` of the map: insert or overwrite. -/
def FailureEvents.assign (events : FailureEvents) (label : String) (ev : failure_event) :
    FailureEvents :=
  fun k => if k = label then some ev else events k

/-- A component together with the generator and the caller's event log;
`generated` is the ghost history of the `fail_idx` of every `GenerateFailure`
call, oldest first. -/
structure Sim where
  comp : Component
  gen : WELLFiveTwelve
  failure_events : FailureEvents
  generated : List Int

namespace Component

/-- The constructor, component.cpp:35-79. `ExponentialDist` stands for the
constructor of the repair distribution, whose code is not in the sources. -/
def ctor (ExponentialDist : Dbl → Dbl → String → Distribution)
    (name type : String) (repair_rate repair_cooldown_time : Dbl)
    (hot_start_penalty warm_start_penalty cold_start_penalty : Dbl)
    (availability_reduction repair_cost : Dbl) : Except String Component :=
  if name = "MAINTENANCE" then
    .error "cannot name a component 'MAINTENANCE'"
  else
    .ok
      { m_name := name
        m_type := type
        m_hot_start_penalty := hot_start_penalty
        m_warm_start_penalty := warm_start_penalty
        m_cold_start_penalty := cold_start_penalty
        m_repair_cost := repair_cost
        m_availability_reduction := availability_reduction
        m_cooldown_time := repair_cooldown_time
        m_status :=
          { lifetimes := [], hazard_rate := 1, downtime_remaining := 0, operational := true }
        m_repair_dist := ExponentialDist repair_rate repair_cooldown_time "exponential"
        m_failure_types := [] }

/-- The accessor `GetName`, component.cpp:94. -/
def GetName (c : Component) : String := c.m_name

/-- The call `AddFailureMode`, component.cpp:110-114. `mkDist` stands for the part
of the `FailureType` constructor that binds the distribution. -/
def AddFailureMode (mkDist : String → Dbl → Dbl → Distribution) (c : Component)
    (_component _id failure_mode dist_type : String) (alpha beta : Dbl) : Component :=
  { c with m_failure_types :=
      c.m_failure_types ++
        [{ failure_mode := failure_mode, dist := mkDist dist_type alpha beta, life_or_prob := 0 }] }

/-- The accessor `IsOperational`, component.cpp:138. -/
def IsOperational (c : Component) : Bool := c.m_status.operational

/-- The call `Shutdown`, component.cpp:144-154. -/
def Shutdown (c : Component) (time : Dbl) : Component :=
  { c with m_status := { c.m_status with operational := false, downtime_remaining := time } }

/-- The call `RestoreComponent`, component.cpp:157-161. -/
def RestoreComponent (c : Component) : Component :=
  { c with m_status := { c.m_status with operational := true, downtime_remaining := 0 } }

/-- The call `ResetHazardRate`, component.cpp:164-167. -/
def ResetHazardRate (c : Component) : Component :=
  { c with m_status := { c.m_status with hazard_rate := 1 } }

/-- The call `SetDowntimeRemaining`, component.cpp:176-179. -/
def SetDowntimeRemaining (c : Component) (time : Dbl) : Component :=
  { c with m_status := { c.m_status with downtime_remaining := time } }

/-- The call `ReadFailure`, component.cpp:348-363. The parameter `reset_hazard` is
not read by the body. -/
def ReadFailure (c : Component) (downtime life_remaining : Dbl) (fail_idx : Int)
    (_reset_hazard : Bool) : Exec Component :=
  let c1 := { c with m_status := { c.m_status with operational := false } }
  let c2 := c1.SetDowntimeRemaining downtime
  match vectorAt c2.m_failure_types fail_idx with
  | none => .threw "out_of_range" c2
  | some ft =>
    let c3 := { c2 with m_failure_types :=
      c2.m_failure_types.set fail_idx.toNat (ft.SetLifeOrProb life_remaining) }
    .done c3.ResetHazardRate

/-- The call `AdvanceDowntime`, component.cpp:392-401: the stored difference is the
double `downtime_remaining - time`, and the test `<= 0.0` is false for NaN. -/
def AdvanceDowntime (c : Component) (time : Dbl) : Component :=
  let c1 := { c with m_status :=
    { c.m_status with downtime_remaining := c.m_status.downtime_remaining - time } }
  if c1.m_status.downtime_remaining ≤ 0 then
    { c1 with m_status := { c1.m_status with downtime_remaining := 0, operational := true } }
  else c1

/-- The call `GetLifetimesAndProbs`, component.cpp:403-412. -/
def GetLifetimesAndProbs (c : Component) : List Dbl :=
  c.m_failure_types.map FailureType.GetLifeOrProb

end Component

/-- The loop `for (size_t j = 0; j < m_failure_types.size(); j++) body`; `fuel` is the
size of the vector at loop entry. -/
def forLoop (body : Nat → Sim → Exec Sim) : Nat → Nat → Sim → Exec Sim
  | 0, _, s => .done s
  | fuel + 1, j, s =>
    if j < s.comp.m_failure_types.length then
      (body j s).bind (forLoop body fuel (j + 1))
    else .done s

/-- The call `GenerateTimeToRepair`, component.cpp:200-211. -/
def GenerateTimeToRepair (s : Sim) : Sim :=
  { s with
    comp := { s.comp with m_status :=
      { s.comp.m_status with downtime_remaining := (s.comp.m_repair_dist.GetVariate s.gen).1 } }
    gen := (s.comp.m_repair_dist.GetVariate s.gen).2 }

/-- The call `GenerateFailure`, component.cpp:366-389. -/
def GenerateFailure (t : Int) (fail_idx : Int) (s : Sim) : Exec Sim :=
  let s0 := { s with generated := s.generated ++ [fail_idx] }
  let s1 := { s0 with comp := { s0.comp with m_status :=
    { s0.comp.m_status with operational := false } } }
  let s2 := GenerateTimeToRepair s1
  match vectorAt s2.comp.m_failure_types fail_idx with
  | none => .threw "out_of_range" s2
  | some ft =>
    let s3 := { s2 with
      comp := { s2.comp with m_failure_types :=
        (s2.comp.m_failure_types.set fail_idx.toNat (ft.GenerateFailureVariate s2.gen).1) }
      gen := (ft.GenerateFailureVariate s2.gen).2 }
    let s4 := { s3 with comp := s3.comp.ResetHazardRate }
    let label := eventLabel t s4.comp.GetName fail_idx
    match vectorAt s4.comp.m_failure_types fail_idx with
    | none => .threw "out_of_range" s4
    | some ft4 =>
      .done { s4 with failure_events := (s4.failure_events.assign label
        { time := t, component := s4.comp.GetName, fail_idx := fail_idx,
          duration := s4.comp.m_status.downtime_remaining, new_life := ft4.GetLifeOrProb }) }

/-- The body of the loop of `TestForBinaryFailure`, component.cpp:246-251. -/
def TestForBinaryFailure.body (mode : String) (t : Int) (j : Nat) (s : Sim) : Exec Sim :=
  match s.comp.m_failure_types[j]? with
  | none => .threw "out_of_range" s
  | some ft =>
    if ft.GetFailureMode = mode then
      let var := s.gen.getVariate.1
      let s1 := { s with gen := s.gen.getVariate.2 }
      if var * s1.comp.m_status.hazard_rate ≤ ft.GetFailureProbability then
        GenerateFailure t j s1
      else .done s1
    else .done s

/-- The call `TestForBinaryFailure`, component.cpp:241-253. -/
def TestForBinaryFailure (mode : String) (t : Int) (s : Sim) : Exec Sim :=
  forLoop (TestForBinaryFailure.body mode t) s.comp.m_failure_types.length 0 s

/-- The start penalty selected by `start`, component.cpp:261-267. -/
def startPenalty (c : Component) (start : String) : Dbl :=
  let hazard_mult : Dbl := 0
  let hazard_mult := if start = "HotStart" then c.m_hot_start_penalty else hazard_mult
  let hazard_mult := if start = "WarmStart" then c.m_warm_start_penalty else hazard_mult
  let hazard_mult := if start = "ColdStart" then c.m_cold_start_penalty else hazard_mult
  hazard_mult

/-- The body of the wear-out loop of `TestForFailure`, component.cpp:286-290. -/
def TestForFailure.body (time ramp_mult hazard_mult : Dbl) (t : Int) (opmode : String)
    (j : Nat) (s : Sim) : Exec Sim :=
  match s.comp.m_failure_types[j]? with
  | none => .threw "out_of_range" s
  | some ft =>
    if ft.GetFailureMode = opmode then
      if time * (s.comp.m_status.hazard_rate + hazard_mult) * ramp_mult > ft.GetLifeRemaining then
        GenerateFailure t j s
      else .done s
    else .done s

/-- The call `TestForFailure`, component.cpp:255-293. -/
def TestForFailure (time ramp_mult : Dbl) (t : Int) (start mode : String) (s : Sim) : Exec Sim :=
  let hazard_mult := startPenalty s.comp start
  let wear (opmode : String) (s1 : Sim) : Exec Sim :=
    forLoop (TestForFailure.body time ramp_mult hazard_mult t opmode)
      s1.comp.m_failure_types.length 0 s1
  if mode = "OS" then
    (TestForBinaryFailure mode t s).bind (wear "OF")
  else if mode = "SS" then
    (TestForBinaryFailure mode t s).bind (wear "SF")
  else
    wear mode s

/-- The body of the depletion loop of `Operate`, component.cpp:339-344: the test
`>` is false when the product is NaN, and the product is then subtracted. -/
def Operate.body (time ramp_mult : Dbl) (read_only : Bool) (opmode : String)
    (j : Nat) (s : Sim) : Exec Sim :=
  match s.comp.m_failure_types[j]? with
  | none => .threw "out_of_range" s
  | some ft =>
    if ft.GetFailureMode = opmode then
      if time * s.comp.m_status.hazard_rate * ramp_mult > ft.GetLifeRemaining ∧ ¬ read_only then
        .threw "failure should be thrown." s
      else
        .done { s with comp := { s.comp with m_failure_types :=
          (s.comp.m_failure_types.set j
            (ft.ReduceLifeRemaining (time * s.comp.m_status.hazard_rate * ramp_mult))) } }
    else .done s

/-- The start penalty is added into the stored rate, component.cpp:313-318. -/
def addStartPenalty (c : Component) (start : String) : Component :=
  let c := if start = "HotStart" then
    { c with m_status := { c.m_status with
        hazard_rate := c.m_status.hazard_rate + c.m_hot_start_penalty } } else c
  let c := if start = "WarmStart" then
    { c with m_status := { c.m_status with
        hazard_rate := c.m_status.hazard_rate + c.m_warm_start_penalty } } else c
  let c := if start = "ColdStart" then
    { c with m_status := { c.m_status with
        hazard_rate := c.m_status.hazard_rate + c.m_cold_start_penalty } } else c
  c

/-- The call `Operate`, component.cpp:296-346. -/
def Operate (time ramp_mult : Dbl) (read_only : Bool) (t : Int) (start mode : String)
    (s : Sim) : Exec Sim :=
  if ¬ s.comp.IsOperational then
    .threw "can't operate a plant in downtime." s
  else
    let s1 := { s with comp := addStartPenalty s.comp start }
    let deplete (opmode : String) (s2 : Sim) : Exec Sim :=
      forLoop (Operate.body time ramp_mult read_only opmode) s2.comp.m_failure_types.length 0 s2
    if mode = "OS" then
      (TestForBinaryFailure mode t s1).bind (deplete "OF")
    else if mode = "SS" then
      (TestForBinaryFailure mode t s1).bind (deplete "SF")
    else
      deplete mode s1

/-- The call `GenerateInitialLifesAndProbs`, component.cpp:414-425: every failure
mode draws its first value, in index order. -/
def GenerateInitialLifesAndProbs.go :
    List FailureType → WELLFiveTwelve → List FailureType × WELLFiveTwelve
  | [], gen => ([], gen)
  | ft :: rest, gen =>
    let r := GenerateInitialLifesAndProbs.go rest (ft.GenerateFailureVariate gen).2
    ((ft.GenerateFailureVariate gen).1 :: r.1, r.2)

/-- The call `GenerateInitialLifesAndProbs`, component.cpp:414-425. -/
def GenerateInitialLifesAndProbs (s : Sim) : Sim :=
  { s with
    comp := { s.comp with m_failure_types :=
      (GenerateInitialLifesAndProbs.go s.comp.m_failure_types s.gen).1 }
    gen := (GenerateInitialLifesAndProbs.go s.comp.m_failure_types s.gen).2 }

/-- One call of the dispatcher on a component. -/
inductive Call where
  | Operate (time ramp_mult : Dbl) (read_only : Bool) (t : Int) (start mode : String)
  | TestForFailure (time ramp_mult : Dbl) (t : Int) (start mode : String)
  | GenerateFailure (t : Int) (fail_idx : Int)
  | ReadFailure (downtime life_remaining : Dbl) (fail_idx : Int) (reset_hazard : Bool)
  | AdvanceDowntime (time : Dbl)
  | Shutdown (time : Dbl)
  | RestoreComponent

/-- Effect of one call. -/
def Call.run : Call → Sim → Exec Sim
  | .Operate time ramp_mult read_only t start mode, s =>
    F64.Operate time ramp_mult read_only t start mode s
  | .TestForFailure time ramp_mult t start mode, s =>
    F64.TestForFailure time ramp_mult t start mode s
  | .GenerateFailure t fail_idx, s => F64.GenerateFailure t fail_idx s
  | .ReadFailure downtime life_remaining fail_idx reset_hazard, s =>
    (s.comp.ReadFailure downtime life_remaining fail_idx reset_hazard).lift
      (fun c => { s with comp := c })
  | .AdvanceDowntime time, s => .done { s with comp := s.comp.AdvanceDowntime time }
  | .Shutdown time, s => .done { s with comp := s.comp.Shutdown time }
  | .RestoreComponent, s => .done { s with comp := s.comp.RestoreComponent }

/-- State after a sequence of calls; a caller that catches an exception goes on
from the state the exception left behind. -/
def runCalls : List Call → Sim → Sim
  | [], s => s
  | c :: cs, s => runCalls cs (c.run s).state

/-- No call of the sequence throws. -/
def noneRaises : List Call → Sim → Bool
  | [], _ => true
  | c :: cs, s => !(c.run s).raised && noneRaises cs (c.run s).state

/-- Arguments of one `AddFailureMode` call. -/
structure ModeConfig where
  component : String
  id : String
  failure_mode : String
  dist_type : String
  alpha : Dbl
  beta : Dbl

/-- A freshly constructed component with its failure modes added and
initialised, attached to the caller's log and generator. -/
def freshSim (ExponentialDist : Dbl → Dbl → String → Distribution)
    (mkDist : String → Dbl → Dbl → Distribution)
    (name type : String) (repair_rate repair_cooldown_time : Dbl)
    (hot_start_penalty warm_start_penalty cold_start_penalty : Dbl)
    (availability_reduction repair_cost : Dbl)
    (modes : List ModeConfig) (events : FailureEvents) (gen : WELLFiveTwelve) :
    Except String Sim :=
  match Component.ctor ExponentialDist name type repair_rate repair_cooldown_time
      hot_start_penalty warm_start_penalty cold_start_penalty
      availability_reduction repair_cost with
  | .error e => .error e
  | .ok c =>
    .ok (GenerateInitialLifesAndProbs
      { comp := modes.foldl
          (fun c m => c.AddFailureMode mkDist m.component m.id m.failure_mode m.dist_type
            m.alpha m.beta) c
        gen := gen
        failure_events := events
        generated := [] })

/-- A state with its vector of failure modes replaced. -/
def Sim.withModes (s : Sim) (T : List FailureType) : Sim :=
  { s with comp := { s.comp with m_failure_types := T } }

/-- Calls named by the downtime invariant: `Operate`, `TestForFailure`,
`AdvanceDowntime` and `GenerateFailure`. -/
def Call.isOperateTestAdvanceGenerate : Call → Bool
  | .Operate _ _ _ _ _ _ => true
  | .TestForFailure _ _ _ _ _ => true
  | .AdvanceDowntime _ => true
  | .GenerateFailure _ _ => true
  | _ => false

/-- The subtraction of `AdvanceDowntime` is defined at every such call of the
sequence: the time is not NaN, and it is not +INFINITY while
downtime_remaining is +INFINITY. -/
def advanceTimesDefined : List Call → Sim → Bool
  | [], _ => true
  | .AdvanceDowntime time :: cs, s =>
    decide (time ≠ Dbl.nan) &&
      !(decide (time = Dbl.inf false) &&
        decide (s.comp.m_status.downtime_remaining = Dbl.inf false)) &&
      advanceTimesDefined cs ((Call.AdvanceDowntime time).run s).state
  | c :: cs, s => advanceTimesDefined cs (c.run s).state

/-- Calls of committed operation: `Operate` with `read_only` false,
`GenerateFailure`, `ReadFailure` with a non-negative life, `AdvanceDowntime`. -/
def Call.isCommitted : Call → Bool
  | .Operate _ _ read_only _ _ _ => !read_only
  | .GenerateFailure _ _ => true
  | .ReadFailure _ life_remaining _ _ => decide (0 ≤ life_remaining)
  | .AdvanceDowntime _ => true
  | _ => false

/-- A property of the repair distribution and of the pair (operational,
downtime_remaining). -/
def StatusInv (D : Distribution) (R : Bool → Dbl → Prop) (s : Sim) : Prop :=
  s.comp.m_repair_dist = D ∧
    R s.comp.m_status.operational s.comp.m_status.downtime_remaining

/-- No failure mode has a negative life-or-prob value, and every mode
distribution only returns values that are at least 0. -/
def LifeInv (s : Sim) : Prop :=
  ∀ ft ∈ s.comp.m_failure_types,
    ¬ ft.GetLifeRemaining < 0 ∧ ∀ g, 0 ≤ (ft.dist.GetVariate g).1

/-- The difference `d - t1 - ... - tk` as the repeated `-=` of `AdvanceDowntime`
computes it: from the left, every subtraction rounded. -/
def remainingAfter (d : Dbl) (ts : List Dbl) : Dbl :=
  ts.foldl (fun r t => r - t) d

/-- The double 0.7 (the nearest to 7/10). -/
def zeroPointSeven : Dbl := Dbl.fin (3152519739159347 / 4503599627370496)

/-- The double 0.1 (the nearest to 1/10). -/
def zeroPointOne : Dbl := Dbl.fin (3602879701896397 / 36028797018963968)

/-- The double 0.3 (the nearest to 3/10). -/
def zeroPointThree : Dbl := Dbl.fin (5404319552844595 / 18014398509481984)

/-- A generator whose every variate is 0. -/
def zeroGen : WELLFiveTwelve := { seq := fun _ => 0, state_i := 0 }

/-- A distribution for tests that returns the given value and consumes one
variate. -/
def constDist (value : Dbl) : Distribution :=
  { GetVariate := fun gen => (value, gen.getVariate.2) }

/-- A repair distribution for tests: it returns the cooldown floor. -/
def floorDist (_rate floor : Dbl) (_kind : String) : Distribution := constDist floor

/-- A failure distribution for tests: it returns `alpha`. -/
def alphaDist (_dist_type : String) (alpha _beta : Dbl) : Distribution := constDist alpha

/-- An empty event log. -/
def noEvents : FailureEvents := fun _ => none

/-- A component "pump" with the given hazard rate and failure modes, operational,
with hot, warm and cold start penalties 1, 2 and 3 and a repair floor of 1 h. -/
def pump (hazard_rate : Dbl) (modes : List FailureType) : Sim :=
  { comp :=
      { m_name := "pump"
        m_type := "rotating"
        m_hot_start_penalty := 1
        m_warm_start_penalty := Dbl.fin 2
        m_cold_start_penalty := Dbl.fin 3
        m_repair_cost := 0
        m_availability_reduction := 1
        m_cooldown_time := 1
        m_status :=
          { lifetimes := [], hazard_rate := hazard_rate, downtime_remaining := 0,
            operational := true }
        m_repair_dist := floorDist 1 1 "exponential"
        m_failure_types := modes }
    gen := zeroGen
    failure_events := noEvents
    generated := [] }

/-- A wear-out mode with the given label and life remaining; a fresh life is 100. -/
def wearMode (label : String) (life : Dbl) : FailureType :=
  { failure_mode := label, dist := alphaDist "gamma" (Dbl.fin 100) 1, life_or_prob := life }

/-- The scenario of the spec: one wear-out mode of 100 h, hazard rate 1. -/
def pump100 : Sim := pump 1 [wearMode "OF" (Dbl.fin 100)]

/-- The pump after a read-only `Operate` of 150 h: its wear-out mode is overdrawn
by 50 h. -/
def pumpOverdrawn : Sim := pump 1 [wearMode "OF" (Dbl.fin (-50))]

/-- A fresh "pump" built through the constructor, one wear-out mode added and
initialised. -/
def freshPump : Except String Sim :=
  freshSim floorDist alphaDist "pump" "rotating" 1 1 1 (Dbl.fin 2) (Dbl.fin 3) 1 0
    [{ component := "pump", id := "0", failure_mode := "OF", dist_type := "gamma",
       alpha := Dbl.fin 100, beta := 1 }]
    noEvents zeroGen

/-- The state `freshPump` returns. -/
def freshPumpSim : Sim :=
  { (pump 1 [wearMode "OF" (Dbl.fin 100)]) with gen := { seq := fun _ => 0, state_i := 1 } }

end F64

/-! ## Theorems -/

/-! ### Auxiliary facts -/

theorem vectorAt_eq_some {α : Type} {v : List α} {i : Int} {a : α}
    (h : vectorAt v i = some a) : 0 ≤ i ∧ i.toNat < v.length ∧ v[i.toNat]? = some a := by
  unfold vectorAt at h
  split at h
  · simp at h
  · rename_i hi
    have hlt : i.toNat < v.length := by
      by_contra hc
      rw [List.getElem?_eq_none (by omega)] at h
      simp at h
    exact ⟨by omega, hlt, h⟩

theorem vectorAt_of_valid {α : Type} (v : List α) (i : Int)
    (h0 : 0 ≤ i) (h1 : i < v.length) : ∃ a, vectorAt v i = some a ∧ v[i.toNat]? = some a := by
  have hlt : i.toNat < v.length := by omega
  refine ⟨v[i.toNat], ?_, ?_⟩
  · unfold vectorAt
    rw [if_neg (by omega)]
    exact List.getElem?_eq_getElem hlt
  · exact List.getElem?_eq_getElem hlt

theorem vectorAt_natCast {α : Type} (v : List α) (j : Nat) : vectorAt v (j : Int) = v[j]? := by
  unfold vectorAt
  simp

/-- The state `GenerateFailure` returns for a valid index, field by field. -/
theorem GenerateFailure_eq (t fail_idx : Int) (s : Sim) (ft : FailureType)
    (h : vectorAt s.comp.m_failure_types fail_idx = some ft) :
    GenerateFailure t fail_idx s = .done
      { comp := { s.comp with
          m_status := { s.comp.m_status with
            operational := false
            downtime_remaining := (s.comp.m_repair_dist.GetVariate s.gen).1
            hazard_rate := 1 }
          m_failure_types := s.comp.m_failure_types.set fail_idx.toNat
            { ft with life_or_prob :=
                (ft.dist.GetVariate (s.comp.m_repair_dist.GetVariate s.gen).2).1 } }
        gen := (ft.dist.GetVariate (s.comp.m_repair_dist.GetVariate s.gen).2).2
        failure_events := s.failure_events.assign (eventLabel t s.comp.m_name fail_idx)
          { time := t, component := s.comp.m_name, fail_idx := fail_idx
            duration := (s.comp.m_repair_dist.GetVariate s.gen).1
            new_life := (ft.dist.GetVariate (s.comp.m_repair_dist.GetVariate s.gen).2).1 }
        generated := s.generated ++ [fail_idx] } := by
  obtain ⟨h0, hlt, hget⟩ := vectorAt_eq_some h
  have h4 : vectorAt (s.comp.m_failure_types.set fail_idx.toNat
      { ft with life_or_prob :=
          (ft.dist.GetVariate (s.comp.m_repair_dist.GetVariate s.gen).2).1 }) fail_idx
      = some { ft with life_or_prob :=
          (ft.dist.GetVariate (s.comp.m_repair_dist.GetVariate s.gen).2).1 } := by
    unfold vectorAt
    rw [if_neg (by omega)]
    simp [List.getElem?_set, hlt]
  simp only [GenerateFailure, GenerateTimeToRepair, h, FailureType.GenerateFailureVariate,
    Component.ResetHazardRate, Component.GetName, h4, FailureType.GetLifeOrProb]


theorem Exec.bind_assoc {σ : Type} (e : Exec σ) (f g : σ → Exec σ) :
    (e.bind f).bind g = e.bind (fun s => (f s).bind g) := by
  cases e <;> rfl

theorem Exec.bind_done {σ : Type} (s : σ) (f : σ → Exec σ) :
    (Exec.done s).bind f = f s := rfl

theorem Exec.bind_threw {σ : Type} (w : String) (s : σ) (f : σ → Exec σ) :
    (Exec.threw w s).bind f = Exec.threw w s := rfl

theorem Exec.bind_done_right {σ : Type} (e : Exec σ) :
    e.bind (fun s => Exec.done s) = e := by
  cases e <;> rfl

/-- One more unit of fuel runs one more iteration at the end. -/
theorem forLoop_succ (body : Nat → Sim → Exec Sim) (k j : Nat) (s : Sim) :
    forLoop body (k + 1) j s =
      (forLoop body k j s).bind
        (fun s' => if j + k < s'.comp.m_failure_types.length then body (j + k) s' else .done s') := by
  induction k generalizing j s with
  | zero =>
    by_cases hj : j < s.comp.m_failure_types.length
    · simp [forLoop, hj, Exec.bind_done_right, Exec.bind_done]
    · simp [forLoop, hj, Exec.bind_done]
  | succ k ih =>
    rw [forLoop]
    split
    · rename_i hj
      conv_rhs => rw [forLoop, if_pos hj]
      rw [Exec.bind_assoc]
      congr 1
      funext s'
      rw [ih]
      have : j + 1 + k = j + (k + 1) := by omega
      rw [this]
    · rename_i hj
      conv_rhs => rw [forLoop, if_neg hj]
      rw [Exec.bind_done, if_neg (by omega)]

/-- Invariant rule for the loop over the failure modes: P j holds before
iteration j, the body keeps the size of the vector, and Q describes the
state left by an exception. -/
theorem forLoop_rule (body : Nat → Sim → Exec Sim) (n : Nat)
    (P : Nat → Sim → Prop) (Q : Sim → Prop)
    (hbody : ∀ j s, j < n → s.comp.m_failure_types.length = n → P j s →
      match body j s with
      | .done s' => s'.comp.m_failure_types.length = n ∧ P (j + 1) s'
      | .threw _ s' => Q s') :
    ∀ fuel j s, j + fuel ≤ n → s.comp.m_failure_types.length = n → P j s →
      match forLoop body fuel j s with
      | .done s' => s'.comp.m_failure_types.length = n ∧ P (j + fuel) s'
      | .threw _ s' => Q s' := by
  intro fuel
  induction fuel with
  | zero =>
    intro j s _ hn hP
    simp only [forLoop]
    exact ⟨hn, hP⟩
  | succ fuel ih =>
    intro j s hj hn hP
    rw [forLoop, if_pos (by omega)]
    have hb := hbody j s (by omega) hn hP
    cases hbj : body j s with
    | done s' =>
      rw [hbj] at hb
      rw [Exec.bind_done]
      have := ih (j + 1) s' (by omega) hb.1 hb.2
      rwa [show j + 1 + fuel = j + (fuel + 1) by omega] at this
    | threw w s' =>
      rw [hbj] at hb
      rw [Exec.bind_threw]
      exact hb

/-- A property kept by the body, whether it returns or throws, is kept by the
loop. -/
theorem forLoop_preserves (body : Nat → Sim → Exec Sim) (I : Sim → Prop)
    (hbody : ∀ j s, I s → I (body j s).state) :
    ∀ fuel j s, I s → I (forLoop body fuel j s).state := by
  intro fuel
  induction fuel with
  | zero => intro j s hI; exact hI
  | succ fuel ih =>
    intro j s hI
    rw [forLoop]
    split
    · have hb := hbody j s hI
      cases hbj : body j s with
      | done s' =>
        rw [hbj] at hb
        rw [Exec.bind_done]
        exact ih (j + 1) s' hb
      | threw w s' =>
        rw [hbj] at hb
        exact hb
    · exact hI

/-- GenerateFailure keeps the number of failure modes, returned or thrown. -/
theorem GenerateFailure_length (t fail_idx : Int) (s : Sim) :
    (GenerateFailure t fail_idx s).state.comp.m_failure_types.length =
      s.comp.m_failure_types.length := by
  unfold GenerateFailure
  simp only
  split
  · rfl
  · split
    · simp [Exec.state, Component.ResetHazardRate, GenerateTimeToRepair]
    · simp [Exec.state, Component.ResetHazardRate, GenerateTimeToRepair]

theorem TestForBinaryFailure_body_length (mode : String) (t : Int) (j : Nat) (s : Sim) :
    (TestForBinaryFailure.body mode t j s).state.comp.m_failure_types.length =
      s.comp.m_failure_types.length := by
  unfold TestForBinaryFailure.body
  split
  · rfl
  · simp only
    split
    · split
      · exact GenerateFailure_length t j _
      · rfl
    · rfl

theorem TestForFailure_body_length (time ramp_mult p : ℚ) (t : Int) (opmode : String)
    (j : Nat) (s : Sim) :
    (TestForFailure.body time ramp_mult p t opmode j s).state.comp.m_failure_types.length =
      s.comp.m_failure_types.length := by
  unfold TestForFailure.body
  split
  · rfl
  · split
    · split
      · exact GenerateFailure_length t j _
      · rfl
    · rfl

theorem Operate_body_length (time ramp_mult : ℚ) (read_only : Bool) (opmode : String)
    (j : Nat) (s : Sim) :
    (Operate.body time ramp_mult read_only opmode j s).state.comp.m_failure_types.length =
      s.comp.m_failure_types.length := by
  unfold Operate.body
  split
  · rfl
  · split
    · split
      · rfl
      · simp [Exec.state]
    · rfl

/-- The fuel given to the loops is enough: when the body keeps the size of the
vector, the loop started with the size of the vector as fuel has visited every
index, and any additional fuel changes nothing. -/
theorem forLoop_fuel (body : Nat → Sim → Exec Sim)
    (hlen : ∀ j s, (body j s).state.comp.m_failure_types.length =
      s.comp.m_failure_types.length) (s : Sim) (extra : Nat) :
    forLoop body (s.comp.m_failure_types.length + extra) 0 s =
      forLoop body s.comp.m_failure_types.length 0 s := by
  induction extra with
  | zero => rfl
  | succ e ih =>
    rw [← Nat.add_assoc, forLoop_succ, ih]
    have hsize := forLoop_preserves body
      (fun s' => s'.comp.m_failure_types.length = s.comp.m_failure_types.length)
      (fun j s' hs' => (hlen j s').trans hs') s.comp.m_failure_types.length 0 s rfl
    revert hsize
    cases forLoop body s.comp.m_failure_types.length 0 s with
    | done s' =>
      intro hsize
      have hsize' : s'.comp.m_failure_types.length = s.comp.m_failure_types.length := hsize
      rw [Exec.bind_done, if_neg (by omega)]
    | threw w s' => intro _; rfl

theorem startPenalty_eq (c : Component) (start : String) :
    startPenalty c start = penaltyOf c start := by
  unfold startPenalty penaltyOf
  by_cases h1 : start = "HotStart"
  · subst h1; simp
  · by_cases h2 : start = "WarmStart"
    · subst h2; simp
    · by_cases h3 : start = "ColdStart"
      · subst h3; simp
      · simp [h1, h2, h3]

theorem addStartPenalty_eq (c : Component) (start : String) :
    addStartPenalty c start =
      { c with m_status := { c.m_status with
          hazard_rate := c.m_status.hazard_rate + penaltyOf c start } } := by
  unfold addStartPenalty penaltyOf
  by_cases h1 : start = "HotStart"
  · subst h1; simp
  · by_cases h2 : start = "WarmStart"
    · subst h2; simp
    · by_cases h3 : start = "ColdStart"
      · subst h3; simp
      · simp [h1, h2, h3]

/-- The depletion loop of Operate: on normal return every matching mode
has lost delta and nothing else changed; it throws exactly when a matching mode
has less life than delta and the call is not read-only. -/
theorem Operate_loop (time ramp_mult : ℚ) (read_only : Bool) (opmode : String) (s : Sim) :
    match forLoop (Operate.body time ramp_mult read_only opmode)
        s.comp.m_failure_types.length 0 s with
    | .done s' =>
      s' = s.withModes s'.comp.m_failure_types ∧
      s'.comp.m_failure_types.length = s.comp.m_failure_types.length ∧
      (∀ (j : Nat) (ft : FailureType), s.comp.m_failure_types[j]? = some ft →
        s'.comp.m_failure_types[j]? = some (if ft.GetFailureMode = opmode then
          ft.ReduceLifeRemaining (time * s.comp.m_status.hazard_rate * ramp_mult) else ft)) ∧
      (∀ (j : Nat) (ft : FailureType), s.comp.m_failure_types[j]? = some ft →
        ft.GetFailureMode = opmode →
        ¬ (time * s.comp.m_status.hazard_rate * ramp_mult > ft.GetLifeRemaining ∧
            read_only = false))
    | .threw _ s' =>
      s' = s.withModes s'.comp.m_failure_types ∧
      s'.comp.m_failure_types.length = s.comp.m_failure_types.length ∧
      ∃ (j : Nat) (ft : FailureType), s.comp.m_failure_types[j]? = some ft ∧
        ft.GetFailureMode = opmode ∧
        time * s.comp.m_status.hazard_rate * ramp_mult > ft.GetLifeRemaining ∧
        read_only = false := by
  have key := forLoop_rule (Operate.body time ramp_mult read_only opmode)
    s.comp.m_failure_types.length
    (fun k s' => ∃ T, s' = s.withModes T ∧
      (∀ (j : Nat) (ft : FailureType), j < k → s.comp.m_failure_types[j]? = some ft →
        T[j]? = some (if ft.GetFailureMode = opmode then
          ft.ReduceLifeRemaining (time * s.comp.m_status.hazard_rate * ramp_mult) else ft)) ∧
      (∀ (j : Nat), k ≤ j → T[j]? = s.comp.m_failure_types[j]?) ∧
      (∀ (j : Nat) (ft : FailureType), j < k → s.comp.m_failure_types[j]? = some ft →
        ft.GetFailureMode = opmode →
        ¬ (time * s.comp.m_status.hazard_rate * ramp_mult > ft.GetLifeRemaining ∧
            read_only = false)))
    (fun s' =>
      s' = s.withModes s'.comp.m_failure_types ∧
      s'.comp.m_failure_types.length = s.comp.m_failure_types.length ∧
      ∃ (j : Nat) (ft : FailureType), s.comp.m_failure_types[j]? = some ft ∧
        ft.GetFailureMode = opmode ∧
        time * s.comp.m_status.hazard_rate * ramp_mult > ft.GetLifeRemaining ∧
        read_only = false)
    ?_ s.comp.m_failure_types.length 0 s (by omega) rfl
    ⟨s.comp.m_failure_types, rfl, fun j ft hj => absurd hj (Nat.not_lt_zero j), fun j _ => rfl,
      fun j ft hj => absurd hj (Nat.not_lt_zero j)⟩
  · revert key
    cases forLoop (Operate.body time ramp_mult read_only opmode)
        s.comp.m_failure_types.length 0 s with
    | done s' =>
      rw [Nat.zero_add]
      rintro ⟨hlen, T, hrest, hlt, -, hno⟩
      have hT : s'.comp.m_failure_types = T := by rw [hrest]; rfl
      refine ⟨by rw [hT]; exact hrest, hlen, fun j ft hj => ?_, fun j ft hj => hno j ft ?_ hj⟩
      · rw [hT]
        exact hlt j ft (List.getElem?_eq_some.mp hj).1 hj
      · exact (List.getElem?_eq_some.mp hj).1
    | threw w s' => exact id
  · rintro j s' hj hlen ⟨T, rfl, hlt, hge, hno⟩
    have hlenT : T.length = s.comp.m_failure_types.length := hlen
    have hsj : T[j]? = s.comp.m_failure_types[j]? := hge j le_rfl
    have hs : s.comp.m_failure_types[j]? = some s.comp.m_failure_types[j] :=
      List.getElem?_eq_getElem hj
    simp only [Operate.body, Sim.withModes, hsj, hs]
    by_cases hm : (s.comp.m_failure_types[j]).GetFailureMode = opmode
    · rw [if_pos hm]
      by_cases htr : time * s.comp.m_status.hazard_rate * ramp_mult >
          (s.comp.m_failure_types[j]).GetLifeRemaining ∧ ¬ read_only = true
      · rw [if_pos htr]
        refine ⟨rfl, hlen, j, _, hs, hm, htr.1, ?_⟩
        simpa using htr.2
      · rw [if_neg htr]
        refine ⟨by simpa using hlenT, T.set j _, rfl, ?_, ?_, ?_⟩
        · intro i ft hi hft
          simp only [List.getElem?_set]
          by_cases hij : j = i
          · subst hij
            rw [hs] at hft
            cases hft
            simp [hlenT, hj, hm]
          · rw [if_neg hij]
            exact hlt i ft (by omega) hft
        · intro i hi
          simp only [List.getElem?_set]
          rw [if_neg (by omega)]
          exact hge i (by omega)
        · intro i ft hi hft hmi
          by_cases hij : i = j
          · subst hij
            rw [hs] at hft
            cases hft
            simpa using htr
          · exact hno i ft (by omega) hft hmi
    · rw [if_neg hm]
      refine ⟨hlen, T, rfl, ?_, ?_, ?_⟩
      · intro i ft hi hft
        by_cases hij : i = j
        · subst hij
          rw [hs] at hft
          cases hft
          rw [if_neg hm, hsj, hs]
        · exact hlt i ft (by omega) hft
      · intro i hi
        exact hge i (by omega)
      · intro i ft hi hft hmi
        by_cases hij : i = j
        · subst hij
          rw [hs] at hft
          cases hft
          exact absurd hmi hm
        · exact hno i ft (by omega) hft hmi


/-- Operate with a continuous mode on an operational component is the depletion loop
run after the start penalty has been added. -/
theorem Operate_continuous (time ramp_mult : ℚ) (read_only : Bool) (t : Int)
    (start mode : String) (s : Sim) (hmode : mode = "OF" ∨ mode = "SF")
    (hop : s.comp.m_status.operational = true) :
    Operate time ramp_mult read_only t start mode s =
      forLoop (Operate.body time ramp_mult read_only mode) s.comp.m_failure_types.length 0
        { s with comp := { s.comp with m_status := { s.comp.m_status with
            hazard_rate := s.comp.m_status.hazard_rate + penaltyOf s.comp start } } } := by
  have h1 : mode ≠ "OS" := by rcases hmode with h | h <;> subst h <;> decide
  have h2 : mode ≠ "SS" := by rcases hmode with h | h <;> subst h <;> decide
  simp only [Operate, Component.IsOperational, hop, h1, h2, addStartPenalty_eq]
  simp

/-- Claim C3. `Operate` with mode OF or SF on an operational component, when it returns
normally: the stored hazard_rate becomes `h + p` (`h` the rate at entry, `p` the
penalty selected by `start`, 0 when `start` is none of HotStart, WarmStart,
ColdStart); every failure mode whose label equals `mode` has its life reduced by
exactly `time * (h + p) * ramp_mult`, without clamping; every other mode is
unchanged; operational stays true; downtime_remaining is unchanged; the log and
the history of generated failures are unchanged; no variate is drawn. -/
theorem Operate_commit_effect (time ramp_mult : ℚ) (read_only : Bool) (t : Int)
    (start mode : String) (s s' : Sim) (hmode : mode = "OF" ∨ mode = "SF")
    (hop : s.comp.m_status.operational = true)
    (hret : Operate time ramp_mult read_only t start mode s = .done s') :
    s'.comp.m_status.hazard_rate = s.comp.m_status.hazard_rate + penaltyOf s.comp start ∧
    s'.comp.m_failure_types.length = s.comp.m_failure_types.length ∧
    (∀ (j : Nat) (ft : FailureType), s.comp.m_failure_types[j]? = some ft →
      s'.comp.m_failure_types[j]? = some
        (if ft.GetFailureMode = mode then
          { ft with life_or_prob := ft.GetLifeRemaining -
              time * (s.comp.m_status.hazard_rate + penaltyOf s.comp start) * ramp_mult }
         else ft)) ∧
    s'.comp.m_status.operational = true ∧
    s'.comp.m_status.downtime_remaining = s.comp.m_status.downtime_remaining ∧
    s'.failure_events = s.failure_events ∧
    s'.generated = s.generated ∧
    s'.gen = s.gen := by
  rw [Operate_continuous time ramp_mult read_only t start mode s hmode hop] at hret
  have key := Operate_loop time ramp_mult read_only mode
    { s with comp := { s.comp with m_status := { s.comp.m_status with
        hazard_rate := s.comp.m_status.hazard_rate + penaltyOf s.comp start } } }
  simp only at key
  rw [hret] at key
  obtain ⟨hrest, hlen, hmodes, -⟩ := key
  refine ⟨?_, hlen, ?_, ?_, ?_, ?_, ?_, ?_⟩
  · rw [hrest]; rfl
  · intro j ft hj
    exact hmodes j ft hj
  · rw [hrest]; exact hop
  · rw [hrest]; rfl
  · rw [hrest]; rfl
  · rw [hrest]; rfl
  · rw [hrest]; rfl

/-- When Operate with a continuous mode throws. -/
theorem Operate_raised_iff (time ramp_mult : ℚ) (read_only : Bool) (t : Int)
    (start mode : String) (s : Sim) (hmode : mode = "OF" ∨ mode = "SF") :
    ((Operate time ramp_mult read_only t start mode s).raised = true ↔
      (s.comp.m_status.operational = false ∨
        (read_only = false ∧
          ∃ (j : Nat) (ft : FailureType), s.comp.m_failure_types[j]? = some ft ∧
            ft.GetFailureMode = mode ∧
            time * (s.comp.m_status.hazard_rate + penaltyOf s.comp start) * ramp_mult >
              ft.GetLifeRemaining))) := by
  by_cases hop : s.comp.m_status.operational = true
  · rw [Operate_continuous time ramp_mult read_only t start mode s hmode hop]
    have key := Operate_loop time ramp_mult read_only mode
      { s with comp := { s.comp with m_status := { s.comp.m_status with
          hazard_rate := s.comp.m_status.hazard_rate + penaltyOf s.comp start } } }
    simp only at key
    revert key
    cases forLoop (Operate.body time ramp_mult read_only mode) s.comp.m_failure_types.length 0
        { s with comp := { s.comp with m_status := { s.comp.m_status with
            hazard_rate := s.comp.m_status.hazard_rate + penaltyOf s.comp start } } } with
    | done s' =>
      rintro ⟨-, -, -, hno⟩
      simp only [Exec.raised, hop, Bool.false_eq_true, false_iff]
      rintro (hf | ⟨hro, j, ft, hj, hm, hgt⟩)
      · exact absurd hf (by decide)
      · exact hno j ft hj hm ⟨hgt, hro⟩
    | threw w s' =>
      rintro ⟨-, -, j, ft, hj, hm, hgt, hro⟩
      simp only [Exec.raised, true_iff]
      exact Or.inr ⟨hro, j, ft, hj, hm, hgt⟩
  · have hop' : s.comp.m_status.operational = false := by simpa using hop
    simp [Operate, Component.IsOperational, hop', Exec.raised]


/-- Claim C1. `GenerateFailure(gen, t, fail_idx)` with a valid `fail_idx` returns
normally and afterwards: operational is false, downtime_remaining is the value
just sampled from the repair distribution, hazard_rate is 1, the life-or-prob
value of mode `fail_idx` is the value just sampled from that mode's
distribution (with the generator as the repair sample left it), every other
mode's value is unchanged, the log maps the key built from
`(t, name, fail_idx)` to the event `(t, name, fail_idx, downtime, new value)`
and every other key of the log is unchanged. -/
theorem GenerateFailure_contract (t fail_idx : Int) (s : Sim)
    (h0 : 0 ≤ fail_idx) (h1 : fail_idx < s.comp.m_failure_types.length) :
    ∃ (ft : FailureType) (s' : Sim),
      vectorAt s.comp.m_failure_types fail_idx = some ft ∧
      GenerateFailure t fail_idx s = .done s' ∧
      s'.comp.m_status.operational = false ∧
      s'.comp.m_status.downtime_remaining = (s.comp.m_repair_dist.GetVariate s.gen).1 ∧
      s'.comp.m_status.hazard_rate = 1 ∧
      s'.comp.GetLifetimesAndProbs[fail_idx.toNat]? =
        some (ft.dist.GetVariate (s.comp.m_repair_dist.GetVariate s.gen).2).1 ∧
      (∀ j : Nat, j ≠ fail_idx.toNat →
        s'.comp.GetLifetimesAndProbs[j]? = s.comp.GetLifetimesAndProbs[j]?) ∧
      s'.failure_events (eventLabel t s.comp.GetName fail_idx) =
        some { time := t, component := s.comp.GetName, fail_idx := fail_idx
               duration := (s.comp.m_repair_dist.GetVariate s.gen).1
               new_life := (ft.dist.GetVariate (s.comp.m_repair_dist.GetVariate s.gen).2).1 } ∧
      (∀ k : String, k ≠ eventLabel t s.comp.GetName fail_idx →
        s'.failure_events k = s.failure_events k) := by
  obtain ⟨ft, hft, -⟩ := vectorAt_of_valid s.comp.m_failure_types fail_idx h0 h1
  have hlt : fail_idx.toNat < s.comp.m_failure_types.length := by omega
  refine ⟨ft, _, hft, GenerateFailure_eq t fail_idx s ft hft, rfl, rfl, rfl, ?_, ?_, ?_, ?_⟩
  · simp [Component.GetLifetimesAndProbs, List.getElem?_set, hlt, FailureType.GetLifeOrProb]
  · intro j hj
    simp [Component.GetLifetimesAndProbs, List.getElem?_set, Ne.symm hj]
  · simp [FailureEvents.assign, Component.GetName]
  · intro k hk
    simp only [FailureEvents.assign, Component.GetName] at hk ⊢
    rw [if_neg hk]

/-- Witness of C1 on the 100 h pump: mode 0 fails at timestep 7. -/
theorem GenerateFailure_contract_witness :
    ∃ (ft : FailureType) (s' : Sim),
      vectorAt pump100.comp.m_failure_types 0 = some ft ∧
      GenerateFailure 7 0 pump100 = .done s' ∧
      s'.comp.m_status.operational = false ∧
      s'.comp.m_status.downtime_remaining =
        (pump100.comp.m_repair_dist.GetVariate pump100.gen).1 ∧
      s'.comp.m_status.hazard_rate = 1 ∧
      s'.comp.GetLifetimesAndProbs[(0 : Int).toNat]? =
        some (ft.dist.GetVariate (pump100.comp.m_repair_dist.GetVariate pump100.gen).2).1 ∧
      (∀ j : Nat, j ≠ (0 : Int).toNat →
        s'.comp.GetLifetimesAndProbs[j]? = pump100.comp.GetLifetimesAndProbs[j]?) ∧
      s'.failure_events (eventLabel 7 pump100.comp.GetName 0) =
        some { time := 7, component := pump100.comp.GetName, fail_idx := 0
               duration := (pump100.comp.m_repair_dist.GetVariate pump100.gen).1
               new_life :=
                (ft.dist.GetVariate (pump100.comp.m_repair_dist.GetVariate pump100.gen).2).1 } ∧
      (∀ k : String, k ≠ eventLabel 7 pump100.comp.GetName 0 →
        s'.failure_events k = pump100.failure_events k) :=
  GenerateFailure_contract 7 0 pump100 (by decide) (by decide)


/-- Witness of C3, the scenario of the spec: life 100 h, hazard rate 1, 50 h at
ramp_mult 1 in mode OF gives life 50 h. -/
theorem Operate_commit_effect_witness :
    Operate 50 1 false 0 "None" "OF" pump100 = .done (pump 1 [wearMode "OF" 50]) ∧
    (pump 1 [wearMode "OF" 50]).comp.GetLifetimesAndProbs = [50] ∧
    (pump 1 [wearMode "OF" 50]).comp.m_status.hazard_rate =
      pump100.comp.m_status.hazard_rate + penaltyOf pump100.comp "None" ∧
    (pump 1 [wearMode "OF" 50]).comp.m_status.operational = true ∧
    (pump 1 [wearMode "OF" 50]).failure_events = pump100.failure_events ∧
    (pump 1 [wearMode "OF" 50]).gen = pump100.gen := by
  have hret : Operate 50 1 false 0 "None" "OF" pump100 = .done (pump 1 [wearMode "OF" 50]) := by
    simp [Operate, pump100, pump, Component.IsOperational, addStartPenalty, forLoop,
      Operate.body, wearMode, FailureType.GetFailureMode, FailureType.GetLifeRemaining,
      FailureType.ReduceLifeRemaining, Exec.bind]
    norm_num
  have h := Operate_commit_effect 50 1 false 0 "None" "OF" pump100 (pump 1 [wearMode "OF" 50])
    (Or.inl rfl) rfl hret
  exact ⟨hret, rfl, h.1, h.2.2.2.1, h.2.2.2.2.2.1, h.2.2.2.2.2.2.2⟩

/-- Claim C4. `Operate` with mode OF or SF throws if and only if either the component
is not operational at entry, or `read_only` is false and some failure mode
whose label equals `mode` has `time * (h + p) * ramp_mult > life_remaining`
(`h` the stored hazard rate at entry, `p` the start penalty). In particular
with `read_only` true on an operational component it never throws; and it may
then leave life_remaining negative (150 h on a life of 100 h leaves -50 h). -/
theorem Operate_raises_iff (time ramp_mult : ℚ) (read_only : Bool) (t : Int)
    (start mode : String) (s : Sim) (hmode : mode = "OF" ∨ mode = "SF") :
    ((Operate time ramp_mult read_only t start mode s).raised = true ↔
      (s.comp.m_status.operational = false ∨
        (read_only = false ∧
          ∃ (j : Nat) (ft : FailureType), s.comp.m_failure_types[j]? = some ft ∧
            ft.GetFailureMode = mode ∧
            time * (s.comp.m_status.hazard_rate + penaltyOf s.comp start) * ramp_mult >
              ft.GetLifeRemaining))) ∧
    (s.comp.m_status.operational = true →
      (Operate time ramp_mult true t start mode s).raised = false) ∧
    (pump100.comp.m_status.operational = true ∧
      Operate 150 1 true 0 "None" "OF" pump100 = .done (pump 1 [wearMode "OF" (-50)]) ∧
      (wearMode "OF" (-50)).GetLifeRemaining < 0) := by
  refine ⟨Operate_raised_iff time ramp_mult read_only t start mode s hmode, ?_, rfl, ?_, ?_⟩
  · intro hop
    have h := Operate_raised_iff time ramp_mult true t start mode s hmode
    cases hr : (Operate time ramp_mult true t start mode s).raised with
    | false => rfl
    | true =>
      rcases h.mp hr with h1 | ⟨h2, -⟩
      · rw [hop] at h1; exact absurd h1 (by decide)
      · exact absurd h2 (by decide)
  · simp [Operate, pump100, pump, Component.IsOperational, addStartPenalty, forLoop,
      Operate.body, wearMode, FailureType.GetFailureMode, FailureType.GetLifeRemaining,
      FailureType.ReduceLifeRemaining, Exec.bind]
    norm_num
  · simp [wearMode, FailureType.GetLifeRemaining]

/-- Witness of C4: committing 150 h on a life of 100 h throws. -/
theorem Operate_raises_iff_witness :
    ("OF" = "OF" ∨ "OF" = "SF") ∧
    (Operate 150 1 false 0 "None" "OF" pump100).raised = true := by
  have h := (Operate_raises_iff 150 1 false 0 "None" "OF" pump100 (Or.inl rfl)).1
  refine ⟨Or.inl rfl, h.mpr (Or.inr ⟨rfl, 0, wearMode "OF" 100, rfl, rfl, ?_⟩)⟩
  simp [pump100, pump, penaltyOf, wearMode, FailureType.GetLifeRemaining]
  norm_num


/-- TestForFailure with a continuous mode is the wear-out loop alone. -/
theorem TestForFailure_continuous (time ramp_mult : ℚ) (t : Int) (start mode : String)
    (s : Sim) (hmode : mode = "OF" ∨ mode = "SF") :
    TestForFailure time ramp_mult t start mode s =
      forLoop (TestForFailure.body time ramp_mult (penaltyOf s.comp start) t mode)
        s.comp.m_failure_types.length 0 s := by
  have h1 : mode ≠ "OS" := by rcases hmode with h | h <;> subst h <;> decide
  have h2 : mode ≠ "SS" := by rcases hmode with h | h <;> subst h <;> decide
  simp only [TestForFailure, h1, h2, startPenalty_eq, if_false]

/-- The wear-out loop of TestForFailure: it returns normally, and the failures it
generates are exactly those of the matching modes whose life is exceeded at the
stored hazard rate of the moment they are checked. -/
theorem TestForFailure_loop (time ramp_mult p : ℚ) (t : Int) (opmode : String) (s : Sim) :
    ∃ (s' : Sim) (new : List Int),
      forLoop (TestForFailure.body time ramp_mult p t opmode)
        s.comp.m_failure_types.length 0 s = .done s' ∧
      s'.generated = s.generated ++ new ∧
      ∀ (j : Nat) (ft : FailureType), s.comp.m_failure_types[j]? = some ft →
        (ft.GetFailureMode = opmode →
          ((j : Int) ∈ new ↔
            time * ((if ∃ i : Nat, i < j ∧ (i : Int) ∈ new then 1
                      else s.comp.m_status.hazard_rate) + p) * ramp_mult >
              ft.GetLifeRemaining)) ∧
        (ft.GetFailureMode ≠ opmode → (j : Int) ∉ new) := by
  have key := forLoop_rule (TestForFailure.body time ramp_mult p t opmode)
    s.comp.m_failure_types.length
    (fun k sk => ∃ new : List Int,
      sk.generated = s.generated ++ new ∧
      (∀ x ∈ new, ∃ i : Nat, i < k ∧ x = (i : Int)) ∧
      sk.comp.m_status.hazard_rate = (if new = [] then s.comp.m_status.hazard_rate else 1) ∧
      (∀ i : Nat, k ≤ i → sk.comp.m_failure_types[i]? = s.comp.m_failure_types[i]?) ∧
      ∀ (j : Nat) (ft : FailureType), j < k → s.comp.m_failure_types[j]? = some ft →
        (ft.GetFailureMode = opmode →
          ((j : Int) ∈ new ↔
            time * ((if ∃ i : Nat, i < j ∧ (i : Int) ∈ new then 1
                      else s.comp.m_status.hazard_rate) + p) * ramp_mult >
              ft.GetLifeRemaining)) ∧
        (ft.GetFailureMode ≠ opmode → (j : Int) ∉ new))
    (fun _ => False)
    ?_ s.comp.m_failure_types.length 0 s (by omega) rfl
    ⟨[], by simp, by simp, by simp, fun i _ => rfl, fun j ft hj => absurd hj (Nat.not_lt_zero j)⟩
  · revert key
    cases forLoop (TestForFailure.body time ramp_mult p t opmode)
        s.comp.m_failure_types.length 0 s with
    | done s' =>
      rw [Nat.zero_add]
      rintro ⟨-, new, hgen, -, -, -, hall⟩
      exact ⟨s', new, rfl, hgen, fun j ft hj =>
        hall j ft (List.getElem?_eq_some.mp hj).1 hj⟩
    | threw w s' => exact fun h => h.elim
  · rintro k sk hk hlen ⟨new, hgen, hbound, hhaz, hge, hall⟩
    have hsk : sk.comp.m_failure_types[k]? = s.comp.m_failure_types[k]? := hge k le_rfl
    have hs : s.comp.m_failure_types[k]? = some s.comp.m_failure_types[k] :=
      List.getElem?_eq_getElem hk
    have hknew : (k : Int) ∉ new := by
      intro hmem
      obtain ⟨i, hi, hx⟩ := hbound _ hmem
      omega
    have hex : (∃ i : Nat, i < k ∧ (i : Int) ∈ new) ↔ new ≠ [] := by
      constructor
      · rintro ⟨i, -, hi⟩ hnil
        rw [hnil] at hi
        simp at hi
      · intro hne
        obtain ⟨x, hx⟩ := List.exists_mem_of_ne_nil new hne
        obtain ⟨i, hi, rfl⟩ := hbound x hx
        exact ⟨i, hi, hx⟩
    have hrate : (if ∃ i : Nat, i < k ∧ (i : Int) ∈ new then (1 : ℚ)
        else s.comp.m_status.hazard_rate) = sk.comp.m_status.hazard_rate := by
      rw [hhaz]
      by_cases hnil : new = []
      · rw [if_pos hnil, if_neg (by rw [hex]; simpa using hnil)]
      · rw [if_neg hnil, if_pos (hex.mpr hnil)]
    simp only [TestForFailure.body, hsk, hs]
    by_cases hm : (s.comp.m_failure_types[k]).GetFailureMode = opmode
    · rw [if_pos hm]
      by_cases hc : time * (sk.comp.m_status.hazard_rate + p) * ramp_mult >
          (s.comp.m_failure_types[k]).GetLifeRemaining
      · rw [if_pos hc]
        have hat : vectorAt sk.comp.m_failure_types (k : Int) =
            some s.comp.m_failure_types[k] := by
          rw [vectorAt_natCast, hsk, hs]
        rw [GenerateFailure_eq t k sk _ hat]
        refine ⟨by simpa using hlen, new ++ [(k : Int)], ?_, ?_, ?_, ?_, ?_⟩
        · simp [hgen]
        · intro x hx
          rcases List.mem_append.mp hx with hx | hx
          · obtain ⟨i, hi, rfl⟩ := hbound x hx
            exact ⟨i, by omega, rfl⟩
          · exact ⟨k, by omega, by simpa using hx⟩
        · simp
        · intro i hi
          simp only [Int.toNat_ofNat, List.getElem?_set]
          rw [if_neg (by omega)]
          exact hge i (by omega)
        · intro j ft hj hft
          by_cases hjk : j = k
          · subst hjk
            rw [hs] at hft
            cases hft
            refine ⟨fun _ => ?_, fun hne => absurd hm hne⟩
            have hex' : (∃ i : Nat, i < j ∧ (i : Int) ∈ new ++ [(j : Int)]) ↔
                ∃ i : Nat, i < j ∧ (i : Int) ∈ new := by
              constructor
              · rintro ⟨i, hi, hmem⟩
                rcases List.mem_append.mp hmem with hmem | hmem
                · exact ⟨i, hi, hmem⟩
                · simp at hmem; omega
              · rintro ⟨i, hi, hmem⟩
                exact ⟨i, hi, List.mem_append.mpr (Or.inl hmem)⟩
            simp only [hex', hrate]
            simpa using hc
          · have hjlt : j < k := by omega
            obtain ⟨h1, h2⟩ := hall j ft hjlt hft
            have hmemj : (j : Int) ∈ new ++ [(k : Int)] ↔ (j : Int) ∈ new := by
              simp only [List.mem_append, List.mem_singleton]
              constructor
              · rintro (h | h)
                · exact h
                · omega
              · exact Or.inl
            have hex' : (∃ i : Nat, i < j ∧ (i : Int) ∈ new ++ [(k : Int)]) ↔
                ∃ i : Nat, i < j ∧ (i : Int) ∈ new := by
              constructor
              · rintro ⟨i, hi, hmem⟩
                rcases List.mem_append.mp hmem with hmem | hmem
                · exact ⟨i, hi, hmem⟩
                · simp at hmem; omega
              · rintro ⟨i, hi, hmem⟩
                exact ⟨i, hi, List.mem_append.mpr (Or.inl hmem)⟩
            refine ⟨fun hmj => ?_, fun hne => ?_⟩
            · rw [hmemj]
              simp only [hex']
              exact h1 hmj
            · rw [hmemj]
              exact h2 hne
      · rw [if_neg hc]
        refine ⟨hlen, new, hgen, ?_, hhaz, fun i hi => hge i (by omega), ?_⟩
        · intro x hx
          obtain ⟨i, hi, rfl⟩ := hbound x hx
          exact ⟨i, by omega, rfl⟩
        · intro j ft hj hft
          by_cases hjk : j = k
          · subst hjk
            rw [hs] at hft
            cases hft
            refine ⟨fun _ => ?_, fun hne => absurd hm hne⟩
            rw [hrate]
            exact iff_of_false hknew hc
          · exact hall j ft (by omega) hft
    · rw [if_neg hm]
      refine ⟨hlen, new, hgen, ?_, hhaz, fun i hi => hge i (by omega), ?_⟩
      · intro x hx
        obtain ⟨i, hi, rfl⟩ := hbound x hx
        exact ⟨i, by omega, rfl⟩
      · intro j ft hj hft
        by_cases hjk : j = k
        · subst hjk
          rw [hs] at hft
          cases hft
          exact ⟨fun h => absurd h hm, fun _ => hknew⟩
        · exact hall j ft (by omega) hft


/-- Claim C2, as amended. `TestForFailure` with mode OF or SF returns normally, and
for every failure mode `j` whose label equals `mode` a failure is generated for
`j` during the call (`j` is appended to the history of `GenerateFailure` calls)
if and only if `time * (h + p) * ramp_mult > life_remaining(j)`, where `p` is
the start penalty selected by `start` and `h` is the stored hazard rate at the
moment mode `j` is checked: the rate at the moment of the call when no earlier
mode has failed during the call, and 1 once one has. No failure is generated
for a mode with another label. -/
theorem TestForFailure_wearout_check (time ramp_mult : ℚ) (t : Int) (start mode : String)
    (s : Sim) (hmode : mode = "OF" ∨ mode = "SF") :
    ∃ (s' : Sim) (new : List Int),
      TestForFailure time ramp_mult t start mode s = .done s' ∧
      s'.generated = s.generated ++ new ∧
      ∀ (j : Nat) (ft : FailureType), s.comp.m_failure_types[j]? = some ft →
        (ft.GetFailureMode = mode →
          ((j : Int) ∈ new ↔
            time * ((if ∃ i : Nat, i < j ∧ (i : Int) ∈ new then 1
                      else s.comp.m_status.hazard_rate) + penaltyOf s.comp start) * ramp_mult >
              ft.GetLifeRemaining)) ∧
        (ft.GetFailureMode ≠ mode → (j : Int) ∉ new) := by
  rw [TestForFailure_continuous time ramp_mult t start mode s hmode]
  exact TestForFailure_loop time ramp_mult (penaltyOf s.comp start) t mode s

/-- Witness of C2 (as amended) on the pump with two OF modes. -/
theorem TestForFailure_wearout_check_witness :
    ("OF" = "OF" ∨ "OF" = "SF") ∧
    ∃ (s' : Sim) (new : List Int),
      TestForFailure 6 1 0 "None" "OF" pumpTwoModes = .done s' ∧
      s'.generated = pumpTwoModes.generated ++ new ∧
      ∀ (j : Nat) (ft : FailureType), pumpTwoModes.comp.m_failure_types[j]? = some ft →
        (ft.GetFailureMode = "OF" →
          ((j : Int) ∈ new ↔
            6 * ((if ∃ i : Nat, i < j ∧ (i : Int) ∈ new then 1
                      else pumpTwoModes.comp.m_status.hazard_rate) +
                  penaltyOf pumpTwoModes.comp "None") * 1 >
              ft.GetLifeRemaining)) ∧
        (ft.GetFailureMode ≠ "OF" → (j : Int) ∉ new) :=
  ⟨Or.inl rfl, TestForFailure_wearout_check 6 1 0 "None" "OF" pumpTwoModes (Or.inl rfl)⟩

/-- Counterexample to claim C2 as stated. On a component whose stored hazard rate
is 2 (rate 1 plus a hot start penalty of 1 committed by `Operate`), with two
OF modes of 10 h each, `TestForFailure(6, 1, gen, 0, "None", "OF")`: mode 1 has
label OF and `6 * (2 + 0) * 1 = 12 > 10`, yet the only failure generated is
that of mode 0, because the failure of mode 0 reset the stored rate to 1 before
mode 1 was compared (`6 * (1 + 0) * 1 = 6`, not above 10). -/
theorem TestForFailure_rate_at_call_counterexample :
    Operate 0 1 false 0 "HotStart" "OF" (pump 1 [wearMode "OF" 10, wearMode "OF" 10]) =
      .done pumpTwoModes ∧
    pumpTwoModes.comp.m_failure_types[1]? = some (wearMode "OF" 10) ∧
    (wearMode "OF" 10).GetFailureMode = "OF" ∧
    6 * (pumpTwoModes.comp.m_status.hazard_rate + penaltyOf pumpTwoModes.comp "None") * 1 >
      (wearMode "OF" 10).GetLifeRemaining ∧
    pumpTwoModes.generated = [] ∧
    (TestForFailure 6 1 0 "None" "OF" pumpTwoModes).state.generated = [0] ∧
    (1 : Int) ∉ (TestForFailure 6 1 0 "None" "OF" pumpTwoModes).state.generated := by
  have hgen : (TestForFailure 6 1 0 "None" "OF" pumpTwoModes).state.generated = [0] := by
    simp [TestForFailure, pumpTwoModes, pump, forLoop, TestForFailure.body, startPenalty,
      wearMode, FailureType.GetFailureMode, FailureType.GetLifeRemaining, GenerateFailure,
      GenerateTimeToRepair, vectorAt, floorDist, alphaDist, zeroGen, WELLFiveTwelve.getVariate,
      FailureType.GenerateFailureVariate, Component.ResetHazardRate, Exec.bind, Exec.state]
    norm_num
  refine ⟨?_, rfl, rfl, ?_, rfl, hgen, ?_⟩
  · simp [Operate, pumpTwoModes, pump, Component.IsOperational, addStartPenalty, forLoop,
      Operate.body, wearMode, FailureType.GetFailureMode, FailureType.GetLifeRemaining,
      FailureType.ReduceLifeRemaining, Exec.bind]
    norm_num
  · simp [pumpTwoModes, pump, penaltyOf, wearMode, FailureType.GetLifeRemaining]
    norm_num
  · rw [hgen]
    decide

/-- The loop of TestForBinaryFailure never throws; when it is about to visit
index k the modes from k on are still as they were at the call. -/
theorem TestForBinaryFailure_before (mode : String) (t : Int) (s : Sim) (k : Nat)
    (hk : k ≤ s.comp.m_failure_types.length) :
    ∃ sk : Sim, TestForBinaryFailure.before mode t k s = .done sk ∧
      sk.comp.m_failure_types.length = s.comp.m_failure_types.length ∧
      ∀ i : Nat, k ≤ i → sk.comp.m_failure_types[i]? = s.comp.m_failure_types[i]? := by
  have key := forLoop_rule (TestForBinaryFailure.body mode t)
    s.comp.m_failure_types.length
    (fun k sk => ∀ i : Nat, k ≤ i → sk.comp.m_failure_types[i]? = s.comp.m_failure_types[i]?)
    (fun _ => False)
    ?_ k 0 s (by omega) rfl (fun i _ => rfl)
  · unfold TestForBinaryFailure.before
    revert key
    cases forLoop (TestForBinaryFailure.body mode t) k 0 s with
    | done sk =>
      rw [Nat.zero_add]
      rintro ⟨hlen, hge⟩
      exact ⟨sk, rfl, hlen, hge⟩
    | threw w sk => exact fun h => h.elim
  · rintro j sj hj hlen hge
    have hsj : sj.comp.m_failure_types[j]? = s.comp.m_failure_types[j]? := hge j le_rfl
    have hs : s.comp.m_failure_types[j]? = some s.comp.m_failure_types[j] :=
      List.getElem?_eq_getElem hj
    simp only [TestForBinaryFailure.body, hsj, hs]
    by_cases hm : (s.comp.m_failure_types[j]).GetFailureMode = mode
    · rw [if_pos hm]
      by_cases hc : sj.gen.getVariate.1 * sj.comp.m_status.hazard_rate ≤
          (s.comp.m_failure_types[j]).GetFailureProbability
      · rw [if_pos hc]
        have hat : vectorAt ({ sj with gen := sj.gen.getVariate.2 } : Sim).comp.m_failure_types
            (j : Int) = some s.comp.m_failure_types[j] := by
          rw [vectorAt_natCast]
          show sj.comp.m_failure_types[j]? = _
          rw [hsj, hs]
        rw [GenerateFailure_eq t j _ _ hat]
        refine ⟨by simpa using hlen, fun i hi => ?_⟩
        simp only [Int.toNat_ofNat, List.getElem?_set]
        rw [if_neg (by omega)]
        exact hge i (by omega)
      · rw [if_neg hc]
        exact ⟨hlen, fun i hi => hge i (by omega)⟩
    · rw [if_neg hm]
      exact ⟨hlen, fun i hi => hge i (by omega)⟩

/-- Claim C10. `TestForBinaryFailure(mode, t, gen)` visits the failure modes in index
order and never throws. When it reaches index `k` (state `sk`, the iterations
`0 .. k-1` having run): if the label of mode `k` differs from `mode` the state
is left as it is (nothing drawn, no failure generated); if the label equals
`mode`, exactly one variate `v` is drawn for the check, and then
`GenerateFailure(gen, t, k)` is called if and only if
`v * hazard_rate <= failure_probability(k)`, with `hazard_rate` the stored rate
at that moment; otherwise the state is `sk` with the generator advanced by that
one draw. -/
theorem TestForBinaryFailure_contract (mode : String) (t : Int) (s : Sim) :
    TestForBinaryFailure mode t s =
      TestForBinaryFailure.before mode t s.comp.m_failure_types.length s ∧
    (TestForBinaryFailure mode t s).raised = false ∧
    ∀ (k : Nat) (ft : FailureType), s.comp.m_failure_types[k]? = some ft →
      ∃ sk sk' : Sim,
        TestForBinaryFailure.before mode t k s = .done sk ∧
        TestForBinaryFailure.before mode t (k + 1) s = .done sk' ∧
        (ft.GetFailureMode ≠ mode → sk' = sk) ∧
        (ft.GetFailureMode = mode →
          (sk.gen.getVariate.1 * sk.comp.m_status.hazard_rate ≤ ft.GetFailureProbability →
            Exec.done sk' = GenerateFailure t k { sk with gen := sk.gen.getVariate.2 }) ∧
          (¬ sk.gen.getVariate.1 * sk.comp.m_status.hazard_rate ≤ ft.GetFailureProbability →
            sk' = { sk with gen := sk.gen.getVariate.2 }) ∧
          (sk'.generated = sk.generated ++ [(k : Int)] ↔
            sk.gen.getVariate.1 * sk.comp.m_status.hazard_rate ≤
              ft.GetFailureProbability)) := by
  refine ⟨rfl, ?_, ?_⟩
  · obtain ⟨sn, hsn, -⟩ :=
      TestForBinaryFailure_before mode t s s.comp.m_failure_types.length le_rfl
    show (TestForBinaryFailure.before mode t s.comp.m_failure_types.length s).raised = false
    rw [hsn]
    rfl
  · intro k ft hft
    have hk : k < s.comp.m_failure_types.length := (List.getElem?_eq_some.mp hft).1
    obtain ⟨sk, hsk, hlen, hge⟩ := TestForBinaryFailure_before mode t s k (by omega)
    obtain ⟨sk', hsk', -, -⟩ := TestForBinaryFailure_before mode t s (k + 1) (by omega)
    have hstep : TestForBinaryFailure.before mode t (k + 1) s =
        TestForBinaryFailure.body mode t k sk := by
      unfold TestForBinaryFailure.before at hsk ⊢
      rw [forLoop_succ, hsk, Exec.bind_done, Nat.zero_add, if_pos (by omega)]
    have hskk : sk.comp.m_failure_types[k]? = some ft := by rw [hge k le_rfl, hft]
    rw [hsk'] at hstep
    simp only [TestForBinaryFailure.body, hskk] at hstep
    refine ⟨sk, sk', hsk, hsk', ?_, ?_⟩
    · intro hne
      rw [if_neg hne] at hstep
      exact Exec.done.inj hstep
    · intro hm
      rw [if_pos hm] at hstep
      by_cases hc : sk.gen.getVariate.1 * sk.comp.m_status.hazard_rate ≤
          ft.GetFailureProbability
      · rw [if_pos hc] at hstep
        refine ⟨fun _ => hstep, fun hn => absurd hc hn, ⟨fun _ => hc, fun _ => ?_⟩⟩
        have hat : vectorAt ({ sk with gen := sk.gen.getVariate.2 } : Sim).comp.m_failure_types
            (k : Int) = some ft := by
          rw [vectorAt_natCast]; exact hskk
        rw [GenerateFailure_eq t k _ _ hat] at hstep
        rw [Exec.done.inj hstep]
      · rw [if_neg hc] at hstep
        have hEq : sk' = { sk with gen := sk.gen.getVariate.2 } := Exec.done.inj hstep
        refine ⟨fun h => absurd h hc, fun _ => hEq, ?_⟩
        rw [hEq]
        constructor
        · intro h
          have := congrArg List.length h
          simp at this
        · exact fun h => absurd h hc


/-! ### Invariants of the status -/

theorem Exec.state_bind {σ : Type} (I : σ → Prop) (e : Exec σ) (f : σ → Exec σ)
    (he : I e.state) (hf : ∀ s, I s → I (f s).state) : I (e.bind f).state := by
  cases e with
  | done s => exact hf s he
  | threw w s => exact he

/-- After GenerateFailure, returned or thrown, the component is not operational and
its downtime is a sample of the repair distribution. -/
theorem GenerateFailure_statusInv (D : Distribution) (R : Bool → ℚ → Prop)
    (hgen : ∀ g, R false (D.GetVariate g).1) (t fail_idx : Int) (s : Sim)
    (hD : s.comp.m_repair_dist = D) :
    StatusInv D R (GenerateFailure t fail_idx s).state := by
  have hR : R false (s.comp.m_repair_dist.GetVariate s.gen).1 := by
    rw [hD]; exact hgen s.gen
  unfold GenerateFailure
  simp only
  split
  · exact ⟨hD, hR⟩
  · split
    · exact ⟨hD, hR⟩
    · exact ⟨hD, hR⟩

theorem TestForBinaryFailure_body_statusInv (D : Distribution) (R : Bool → ℚ → Prop)
    (hgen : ∀ g, R false (D.GetVariate g).1) (mode : String) (t : Int) (j : Nat) (s : Sim)
    (h : StatusInv D R s) : StatusInv D R (TestForBinaryFailure.body mode t j s).state := by
  unfold TestForBinaryFailure.body
  split
  · exact h
  · simp only
    split
    · split
      · exact GenerateFailure_statusInv D R hgen t j _ h.1
      · exact h
    · exact h

theorem TestForFailure_body_statusInv (D : Distribution) (R : Bool → ℚ → Prop)
    (hgen : ∀ g, R false (D.GetVariate g).1) (time ramp_mult p : ℚ) (t : Int)
    (opmode : String) (j : Nat) (s : Sim)
    (h : StatusInv D R s) :
    StatusInv D R (TestForFailure.body time ramp_mult p t opmode j s).state := by
  unfold TestForFailure.body
  split
  · exact h
  · split
    · split
      · exact GenerateFailure_statusInv D R hgen t j _ h.1
      · exact h
    · exact h

theorem Operate_body_statusInv (D : Distribution) (R : Bool → ℚ → Prop)
    (time ramp_mult : ℚ) (read_only : Bool) (opmode : String) (j : Nat) (s : Sim)
    (h : StatusInv D R s) :
    StatusInv D R (Operate.body time ramp_mult read_only opmode j s).state := by
  unfold Operate.body
  split
  · exact h
  · split
    · split
      · exact h
      · exact h
    · exact h

theorem TestForBinaryFailure_statusInv (D : Distribution) (R : Bool → ℚ → Prop)
    (hgen : ∀ g, R false (D.GetVariate g).1) (mode : String) (t : Int) (s : Sim)
    (h : StatusInv D R s) : StatusInv D R (TestForBinaryFailure mode t s).state :=
  forLoop_preserves _ (StatusInv D R)
    (fun j s hs => TestForBinaryFailure_body_statusInv D R hgen mode t j s hs) _ _ s h

theorem TestForFailure_statusInv (D : Distribution) (R : Bool → ℚ → Prop)
    (hgen : ∀ g, R false (D.GetVariate g).1) (time ramp_mult : ℚ) (t : Int)
    (start mode : String) (s : Sim) (h : StatusInv D R s) :
    StatusInv D R (TestForFailure time ramp_mult t start mode s).state := by
  have hwear : ∀ (opmode : String) (s1 : Sim), StatusInv D R s1 →
      StatusInv D R (forLoop (TestForFailure.body time ramp_mult (startPenalty s.comp start)
        t opmode) s1.comp.m_failure_types.length 0 s1).state :=
    fun opmode s1 h1 => forLoop_preserves _ (StatusInv D R)
      (fun j s hs => TestForFailure_body_statusInv D R hgen time ramp_mult _ t opmode j s hs)
      _ _ s1 h1
  unfold TestForFailure
  simp only
  split
  · exact Exec.state_bind _ _ _ (TestForBinaryFailure_statusInv D R hgen mode t s h)
      (hwear "OF")
  · split
    · exact Exec.state_bind _ _ _ (TestForBinaryFailure_statusInv D R hgen mode t s h)
        (hwear "SF")
    · exact hwear mode s h

theorem Operate_statusInv (D : Distribution) (R : Bool → ℚ → Prop)
    (hgen : ∀ g, R false (D.GetVariate g).1) (time ramp_mult : ℚ) (read_only : Bool)
    (t : Int) (start mode : String) (s : Sim) (h : StatusInv D R s) :
    StatusInv D R (Operate time ramp_mult read_only t start mode s).state := by
  have hdep : ∀ (opmode : String) (s1 : Sim), StatusInv D R s1 →
      StatusInv D R (forLoop (Operate.body time ramp_mult read_only opmode)
        s1.comp.m_failure_types.length 0 s1).state :=
    fun opmode s1 h1 => forLoop_preserves _ (StatusInv D R)
      (fun j s hs => Operate_body_statusInv D R time ramp_mult read_only opmode j s hs)
      _ _ s1 h1
  have h1 : StatusInv D R { s with comp := addStartPenalty s.comp start } := by
    rw [addStartPenalty_eq]
    exact h
  unfold Operate
  simp only
  split
  · exact h
  · split
    · exact Exec.state_bind _ _ _ (TestForBinaryFailure_statusInv D R hgen mode t _ h1)
        (hdep "OF")
    · split
      · exact Exec.state_bind _ _ _ (TestForBinaryFailure_statusInv D R hgen mode t _ h1)
          (hdep "SF")
      · exact hdep mode _ h1

/-- The status and the repair distribution of a fresh component. -/
theorem freshSim_status (ExponentialDist : ℚ → ℚ → String → Distribution)
    (mkDist : String → ℚ → ℚ → Distribution)
    (name type : String) (repair_rate repair_cooldown_time : ℚ)
    (hot_start_penalty warm_start_penalty cold_start_penalty : ℚ)
    (availability_reduction repair_cost : ℚ)
    (modes : List ModeConfig) (events : FailureEvents) (gen : WELLFiveTwelve) (s0 : Sim)
    (h : freshSim ExponentialDist mkDist name type repair_rate repair_cooldown_time
      hot_start_penalty warm_start_penalty cold_start_penalty availability_reduction
      repair_cost modes events gen = .ok s0) :
    s0.comp.m_repair_dist = ExponentialDist repair_rate repair_cooldown_time "exponential" ∧
    s0.comp.m_status.operational = true ∧
    s0.comp.m_status.downtime_remaining = 0 ∧
    s0.comp.m_status.hazard_rate = 1 := by
  have hfold : ∀ (ms : List ModeConfig) (c : Component),
      (ms.foldl (fun c m => c.AddFailureMode mkDist m.component m.id m.failure_mode
        m.dist_type m.alpha m.beta) c).m_repair_dist = c.m_repair_dist ∧
      (ms.foldl (fun c m => c.AddFailureMode mkDist m.component m.id m.failure_mode
        m.dist_type m.alpha m.beta) c).m_status = c.m_status := by
    intro ms
    induction ms with
    | nil => intro c; exact ⟨rfl, rfl⟩
    | cons m ms ih =>
      intro c
      rw [List.foldl_cons]
      exact ih _
  unfold freshSim Component.ctor at h
  by_cases hn : name = "MAINTENANCE"
  · simp [hn] at h
  · simp only [hn, if_false] at h
    have h' := Except.ok.inj h
    subst h'
    simp only [GenerateInitialLifesAndProbs]
    refine ⟨?_, ?_, ?_, ?_⟩
    · exact (hfold modes _).1
    · exact congrArg ComponentStatus.operational (hfold modes _).2
    · exact congrArg ComponentStatus.downtime_remaining (hfold modes _).2
    · exact congrArg ComponentStatus.hazard_rate (hfold modes _).2


theorem runCalls_statusInv (D : Distribution) (R : Bool → ℚ → Prop) (A : Call → Prop)
    (hA : ∀ c s, A c → StatusInv D R s → StatusInv D R (c.run s).state) :
    ∀ (calls : List Call) (s : Sim), (∀ c ∈ calls, A c) → StatusInv D R s →
      StatusInv D R (runCalls calls s) := by
  intro calls
  induction calls with
  | nil => intro s _ h; exact h
  | cons c cs ih =>
    intro s hall h
    exact ih _ (fun c' hc' => hall c' (List.mem_cons_of_mem c hc'))
      (hA c s (hall c (List.mem_cons_self c cs)) h)

theorem AdvanceDowntime_repair_dist (c : Component) (time : ℚ) :
    (c.AdvanceDowntime time).m_repair_dist = c.m_repair_dist := by
  unfold Component.AdvanceDowntime
  simp only
  split <;> rfl

theorem freshPump_eq : freshPump = .ok freshPumpSim := by
  simp [freshPump, freshSim, Component.ctor, freshPumpSim, GenerateInitialLifesAndProbs,
    GenerateInitialLifesAndProbs.go, Component.AddFailureMode,
    FailureType.GenerateFailureVariate, alphaDist, zeroGen, WELLFiveTwelve.getVariate]

theorem floorDist_nonneg (rate floor : ℚ) (kind : String) (hfloor : 0 ≤ floor)
    (g : WELLFiveTwelve) : 0 ≤ ((floorDist rate floor kind).GetVariate g).1 := by
  simp only [floorDist]
  positivity

theorem almostRepaired_state :
    (runCalls almostRepaired freshPumpSim).comp.m_status.operational = false ∧
    (runCalls almostRepaired freshPumpSim).comp.m_status.downtime_remaining =
      1 / 1000000000 := by
  constructor
  · simp [almostRepaired, runCalls, Call.run, freshPumpSim, GenerateFailure,
      GenerateTimeToRepair, vectorAt, floorDist, WELLFiveTwelve.getVariate,
      Component.AdvanceDowntime, FailureType.GenerateFailureVariate,
      Component.ResetHazardRate, Exec.state]
    norm_num
  · simp [almostRepaired, runCalls, Call.run, freshPumpSim, GenerateFailure,
      GenerateTimeToRepair, vectorAt, floorDist, WELLFiveTwelve.getVariate,
      Component.AdvanceDowntime, FailureType.GenerateFailureVariate,
      Component.ResetHazardRate, Exec.state]
    norm_num

theorem almostRepaired_noneRaises : noneRaises almostRepaired freshPumpSim = true := by
  simp [almostRepaired, noneRaises, Call.run, freshPumpSim, GenerateFailure,
    GenerateTimeToRepair, vectorAt, floorDist, WELLFiveTwelve.getVariate,
    FailureType.GenerateFailureVariate, Component.ResetHazardRate, Exec.state, Exec.raised]

/-- Claim C5, as amended. In every state reachable from a freshly constructed
component (failure modes added and initialised) by a finite sequence of
`Operate`, `AdvanceDowntime` and `GenerateFailure` calls that do not raise,
where every `AdvanceDowntime` time is non-negative and every value of the
repair distribution is non-negative: an operational component has
downtime_remaining exactly 0, hence below 1e-8; and when every value of the
repair distribution is positive, operational holds exactly when
downtime_remaining <= 0. (A component that is not operational may have a
downtime_remaining below 1e-8.) -/
theorem operational_implies_no_downtime
    (ExponentialDist : ℚ → ℚ → String → Distribution)
    (mkDist : String → ℚ → ℚ → Distribution)
    (name type : String) (repair_rate repair_cooldown_time : ℚ)
    (hot_start_penalty warm_start_penalty cold_start_penalty : ℚ)
    (availability_reduction repair_cost : ℚ)
    (modes : List ModeConfig) (events : FailureEvents) (gen : WELLFiveTwelve) (s0 : Sim)
    (calls : List Call)
    (hfresh : freshSim ExponentialDist mkDist name type repair_rate repair_cooldown_time
      hot_start_penalty warm_start_penalty cold_start_penalty availability_reduction
      repair_cost modes events gen = .ok s0)
    (hcalls : ∀ c ∈ calls, c.isOperateAdvanceGenerate = true ∧ c.advancesForward = true)
    (_hreturn : noneRaises calls s0 = true)
    (hrepair : ∀ g, 0 ≤
      ((ExponentialDist repair_rate repair_cooldown_time "exponential").GetVariate g).1) :
    ((runCalls calls s0).comp.m_status.operational = true →
      (runCalls calls s0).comp.m_status.downtime_remaining = 0) ∧
    ((runCalls calls s0).comp.m_status.operational = true →
      (runCalls calls s0).comp.m_status.downtime_remaining < 1 / 100000000) ∧
    ((∀ g, 0 <
        ((ExponentialDist repair_rate repair_cooldown_time "exponential").GetVariate g).1) →
      ((runCalls calls s0).comp.m_status.operational = true ↔
        (runCalls calls s0).comp.m_status.downtime_remaining ≤ 0)) := by
  obtain ⟨hD, hop, hdt, -⟩ := freshSim_status ExponentialDist mkDist name type repair_rate
    repair_cooldown_time hot_start_penalty warm_start_penalty cold_start_penalty
    availability_reduction repair_cost modes events gen s0 hfresh
  set D := ExponentialDist repair_rate repair_cooldown_time "exponential" with hDdef
  have hgen : ∀ g, (fun (op : Bool) (dt : ℚ) =>
      0 ≤ dt ∧ (op = true → dt = 0) ∧
        ((∀ g, 0 < (D.GetVariate g).1) → op = false → 0 < dt)) false (D.GetVariate g).1 :=
    fun g => ⟨hrepair g, fun h => absurd h (by decide), fun hpos _ => hpos g⟩
  have key := runCalls_statusInv D
    (fun op dt => 0 ≤ dt ∧ (op = true → dt = 0) ∧
      ((∀ g, 0 < (D.GetVariate g).1) → op = false → 0 < dt))
    (fun c => c.isOperateAdvanceGenerate = true ∧ c.advancesForward = true)
    ?_ calls s0 hcalls ⟨hD, by rw [hdt], fun _ => hdt, fun _ h => by rw [hop] at h; cases h⟩
  · obtain ⟨-, h0, h1, h2⟩ := key
    refine ⟨h1, fun h => ?_, fun hpos => ⟨fun h => le_of_eq (h1 h), fun h => ?_⟩⟩
    · rw [h1 h]; norm_num
    · cases hb : (runCalls calls s0).comp.m_status.operational with
      | true => rfl
      | false => exact absurd (h2 hpos hb) (not_lt.mpr h)
  · intro c s hc hs
    cases c with
    | Operate time ramp_mult read_only t start mode =>
      exact Operate_statusInv D _ hgen time ramp_mult read_only t start mode s hs
    | GenerateFailure t fail_idx => exact GenerateFailure_statusInv D _ hgen t fail_idx s hs.1
    | AdvanceDowntime time =>
      have htime : 0 ≤ time := of_decide_eq_true hc.2
      obtain ⟨hD', h0, h1, h2⟩ := hs
      refine ⟨by rw [← hD']; exact AdvanceDowntime_repair_dist s.comp time, ?_⟩
      simp only [Call.run, Exec.state, Component.AdvanceDowntime]
      split
      · exact ⟨le_rfl, fun _ => rfl, fun _ h => by cases h⟩
      · rename_i hpos
        have hpos' : 0 < s.comp.m_status.downtime_remaining - time := not_le.mp hpos
        refine ⟨le_of_lt hpos', fun hopt => ?_, fun _ _ => hpos'⟩
        have := h1 hopt
        rw [this] at hpos'
        linarith
    | TestForFailure _ _ _ _ _ => exact absurd hc.1 Bool.false_ne_true
    | ReadFailure _ _ _ _ => exact absurd hc.1 Bool.false_ne_true
    | Shutdown _ => exact absurd hc.1 Bool.false_ne_true
    | RestoreComponent => exact absurd hc.1 Bool.false_ne_true

/-- Witness of C5 (as amended): a failure and an incomplete repair on the fresh
pump. -/
theorem operational_implies_no_downtime_witness :
    freshPump = .ok freshPumpSim ∧
    (∀ c ∈ almostRepaired, c.isOperateAdvanceGenerate = true ∧ c.advancesForward = true) ∧
    noneRaises almostRepaired freshPumpSim = true ∧
    (∀ g, 0 ≤ ((floorDist 1 1 "exponential").GetVariate g).1) ∧
    ((runCalls almostRepaired freshPumpSim).comp.m_status.operational = true →
      (runCalls almostRepaired freshPumpSim).comp.m_status.downtime_remaining = 0) := by
  have hcalls : ∀ c ∈ almostRepaired,
      c.isOperateAdvanceGenerate = true ∧ c.advancesForward = true := by
    intro c hc
    simp only [almostRepaired, List.mem_cons, List.mem_singleton, List.not_mem_nil,
      or_false] at hc
    rcases hc with rfl | rfl
    · exact ⟨rfl, rfl⟩
    · refine ⟨rfl, decide_eq_true ?_⟩
      norm_num
  have hrep : ∀ g, 0 ≤ ((floorDist 1 1 "exponential").GetVariate g).1 :=
    fun g => floorDist_nonneg 1 1 "exponential" (by norm_num) g
  exact ⟨freshPump_eq, hcalls, almostRepaired_noneRaises, hrep,
    (operational_implies_no_downtime floorDist alphaDist "pump" "rotating" 1 1 1 2 3 1 0
      [{ component := "pump", id := "0", failure_mode := "OF", dist_type := "gamma",
         alpha := 100, beta := 1 }]
      noEvents zeroGen freshPumpSim almostRepaired freshPump_eq hcalls
      almostRepaired_noneRaises hrep).1⟩

/-- Counterexample to claim C5 as stated. The fresh pump fails (downtime sample 1 h) and its
downtime is advanced by 0.999999999 h: no call raises, the repair
distribution only returns non-negative values, and the component is left not
operational with downtime_remaining = 1e-9, which is below 1e-8. So
`operational == (downtime_remaining < 1e-8)` does not hold. -/
theorem operational_flag_counterexample :
    freshPump = .ok freshPumpSim ∧
    (∀ c ∈ almostRepaired, c.isOperateAdvanceGenerate = true) ∧
    noneRaises almostRepaired freshPumpSim = true ∧
    (∀ g, 0 ≤ ((floorDist 1 1 "exponential").GetVariate g).1) ∧
    ¬ ((runCalls almostRepaired freshPumpSim).comp.m_status.operational =
        decide ((runCalls almostRepaired freshPumpSim).comp.m_status.downtime_remaining
          < 1 / 100000000)) := by
  refine ⟨freshPump_eq, ?_, almostRepaired_noneRaises,
    fun g => floorDist_nonneg 1 1 "exponential" (by norm_num) g, ?_⟩
  · intro c hc
    simp only [almostRepaired, List.mem_cons, List.mem_singleton, List.not_mem_nil,
      or_false] at hc
    rcases hc with rfl | rfl <;> rfl
  · rw [almostRepaired_state.1, almostRepaired_state.2]
    norm_num

/-! ### Snapshot, replay and repair -/

/-- Restoring the values a component already has changes no failure mode. -/
theorem ReadStatus_loop_same (status : ComponentStatus) :
    ∀ (fuel j : Nat) (c : Component),
      status.lifetimes = c.m_failure_types.map FailureType.GetLifeOrProb →
      Component.ReadStatus.loop status fuel j c = .done c := by
  intro fuel
  induction fuel with
  | zero => intro j c _; rfl
  | succ fuel ih =>
    intro j c hlife
    rw [Component.ReadStatus.loop]
    split
    · rename_i hj
      have h1 : c.m_failure_types[j]? = some c.m_failure_types[j] :=
        List.getElem?_eq_getElem hj
      have h2 : status.lifetimes[j]? = some (c.m_failure_types[j]).GetLifeOrProb := by
        rw [hlife, List.getElem?_map, h1]
        rfl
      have hset : c.m_failure_types.set j
          ((c.m_failure_types[j]).SetLifeOrProb (c.m_failure_types[j]).GetLifeOrProb) =
          c.m_failure_types := by
        apply List.ext_getElem?
        intro i
        rw [List.getElem?_set]
        by_cases hij : j = i
        · subst hij
          rw [if_pos rfl, if_pos hj, h1]
          rfl
        · rw [if_neg hij]
      rw [h1, h2]
      simp only [hset]
      exact ih (j + 1) c hlife
    · rfl

/-- Claim C7. For every component state, `ReadStatus(GetState())` returns normally and
leaves hazard_rate, downtime_remaining and the life-or-prob value of every
failure mode as they were before the call. -/
theorem ReadStatus_GetState (c : Component) (indeterminate : Bool) :
    ∃ c' : Component, c.ReadStatus (c.GetState indeterminate) = .done c' ∧
      c'.m_status.hazard_rate = c.m_status.hazard_rate ∧
      c'.m_status.downtime_remaining = c.m_status.downtime_remaining ∧
      c'.GetLifetimesAndProbs = c.GetLifetimesAndProbs := by
  refine ⟨_, ReadStatus_loop_same (c.GetState indeterminate) _ 0 _ rfl, ?_, ?_, rfl⟩
  · simp [Component.GetState]
  · simp [Component.GetState]

/-- Claim C8. Replay equivalence: for every state, valid `fail_idx` and timestep `t`,
`GenerateFailure(gen, t, fail_idx)` returns normally, having sampled a downtime
`d` and a new life-or-prob value `l`; `ReadFailure(d, l, fail_idx, true)` on the
same starting state returns normally and yields the same operational flag,
downtime_remaining, hazard_rate and life-or-prob values of all modes (indeed
the same component), while the generator and the log are left unchanged. -/
theorem ReadFailure_replays_GenerateFailure (t fail_idx : Int) (s : Sim)
    (h0 : 0 ≤ fail_idx) (h1 : fail_idx < s.comp.m_failure_types.length) :
    ∃ (ft : FailureType) (sg sr : Sim),
      vectorAt s.comp.m_failure_types fail_idx = some ft ∧
      GenerateFailure t fail_idx s = .done sg ∧
      sg.comp.m_status.downtime_remaining = (s.comp.m_repair_dist.GetVariate s.gen).1 ∧
      (vectorAt sg.comp.m_failure_types fail_idx).map FailureType.GetLifeOrProb =
        some (ft.dist.GetVariate (s.comp.m_repair_dist.GetVariate s.gen).2).1 ∧
      (Call.ReadFailure (s.comp.m_repair_dist.GetVariate s.gen).1
          (ft.dist.GetVariate (s.comp.m_repair_dist.GetVariate s.gen).2).1
          fail_idx true).run s = .done sr ∧
      sr.comp.m_status.operational = sg.comp.m_status.operational ∧
      sr.comp.m_status.downtime_remaining = sg.comp.m_status.downtime_remaining ∧
      sr.comp.m_status.hazard_rate = sg.comp.m_status.hazard_rate ∧
      sr.comp.GetLifetimesAndProbs = sg.comp.GetLifetimesAndProbs ∧
      sr.comp = sg.comp ∧
      sr.gen = s.gen ∧
      sr.failure_events = s.failure_events := by
  obtain ⟨ft, hft, -⟩ := vectorAt_of_valid s.comp.m_failure_types fail_idx h0 h1
  have hlt : fail_idx.toNat < s.comp.m_failure_types.length := by omega
  have hrun : (Call.ReadFailure (s.comp.m_repair_dist.GetVariate s.gen).1
      (ft.dist.GetVariate (s.comp.m_repair_dist.GetVariate s.gen).2).1
      fail_idx true).run s = .done
        { s with comp := { s.comp with
            m_status := { s.comp.m_status with
              operational := false
              downtime_remaining := (s.comp.m_repair_dist.GetVariate s.gen).1
              hazard_rate := 1 }
            m_failure_types := s.comp.m_failure_types.set fail_idx.toNat
              { ft with life_or_prob :=
                  (ft.dist.GetVariate (s.comp.m_repair_dist.GetVariate s.gen).2).1 } } } := by
    simp only [Call.run, Component.ReadFailure, Component.SetDowntimeRemaining, hft,
      Component.ResetHazardRate, FailureType.SetLifeOrProb, Exec.lift]
  refine ⟨ft, _, _, hft, GenerateFailure_eq t fail_idx s ft hft, rfl, ?_, hrun,
    rfl, rfl, rfl, rfl, rfl, rfl, rfl⟩
  have hat : vectorAt (s.comp.m_failure_types.set fail_idx.toNat
      { ft with life_or_prob :=
          (ft.dist.GetVariate (s.comp.m_repair_dist.GetVariate s.gen).2).1 }) fail_idx
      = some { ft with life_or_prob :=
          (ft.dist.GetVariate (s.comp.m_repair_dist.GetVariate s.gen).2).1 } := by
    unfold vectorAt
    rw [if_neg (by omega)]
    simp [List.getElem?_set, hlt]
  show Option.map FailureType.GetLifeOrProb (vectorAt (s.comp.m_failure_types.set _ _) _) = _
  rw [hat]
  rfl

/-- Witness of C8 on the 100 h pump. -/
theorem ReadFailure_replays_GenerateFailure_witness :
    ∃ (sg sr : Sim),
      GenerateFailure 7 0 pump100 = .done sg ∧
      (Call.ReadFailure 1 100 0 true).run pump100 = .done sr ∧
      sr.comp = sg.comp ∧ sr.gen = pump100.gen ∧
      sr.failure_events = pump100.failure_events := by
  obtain ⟨ft, sg, sr, hft, hg, -, -, hr, -, -, -, -, hcomp, hgen, hlog⟩ :=
    ReadFailure_replays_GenerateFailure 7 0 pump100 (by decide) (by decide)
  have hft' : ft = wearMode "OF" 100 := by
    have : vectorAt pump100.comp.m_failure_types 0 = some (wearMode "OF" 100) := rfl
    rw [this] at hft
    exact (Option.some.inj hft).symm
  subst hft'
  have hd : (pump100.comp.m_repair_dist.GetVariate pump100.gen).1 = 1 := by
    simp [pump100, pump, floorDist, zeroGen, WELLFiveTwelve.getVariate]
  have hl : ((wearMode "OF" 100).dist.GetVariate
      (pump100.comp.m_repair_dist.GetVariate pump100.gen).2).1 = 100 := by
    simp [pump100, pump, wearMode, alphaDist, floorDist, zeroGen, WELLFiveTwelve.getVariate]
  rw [hd, hl] at hr
  exact ⟨sg, sr, hg, hr, hcomp, hgen, hlog⟩

/-! ### Probe, ramp multiplier and start modes -/

/-- When no matching mode exceeds its life, the wear-out loop of TestForFailure
returns the state it was given. -/
theorem TestForFailure_loop_quiet (time ramp_mult p : ℚ) (t : Int) (opmode : String) (s : Sim)
    (hno : ∀ (j : Nat) (ft : FailureType), s.comp.m_failure_types[j]? = some ft →
      ft.GetFailureMode = opmode →
      ¬ time * (s.comp.m_status.hazard_rate + p) * ramp_mult > ft.GetLifeRemaining) :
    forLoop (TestForFailure.body time ramp_mult p t opmode)
      s.comp.m_failure_types.length 0 s = .done s := by
  have key := forLoop_rule (TestForFailure.body time ramp_mult p t opmode)
    s.comp.m_failure_types.length (fun _ sk => sk = s) (fun _ => False)
    ?_ s.comp.m_failure_types.length 0 s (by omega) rfl rfl
  · revert key
    cases forLoop (TestForFailure.body time ramp_mult p t opmode)
        s.comp.m_failure_types.length 0 s with
    | done s' =>
      rintro ⟨-, h⟩
      rw [h]
    | threw w s' => exact fun h => h.elim
  · rintro j sj hj - rfl
    have hs : sj.comp.m_failure_types[j]? = some sj.comp.m_failure_types[j] :=
      List.getElem?_eq_getElem hj
    simp only [TestForFailure.body, hs]
    by_cases hm : (sj.comp.m_failure_types[j]).GetFailureMode = opmode
    · rw [if_pos hm, if_neg (hno j _ hs hm)]
      exact ⟨rfl, rfl⟩
    · rw [if_neg hm]
      exact ⟨rfl, rfl⟩

/-- Claim C11. The probe is read-only when it predicts no failure: `TestForFailure`
with mode OF or SF, for any start value, such that no failure mode whose label
equals `mode` satisfies `time * (hazard_rate + start_penalty) * ramp_mult >
life_remaining`, returns normally and leaves the whole state as it was: the
stored hazard_rate (the start penalty is not committed), downtime_remaining,
operational, every mode's life-or-prob value, the failure-event log and the
generator. -/
theorem TestForFailure_read_only (time ramp_mult : ℚ) (t : Int) (start mode : String)
    (s : Sim) (hmode : mode = "OF" ∨ mode = "SF")
    (hno : ∀ (j : Nat) (ft : FailureType), s.comp.m_failure_types[j]? = some ft →
      ft.GetFailureMode = mode →
      ¬ time * (s.comp.m_status.hazard_rate + penaltyOf s.comp start) * ramp_mult >
          ft.GetLifeRemaining) :
    ∃ s' : Sim, TestForFailure time ramp_mult t start mode s = .done s' ∧
      s'.comp.m_status.hazard_rate = s.comp.m_status.hazard_rate ∧
      s'.comp.m_status.downtime_remaining = s.comp.m_status.downtime_remaining ∧
      s'.comp.m_status.operational = s.comp.m_status.operational ∧
      s'.comp.GetLifetimesAndProbs = s.comp.GetLifetimesAndProbs ∧
      s'.failure_events = s.failure_events ∧
      s'.gen = s.gen ∧
      s' = s := by
  refine ⟨s, ?_, rfl, rfl, rfl, rfl, rfl, rfl, rfl⟩
  rw [TestForFailure_continuous time ramp_mult t start mode s hmode]
  exact TestForFailure_loop_quiet time ramp_mult (penaltyOf s.comp start) t mode s hno

/-- Witness of C11: a 50 h probe with a hot start on the 100 h pump
(`50 * (1 + 1) * 1 = 100` does not exceed 100). -/
theorem TestForFailure_read_only_witness :
    ("OF" = "OF" ∨ "OF" = "SF") ∧
    (∀ (j : Nat) (ft : FailureType), pump100.comp.m_failure_types[j]? = some ft →
      ft.GetFailureMode = "OF" →
      ¬ 50 * (pump100.comp.m_status.hazard_rate + penaltyOf pump100.comp "HotStart") * 1 >
          ft.GetLifeRemaining) ∧
    ∃ s' : Sim, TestForFailure 50 1 3 "HotStart" "OF" pump100 = .done s' ∧
      s'.comp.m_status.hazard_rate = pump100.comp.m_status.hazard_rate ∧
      s'.comp.m_status.downtime_remaining = pump100.comp.m_status.downtime_remaining ∧
      s'.comp.m_status.operational = pump100.comp.m_status.operational ∧
      s'.comp.GetLifetimesAndProbs = pump100.comp.GetLifetimesAndProbs ∧
      s'.failure_events = pump100.failure_events ∧
      s'.gen = pump100.gen ∧
      s' = pump100 := by
  have hno : ∀ (j : Nat) (ft : FailureType), pump100.comp.m_failure_types[j]? = some ft →
      ft.GetFailureMode = "OF" →
      ¬ 50 * (pump100.comp.m_status.hazard_rate + penaltyOf pump100.comp "HotStart") * 1 >
          ft.GetLifeRemaining := by
    intro j ft hj _
    have hj' : [wearMode "OF" 100][j]? = some ft := hj
    cases j with
    | zero =>
      simp only [List.getElem?_cons_zero, Option.some.injEq] at hj'
      subst hj'
      simp [pump100, pump, penaltyOf, wearMode, FailureType.GetLifeRemaining]
      norm_num
    | succ j => simp at hj'
  exact ⟨Or.inl rfl, hno, TestForFailure_read_only 50 1 3 "HotStart" "OF" pump100 (Or.inl rfl) hno⟩


/-- The binary start check never throws. -/
theorem TestForBinaryFailure_returns (mode : String) (t : Int) (s : Sim) :
    ∃ s1 : Sim, TestForBinaryFailure mode t s = .done s1 ∧
      s1.comp.m_failure_types.length = s.comp.m_failure_types.length := by
  obtain ⟨sn, hsn, hlen, -⟩ :=
    TestForBinaryFailure_before mode t s s.comp.m_failure_types.length le_rfl
  exact ⟨sn, hsn, hlen⟩

/-- The binary start check leaves every failure mode with another label as it
was. -/
theorem TestForBinaryFailure_frame (mode : String) (t : Int) (s s1 : Sim)
    (h : TestForBinaryFailure mode t s = .done s1) :
    ∀ (j : Nat) (ft : FailureType), s.comp.m_failure_types[j]? = some ft →
      ft.GetFailureMode ≠ mode → s1.comp.m_failure_types[j]? = some ft := by
  have key := forLoop_rule (TestForBinaryFailure.body mode t)
    s.comp.m_failure_types.length
    (fun k sk => ∀ (j : Nat) (ft : FailureType), s.comp.m_failure_types[j]? = some ft →
      (ft.GetFailureMode ≠ mode ∨ k ≤ j) → sk.comp.m_failure_types[j]? = some ft)
    (fun _ => False)
    ?_ s.comp.m_failure_types.length 0 s (by omega) rfl (fun j ft hj _ => hj)
  · unfold TestForBinaryFailure at h
    rw [h] at key
    intro j ft hj hne
    exact key.2 j ft hj (Or.inl hne)
  · rintro k sk hk hlen hP
    have hs : s.comp.m_failure_types[k]? = some s.comp.m_failure_types[k] :=
      List.getElem?_eq_getElem hk
    have hsk : sk.comp.m_failure_types[k]? = some s.comp.m_failure_types[k] :=
      hP k _ hs (Or.inr le_rfl)
    have hkeep : ∀ (j : Nat) (ft : FailureType), s.comp.m_failure_types[j]? = some ft →
        (ft.GetFailureMode ≠ mode ∨ k + 1 ≤ j) → sk.comp.m_failure_types[j]? = some ft :=
      fun j ft hj hor => hP j ft hj (hor.imp id (fun h => by omega))
    simp only [TestForBinaryFailure.body, hsk]
    by_cases hm : (s.comp.m_failure_types[k]).GetFailureMode = mode
    · rw [if_pos hm]
      by_cases hc : sk.gen.getVariate.1 * sk.comp.m_status.hazard_rate ≤
          (s.comp.m_failure_types[k]).GetFailureProbability
      · rw [if_pos hc]
        have hat : vectorAt ({ sk with gen := sk.gen.getVariate.2 } : Sim).comp.m_failure_types
            (k : Int) = some s.comp.m_failure_types[k] := by
          rw [vectorAt_natCast]
          exact hsk
        rw [GenerateFailure_eq t k _ _ hat]
        refine ⟨by simpa using hlen, fun j ft hj hor => ?_⟩
        simp only [Int.toNat_ofNat, List.getElem?_set]
        have hjk : k ≠ j := by
          rintro rfl
          rw [hs] at hj
          cases hj
          rcases hor with h1 | h1
          · exact h1 hm
          · omega
        rw [if_neg hjk]
        exact hkeep j ft hj hor
      · rw [if_neg hc]
        exact ⟨hlen, hkeep⟩
    · rw [if_neg hm]
      exact ⟨hlen, hkeep⟩

/-- Claim C13. Start modes map to their continuous counterpart. For a call with mode
OS (`opmode` = OF) or SS (`opmode` = SF):
* `TestForFailure` first runs the binary start check for `mode`, which never
  throws and leaves every failure mode with another label untouched, and then
  applies the wear-out comparison to exactly the failure modes labelled
  `opmode`: with `s1` the state after the start check, a failure is generated
  for `j` in the wear-out phase iff `j` is labelled `opmode` and
  `time * (h + p) * ramp_mult > life_remaining(j)` (`h` the stored rate when
  `j` is checked);
* `Operate` on an operational component, when it returns, has reduced by
  `time * hazard_rate * ramp_mult` exactly the failure modes labelled `opmode`:
  every other mode, in particular one labelled OS or SS, keeps the value it
  had after the start check.
And `Operate` with mode OF or SF leaves every mode labelled OS or SS as it
was. -/
theorem start_modes_map_to_continuous (time ramp_mult : ℚ) (read_only : Bool) (t : Int)
    (start mode opmode : String) (s : Sim)
    (hmode : (mode = "OS" ∧ opmode = "OF") ∨ (mode = "SS" ∧ opmode = "SF")) :
    (∃ (s1 s' : Sim) (new : List Int),
      TestForBinaryFailure mode t s = .done s1 ∧
      (∀ (j : Nat) (ft : FailureType), s.comp.m_failure_types[j]? = some ft →
        ft.GetFailureMode ≠ mode → s1.comp.m_failure_types[j]? = some ft) ∧
      TestForFailure time ramp_mult t start mode s = .done s' ∧
      s'.generated = s1.generated ++ new ∧
      ∀ (j : Nat) (ft : FailureType), s1.comp.m_failure_types[j]? = some ft →
        (ft.GetFailureMode = opmode →
          ((j : Int) ∈ new ↔
            time * ((if ∃ i : Nat, i < j ∧ (i : Int) ∈ new then 1
                      else s1.comp.m_status.hazard_rate) + penaltyOf s.comp start) * ramp_mult >
              ft.GetLifeRemaining)) ∧
        (ft.GetFailureMode ≠ opmode → (j : Int) ∉ new)) ∧
    (s.comp.m_status.operational = true →
      ∃ s1 : Sim,
        TestForBinaryFailure mode t { s with comp := addStartPenalty s.comp start } = .done s1 ∧
        ∀ s' : Sim, Operate time ramp_mult read_only t start mode s = .done s' →
          ∀ (j : Nat) (ft : FailureType), s1.comp.m_failure_types[j]? = some ft →
            s'.comp.m_failure_types[j]? = some
              (if ft.GetFailureMode = opmode then
                ft.ReduceLifeRemaining (time * s1.comp.m_status.hazard_rate * ramp_mult)
               else ft) ∧
            ((ft.GetFailureMode = "OS" ∨ ft.GetFailureMode = "SS") →
              s'.comp.m_failure_types[j]? = some ft)) ∧
    (∀ (m : String) (s' : Sim), (m = "OF" ∨ m = "SF") →
      s.comp.m_status.operational = true →
      Operate time ramp_mult read_only t start m s = .done s' →
      ∀ (j : Nat) (ft : FailureType), s.comp.m_failure_types[j]? = some ft →
        (ft.GetFailureMode = "OS" ∨ ft.GetFailureMode = "SS") →
        s'.comp.m_failure_types[j]? = some ft) := by
  have hop1 : opmode = "OF" ∨ opmode = "SF" := by
    rcases hmode with ⟨-, h⟩ | ⟨-, h⟩
    · exact Or.inl h
    · exact Or.inr h
  have hnotstart : ∀ ft : FailureType,
      (ft.GetFailureMode = "OS" ∨ ft.GetFailureMode = "SS") → ft.GetFailureMode ≠ opmode := by
    intro ft hft heq
    rcases hop1 with h | h <;> rcases hft with h' | h' <;> rw [h, h'] at heq <;>
      exact absurd heq (by decide)
  refine ⟨?_, ?_, ?_⟩
  · obtain ⟨s1, hs1, -⟩ := TestForBinaryFailure_returns mode t s
    obtain ⟨s', new, hloop, hgen, hall⟩ :=
      TestForFailure_loop time ramp_mult (penaltyOf s.comp start) t opmode s1
    refine ⟨s1, s', new, hs1, TestForBinaryFailure_frame mode t s s1 hs1, ?_, hgen, hall⟩
    rcases hmode with ⟨hm, ho⟩ | ⟨hm, ho⟩
    · subst hm ho
      simp only [TestForFailure, if_true, startPenalty_eq, hs1, Exec.bind_done]
      exact hloop
    · subst hm ho
      have hne : ¬ ("SS" = "OS") := by decide
      simp only [TestForFailure, if_true, if_neg hne, startPenalty_eq, hs1, Exec.bind_done]
      exact hloop
  · intro hop
    obtain ⟨s1, hs1, -⟩ :=
      TestForBinaryFailure_returns mode t { s with comp := addStartPenalty s.comp start }
    refine ⟨s1, hs1, ?_⟩
    intro s' hret j ft hj
    have hdep : forLoop (Operate.body time ramp_mult read_only opmode)
        s1.comp.m_failure_types.length 0 s1 = .done s' := by
      rcases hmode with ⟨hm, ho⟩ | ⟨hm, ho⟩
      · subst hm ho
        simpa only [Operate, Component.IsOperational, hop, not_true_eq_false, if_false,
          if_true, hs1, Exec.bind_done] using hret
      · subst hm ho
        have hne : ¬ ("SS" = "OS") := by decide
        simpa only [Operate, Component.IsOperational, hop, not_true_eq_false, if_false,
          if_true, if_neg hne, hs1, Exec.bind_done] using hret
    have key := Operate_loop time ramp_mult read_only opmode s1
    rw [hdep] at key
    obtain ⟨-, -, hmodes, -⟩ := key
    refine ⟨hmodes j ft hj, fun hlab => ?_⟩
    rw [hmodes j ft hj, if_neg (hnotstart ft hlab)]
  · intro m s' hm hop hret j ft hj hlab
    rw [Operate_continuous time ramp_mult read_only t start m s hm hop] at hret
    have key := Operate_loop time ramp_mult read_only m
      { s with comp := { s.comp with m_status := { s.comp.m_status with
          hazard_rate := s.comp.m_status.hazard_rate + penaltyOf s.comp start } } }
    simp only at key
    rw [hret] at key
    obtain ⟨-, -, hmodes, -⟩ := key
    have hne : ft.GetFailureMode ≠ m := by
      intro heq
      rcases hm with h | h <;> rcases hlab with h' | h' <;> rw [h, h'] at heq <;>
        exact absurd heq (by decide)
    rw [hmodes j ft hj, if_neg hne]

/-- Witness of C13 on a pump with an OS mode between an OF and an SF mode. -/
theorem start_modes_map_to_continuous_witness :
    (("OS" = "OS" ∧ "OF" = "OF") ∨ ("OS" = "SS" ∧ "OF" = "SF")) ∧
    ∃ s1 : Sim,
      TestForBinaryFailure "OS" 0
        { pumpStart with comp := addStartPenalty pumpStart.comp "None" } = .done s1 ∧
      ∀ s' : Sim, Operate 10 1 false 0 "None" "OS" pumpStart = .done s' →
        ∀ (j : Nat) (ft : FailureType), s1.comp.m_failure_types[j]? = some ft →
          s'.comp.m_failure_types[j]? = some
            (if ft.GetFailureMode = "OF" then
              ft.ReduceLifeRemaining (10 * s1.comp.m_status.hazard_rate * 1)
             else ft) ∧
          ((ft.GetFailureMode = "OS" ∨ ft.GetFailureMode = "SS") →
            s'.comp.m_failure_types[j]? = some ft) :=
  ⟨Or.inl ⟨rfl, rfl⟩,
    (start_modes_map_to_continuous 10 1 false 0 "None" "OS" "OF" pumpStart
      (Or.inl ⟨rfl, rfl⟩)).2.1 rfl⟩

/-- Claim C14. Constructing a `Component` raises the configuration error if and only
if `name` equals "MAINTENANCE", for all values of the other parameters; for
every other name construction succeeds with hazard_rate 1, downtime_remaining
0, operational true and no failure modes. -/
theorem Component_ctor_contract (ExponentialDist : ℚ → ℚ → String → Distribution)
    (name type : String) (repair_rate repair_cooldown_time : ℚ)
    (hot_start_penalty warm_start_penalty cold_start_penalty : ℚ)
    (availability_reduction repair_cost : ℚ) :
    ((∃ e : String, Component.ctor ExponentialDist name type repair_rate repair_cooldown_time
        hot_start_penalty warm_start_penalty cold_start_penalty availability_reduction
        repair_cost = .error e) ↔ name = "MAINTENANCE") ∧
    (name ≠ "MAINTENANCE" →
      ∃ c : Component, Component.ctor ExponentialDist name type repair_rate
          repair_cooldown_time hot_start_penalty warm_start_penalty cold_start_penalty
          availability_reduction repair_cost = .ok c ∧
        c.m_status.hazard_rate = 1 ∧ c.m_status.downtime_remaining = 0 ∧
        c.m_status.operational = true ∧ c.m_failure_types = []) := by
  constructor
  · constructor
    · rintro ⟨e, he⟩
      by_contra hn
      simp only [Component.ctor, if_neg hn] at he
      cases he
    · intro hn
      refine ⟨"cannot name a component 'MAINTENANCE'", ?_⟩
      simp only [Component.ctor, if_pos hn]
  · intro hn
    simp only [Component.ctor, if_neg hn]
    exact ⟨_, rfl, rfl, rfl, rfl, rfl⟩

/-! ### Hazard rate -/

theorem penaltyOf_nonneg (c : Component) (start : String)
    (hhot : 0 ≤ c.m_hot_start_penalty) (hwarm : 0 ≤ c.m_warm_start_penalty)
    (hcold : 0 ≤ c.m_cold_start_penalty) : 0 ≤ penaltyOf c start := by
  unfold penaltyOf
  split
  · exact hhot
  · split
    · exact hwarm
    · split
      · exact hcold
      · exact le_rfl

/-- A property of the state kept by every call is kept by a sequence of calls. -/
theorem runCalls_preserves (I : Sim → Prop) (A : Call → Prop)
    (hA : ∀ c s, A c → I s → I (c.run s).state) :
    ∀ (calls : List Call) (s : Sim), (∀ c ∈ calls, A c) → I s → I (runCalls calls s) := by
  intro calls
  induction calls with
  | nil => intro s _ h; exact h
  | cons c cs ih =>
    intro s hall h
    exact ih _ (fun c' hc' => hall c' (List.mem_cons_of_mem c hc'))
      (hA c s (hall c (List.mem_cons_self c cs)) h)

theorem GenerateFailure_hazardInv (t fail_idx : Int) (s : Sim) (h : HazardInv s) :
    HazardInv (GenerateFailure t fail_idx s).state := by
  obtain ⟨h1, h2, h3, h4⟩ := h
  unfold GenerateFailure
  simp only
  split
  · exact ⟨h1, h2, h3, h4⟩
  · split
    · exact ⟨h1, h2, h3, le_rfl⟩
    · exact ⟨h1, h2, h3, le_rfl⟩

theorem TestForBinaryFailure_body_hazardInv (mode : String) (t : Int) (j : Nat) (s : Sim)
    (h : HazardInv s) : HazardInv (TestForBinaryFailure.body mode t j s).state := by
  unfold TestForBinaryFailure.body
  split
  · exact h
  · simp only
    split
    · split
      · exact GenerateFailure_hazardInv t j _ h
      · exact h
    · exact h

theorem TestForFailure_body_hazardInv (time ramp_mult p : ℚ) (t : Int) (opmode : String)
    (j : Nat) (s : Sim) (h : HazardInv s) :
    HazardInv (TestForFailure.body time ramp_mult p t opmode j s).state := by
  unfold TestForFailure.body
  split
  · exact h
  · split
    · split
      · exact GenerateFailure_hazardInv t j _ h
      · exact h
    · exact h

theorem Operate_body_hazardInv (time ramp_mult : ℚ) (read_only : Bool) (opmode : String)
    (j : Nat) (s : Sim) (h : HazardInv s) :
    HazardInv (Operate.body time ramp_mult read_only opmode j s).state := by
  unfold Operate.body
  split
  · exact h
  · split
    · split
      · exact h
      · exact h
    · exact h

theorem TestForBinaryFailure_hazardInv (mode : String) (t : Int) (s : Sim)
    (h : HazardInv s) : HazardInv (TestForBinaryFailure mode t s).state :=
  forLoop_preserves _ HazardInv
    (fun j s hs => TestForBinaryFailure_body_hazardInv mode t j s hs) _ _ s h

theorem TestForFailure_hazardInv (time ramp_mult : ℚ) (t : Int) (start mode : String)
    (s : Sim) (h : HazardInv s) :
    HazardInv (TestForFailure time ramp_mult t start mode s).state := by
  have hwear : ∀ (opmode : String) (s1 : Sim), HazardInv s1 →
      HazardInv (forLoop (TestForFailure.body time ramp_mult (startPenalty s.comp start)
        t opmode) s1.comp.m_failure_types.length 0 s1).state :=
    fun opmode s1 h1 => forLoop_preserves _ HazardInv
      (fun j s hs => TestForFailure_body_hazardInv time ramp_mult _ t opmode j s hs)
      _ _ s1 h1
  unfold TestForFailure
  simp only
  split
  · exact Exec.state_bind HazardInv _ _ (TestForBinaryFailure_hazardInv mode t s h)
      (hwear "OF")
  · split
    · exact Exec.state_bind HazardInv _ _ (TestForBinaryFailure_hazardInv mode t s h)
        (hwear "SF")
    · exact hwear mode s h

theorem Operate_hazardInv (time ramp_mult : ℚ) (read_only : Bool) (t : Int)
    (start mode : String) (s : Sim) (h : HazardInv s) :
    HazardInv (Operate time ramp_mult read_only t start mode s).state := by
  have hdep : ∀ (opmode : String) (s1 : Sim), HazardInv s1 →
      HazardInv (forLoop (Operate.body time ramp_mult read_only opmode)
        s1.comp.m_failure_types.length 0 s1).state :=
    fun opmode s1 h1 => forLoop_preserves _ HazardInv
      (fun j s hs => Operate_body_hazardInv time ramp_mult read_only opmode j s hs)
      _ _ s1 h1
  have h1 : HazardInv { s with comp := addStartPenalty s.comp start } := by
    rw [addStartPenalty_eq]
    obtain ⟨a, b, c, d⟩ := h
    refine ⟨a, b, c, ?_⟩
    have := penaltyOf_nonneg s.comp start a b c
    show 1 ≤ s.comp.m_status.hazard_rate + penaltyOf s.comp start
    linarith
  unfold Operate
  simp only
  split
  · exact h
  · split
    · exact Exec.state_bind HazardInv _ _ (TestForBinaryFailure_hazardInv mode t _ h1)
        (hdep "OF")
    · split
      · exact Exec.state_bind HazardInv _ _ (TestForBinaryFailure_hazardInv mode t _ h1)
          (hdep "SF")
      · exact hdep mode { s with comp := addStartPenalty s.comp start } h1

/-- ReadFailure that returns has reset the hazard rate, whatever `reset_hazard`. -/
theorem ReadFailure_done_hazard (c c' : Component) (downtime life_remaining : ℚ)
    (fail_idx : Int) (reset_hazard : Bool)
    (h : c.ReadFailure downtime life_remaining fail_idx reset_hazard = .done c') :
    c'.m_status.hazard_rate = 1 := by
  unfold Component.ReadFailure at h
  simp only at h
  split at h
  · cases h
  · cases h
    rfl

theorem Call_run_hazardInv (c : Call) (s : Sim) (h : HazardInv s) :
    HazardInv (c.run s).state := by
  cases c with
  | Operate time ramp_mult read_only t start mode =>
    exact Operate_hazardInv time ramp_mult read_only t start mode s h
  | TestForFailure time ramp_mult t start mode =>
    exact TestForFailure_hazardInv time ramp_mult t start mode s h
  | GenerateFailure t fail_idx => exact GenerateFailure_hazardInv t fail_idx s h
  | ReadFailure downtime life_remaining fail_idx reset_hazard =>
    obtain ⟨h1, h2, h3, h4⟩ := h
    simp only [Call.run, Component.ReadFailure]
    split
    · exact ⟨h1, h2, h3, h4⟩
    · exact ⟨h1, h2, h3, le_rfl⟩
  | AdvanceDowntime time =>
    obtain ⟨h1, h2, h3, h4⟩ := h
    simp only [Call.run, Exec.state, Component.AdvanceDowntime]
    split
    · exact ⟨h1, h2, h3, h4⟩
    · exact ⟨h1, h2, h3, h4⟩
  | Shutdown time => exact h
  | RestoreComponent => exact h

/-- The start penalties of a fresh component are those given to the constructor. -/
theorem freshSim_penalties (ExponentialDist : ℚ → ℚ → String → Distribution)
    (mkDist : String → ℚ → ℚ → Distribution)
    (name type : String) (repair_rate repair_cooldown_time : ℚ)
    (hot_start_penalty warm_start_penalty cold_start_penalty : ℚ)
    (availability_reduction repair_cost : ℚ)
    (modes : List ModeConfig) (events : FailureEvents) (gen : WELLFiveTwelve) (s0 : Sim)
    (h : freshSim ExponentialDist mkDist name type repair_rate repair_cooldown_time
      hot_start_penalty warm_start_penalty cold_start_penalty availability_reduction
      repair_cost modes events gen = .ok s0) :
    s0.comp.m_hot_start_penalty = hot_start_penalty ∧
    s0.comp.m_warm_start_penalty = warm_start_penalty ∧
    s0.comp.m_cold_start_penalty = cold_start_penalty := by
  have hfold : ∀ (ms : List ModeConfig) (c : Component),
      (ms.foldl (fun c m => c.AddFailureMode mkDist m.component m.id m.failure_mode
        m.dist_type m.alpha m.beta) c).m_hot_start_penalty = c.m_hot_start_penalty ∧
      (ms.foldl (fun c m => c.AddFailureMode mkDist m.component m.id m.failure_mode
        m.dist_type m.alpha m.beta) c).m_warm_start_penalty = c.m_warm_start_penalty ∧
      (ms.foldl (fun c m => c.AddFailureMode mkDist m.component m.id m.failure_mode
        m.dist_type m.alpha m.beta) c).m_cold_start_penalty = c.m_cold_start_penalty := by
    intro ms
    induction ms with
    | nil => intro c; exact ⟨rfl, rfl, rfl⟩
    | cons m ms ih =>
      intro c
      rw [List.foldl_cons]
      exact ih _
  unfold freshSim Component.ctor at h
  by_cases hn : name = "MAINTENANCE"
  · simp [hn] at h
  · simp only [hn, if_false] at h
    have h' := Except.ok.inj h
    subst h'
    simp only [GenerateInitialLifesAndProbs]
    exact hfold modes _

/-- Claim C15. hazard_rate >= 1 holds in every state reachable from a freshly
constructed component by any finite sequence of `Operate`, `TestForFailure`,
`GenerateFailure`, `ReadFailure`, `AdvanceDowntime`, `Shutdown` and
`RestoreComponent` calls (any arguments, whether or not they raise), provided
the hot, warm and cold start penalties are non-negative; and it is exactly 1
immediately after every `GenerateFailure` and every `ReadFailure`: each returns
normally for a valid `fail_idx`, and whenever one returns the rate is 1,
whatever `reset_hazard` is. -/
theorem hazard_rate_at_least_one
    (ExponentialDist : ℚ → ℚ → String → Distribution)
    (mkDist : String → ℚ → ℚ → Distribution)
    (name type : String) (repair_rate repair_cooldown_time : ℚ)
    (hot_start_penalty warm_start_penalty cold_start_penalty : ℚ)
    (availability_reduction repair_cost : ℚ)
    (modes : List ModeConfig) (events : FailureEvents) (gen : WELLFiveTwelve) (s0 : Sim)
    (calls : List Call)
    (hfresh : freshSim ExponentialDist mkDist name type repair_rate repair_cooldown_time
      hot_start_penalty warm_start_penalty cold_start_penalty availability_reduction
      repair_cost modes events gen = .ok s0)
    (hhot : 0 ≤ hot_start_penalty) (hwarm : 0 ≤ warm_start_penalty)
    (hcold : 0 ≤ cold_start_penalty) :
    1 ≤ (runCalls calls s0).comp.m_status.hazard_rate ∧
    (∀ (s : Sim) (t fail_idx : Int), 0 ≤ fail_idx → fail_idx < s.comp.m_failure_types.length →
      ∃ s' : Sim, GenerateFailure t fail_idx s = .done s' ∧
        s'.comp.m_status.hazard_rate = 1) ∧
    (∀ (s s' : Sim) (t fail_idx : Int), GenerateFailure t fail_idx s = .done s' →
      s'.comp.m_status.hazard_rate = 1) ∧
    (∀ (s : Sim) (downtime life_remaining : ℚ) (fail_idx : Int) (reset_hazard : Bool),
      0 ≤ fail_idx → fail_idx < s.comp.m_failure_types.length →
      ∃ s' : Sim,
        (Call.ReadFailure downtime life_remaining fail_idx reset_hazard).run s = .done s' ∧
        s'.comp.m_status.hazard_rate = 1) ∧
    (∀ (s s' : Sim) (downtime life_remaining : ℚ) (fail_idx : Int) (reset_hazard : Bool),
      (Call.ReadFailure downtime life_remaining fail_idx reset_hazard).run s = .done s' →
      s'.comp.m_status.hazard_rate = 1) := by
  obtain ⟨-, -, -, hhz⟩ := freshSim_status ExponentialDist mkDist name type repair_rate
    repair_cooldown_time hot_start_penalty warm_start_penalty cold_start_penalty
    availability_reduction repair_cost modes events gen s0 hfresh
  obtain ⟨p1, p2, p3⟩ := freshSim_penalties ExponentialDist mkDist name type repair_rate
    repair_cooldown_time hot_start_penalty warm_start_penalty cold_start_penalty
    availability_reduction repair_cost modes events gen s0 hfresh
  have h0 : HazardInv s0 := ⟨by rw [p1]; exact hhot, by rw [p2]; exact hwarm,
    by rw [p3]; exact hcold, by rw [hhz]⟩
  have hgen : ∀ (s s' : Sim) (t fail_idx : Int), GenerateFailure t fail_idx s = .done s' →
      s'.comp.m_status.hazard_rate = 1 := by
    intro s s' t fail_idx h
    unfold GenerateFailure at h
    simp only at h
    split at h
    · cases h
    · split at h
      · cases h
      · cases h
        rfl
  have hread : ∀ (s s' : Sim) (downtime life_remaining : ℚ) (fail_idx : Int)
      (reset_hazard : Bool),
      (Call.ReadFailure downtime life_remaining fail_idx reset_hazard).run s = .done s' →
      s'.comp.m_status.hazard_rate = 1 := by
    intro s s' downtime life_remaining fail_idx reset_hazard h
    simp only [Call.run] at h
    cases hr : s.comp.ReadFailure downtime life_remaining fail_idx reset_hazard with
    | done c' =>
      rw [hr] at h
      simp only [Exec.lift] at h
      cases h
      exact ReadFailure_done_hazard s.comp c' downtime life_remaining fail_idx reset_hazard hr
    | threw w c' =>
      rw [hr] at h
      simp only [Exec.lift] at h
      cases h
  refine ⟨?_, ?_, hgen, ?_, hread⟩
  · exact (runCalls_preserves HazardInv (fun _ => True)
      (fun c s _ hs => Call_run_hazardInv c s hs) calls s0 (fun _ _ => trivial) h0).2.2.2
  · intro s t fail_idx hi0 hi1
    obtain ⟨ft, hft, -⟩ := vectorAt_of_valid s.comp.m_failure_types fail_idx hi0 hi1
    exact ⟨_, GenerateFailure_eq t fail_idx s ft hft, rfl⟩
  · intro s downtime life_remaining fail_idx reset_hazard hi0 hi1
    obtain ⟨ft, hft, -⟩ := vectorAt_of_valid s.comp.m_failure_types fail_idx hi0 hi1
    have hrun : ∃ s' : Sim,
        (Call.ReadFailure downtime life_remaining fail_idx reset_hazard).run s = .done s' := by
      simp only [Call.run, Component.ReadFailure, Component.SetDowntimeRemaining, hft,
        Exec.lift]
      exact ⟨_, rfl⟩
    obtain ⟨s', hs'⟩ := hrun
    exact ⟨s', hs', hread s s' downtime life_remaining fail_idx reset_hazard hs'⟩

/-- Witness of C15: start penalties 1, 2, 3; a hot start, a failure, a replay with
`reset_hazard` false on the fresh pump. -/
theorem hazard_rate_at_least_one_witness :
    freshPump = .ok freshPumpSim ∧
    1 ≤ (runCalls [.Operate 10 1 false 0 "HotStart" "OF", .GenerateFailure 1 0,
          .AdvanceDowntime 5, .Operate 10 1 false 2 "ColdStart" "OF",
          .ReadFailure 3 80 0 false, .Shutdown 4, .RestoreComponent]
        freshPumpSim).comp.m_status.hazard_rate :=
  ⟨freshPump_eq,
    (hazard_rate_at_least_one floorDist alphaDist "pump" "rotating" 1 1 1 2 3 1 0
      [{ component := "pump", id := "0", failure_mode := "OF", dist_type := "gamma",
         alpha := 100, beta := 1 }]
      noEvents zeroGen freshPumpSim _ freshPump_eq (by norm_num) (by norm_num)
      (by norm_num)).1⟩

/-! ### Hours to failure and replay of the hazard reset -/

/-- The loop of HoursToFailure computes the minimum of the claim into `hours`. -/
theorem HoursToFailure_loop_eq (c : Component) (ramp_mult : ℚ) (mode : String) :
    ∀ (fuel j : Nat) (hours : WithTop ℚ), j + fuel = c.m_failure_types.length →
      Component.HoursToFailure.loop c ramp_mult mode fuel j hours =
        .ok (min hours
          ((((c.m_failure_types.drop j).filter
              (fun ft => decide (ft.GetFailureMode = mode))).map
            (fun ft => ((ft.GetLifeRemaining / (c.m_status.hazard_rate * ramp_mult) : ℚ) :
              WithTop ℚ))).foldr min ⊤)) := by
  intro fuel
  induction fuel with
  | zero =>
    intro j hours hj
    have : c.m_failure_types.drop j = [] := List.drop_eq_nil_of_le (by omega)
    simp [Component.HoursToFailure.loop, this]
  | succ fuel ih =>
    intro j hours hj
    have hlt : j < c.m_failure_types.length := by omega
    have hdrop : c.m_failure_types.drop j =
        c.m_failure_types[j] :: c.m_failure_types.drop (j + 1) :=
      List.drop_eq_getElem_cons hlt
    have hget : c.m_failure_types[j]? = some c.m_failure_types[j] :=
      List.getElem?_eq_getElem hlt
    rw [Component.HoursToFailure.loop, if_pos hlt, hget]
    simp only
    by_cases hm : (c.m_failure_types[j]).GetFailureMode = mode
    · rw [if_pos hm, ih (j + 1) _ (by omega), hdrop]
      simp only [List.filter_cons, hm, decide_True, if_true, List.map_cons, List.foldr_cons,
        min_assoc]
    · rw [if_neg hm, ih (j + 1) _ (by omega), hdrop]
      simp only [List.filter_cons, hm, decide_False, Bool.false_eq_true, if_false]

/-- Whatever its arguments, HoursToFailure returns INFINITY. -/
theorem HoursToFailure_top (c : Component) (ramp_mult : ℚ) (mode : String) :
    c.HoursToFailure ramp_mult mode = .ok ⊤ := by
  unfold Component.HoursToFailure
  split
  · rfl
  · rw [HoursToFailure_loop_eq c ramp_mult mode c.m_failure_types.length 0 ⊤ (by omega)]

/-- Claim C16 against the code: on the 100 h pump (hazard rate 1) the call
`HoursToFailure(1, "OF")` returns INFINITY, while the claim, and the value the
loop has just computed into `hours`, is 100; the function returns INFINITY
for every component, `ramp_mult` and mode. -/
theorem HoursToFailure_discards_minimum :
    pump100.comp.HoursToFailure 1 "OF" = .ok ⊤ ∧
    hoursToFailureClaimed pump100.comp 1 "OF" = ((100 : ℚ) : WithTop ℚ) ∧
    Component.HoursToFailure.loop pump100.comp 1 "OF" pump100.comp.m_failure_types.length 0 ⊤ =
      .ok ((100 : ℚ) : WithTop ℚ) ∧
    ((100 : ℚ) : WithTop ℚ) ≠ ⊤ ∧
    (∀ (c : Component) (ramp_mult : ℚ) (mode : String),
      c.HoursToFailure ramp_mult mode = .ok ⊤) := by
  have hclaimed : hoursToFailureClaimed pump100.comp 1 "OF" = ((100 : ℚ) : WithTop ℚ) := by
    simp [hoursToFailureClaimed, pump100, pump, wearMode, FailureType.GetFailureMode,
      FailureType.GetLifeRemaining]
  refine ⟨HoursToFailure_top _ _ _, hclaimed, ?_, WithTop.coe_ne_top, HoursToFailure_top⟩
  rw [HoursToFailure_loop_eq pump100.comp 1 "OF" _ 0 ⊤ (by omega)]
  simp [pump100, pump, wearMode, FailureType.GetFailureMode, FailureType.GetLifeRemaining]

/-- Claim C17 against the code: `ReadFailure` does not read `reset_hazard`. On a
component whose stored hazard rate is 2, `ReadFailure(5, 100, 0, false)`
returns with hazard_rate 1, where the claim (and the comment of the function)
says the rate is left unchanged; the other effects are as claimed. -/
theorem ReadFailure_ignores_reset_hazard :
    pumpTwoModes.comp.m_status.hazard_rate = 2 ∧
    (∃ c' : Component, pumpTwoModes.comp.ReadFailure 5 100 0 false = .done c' ∧
      c'.m_status.hazard_rate = 1 ∧
      c'.m_status.operational = false ∧
      c'.m_status.downtime_remaining = 5 ∧
      c'.GetLifetimesAndProbs = [100, 10]) ∧
    (∀ (c : Component) (downtime life_remaining : ℚ) (fail_idx : Int),
      c.ReadFailure downtime life_remaining fail_idx false =
        c.ReadFailure downtime life_remaining fail_idx true) := by
  refine ⟨rfl, ⟨_, rfl, rfl, rfl, rfl, ?_⟩, fun _ _ _ _ => rfl⟩
  simp [Component.GetLifetimesAndProbs, pumpTwoModes, pump, wearMode, Component.ResetHazardRate,
    Component.SetDowntimeRemaining, FailureType.SetLifeOrProb, FailureType.GetLifeOrProb]

/-! ### Restore then snapshot -/

/-- The loop of ReadStatus, given a value for every failure mode, returns normally
having stored the values of the snapshot from index j on; the rest of the
component is untouched. -/
theorem ReadStatus_loop_stores (status : ComponentStatus) :
    ∀ (fuel j : Nat) (c : Component),
      status.lifetimes.length = c.m_failure_types.length →
      j + fuel = c.m_failure_types.length →
      ∃ T : List FailureType,
        Component.ReadStatus.loop status fuel j c = .done { c with m_failure_types := T } ∧
        T.length = c.m_failure_types.length ∧
        (∀ i : Nat, i < j → T[i]? = c.m_failure_types[i]?) ∧
        (∀ i : Nat, j ≤ i → (T[i]?).map FailureType.GetLifeOrProb = status.lifetimes[i]?) := by
  intro fuel
  induction fuel with
  | zero =>
    intro j c hlen hj
    refine ⟨c.m_failure_types, rfl, rfl, fun _ _ => rfl, fun i hi => ?_⟩
    rw [List.getElem?_eq_none (by omega), List.getElem?_eq_none (by omega)]
    rfl
  | succ fuel ih =>
    intro j c hlen hj
    have hlt : j < c.m_failure_types.length := by omega
    have h1 : c.m_failure_types[j]? = some c.m_failure_types[j] :=
      List.getElem?_eq_getElem hlt
    have h2 : status.lifetimes[j]? = some status.lifetimes[j] :=
      List.getElem?_eq_getElem (by omega)
    obtain ⟨T, hT, hTlen, hTlt, hTge⟩ := ih (j + 1)
      { c with m_failure_types :=
          c.m_failure_types.set j ((c.m_failure_types[j]).SetLifeOrProb status.lifetimes[j]) }
      (by simpa using hlen) (by simp only [List.length_set]; omega)
    refine ⟨T, ?_, by simpa using hTlen, fun i hi => ?_, fun i hi => ?_⟩
    · rw [Component.ReadStatus.loop, if_pos hlt, h1, h2]
      exact hT
    · have := hTlt i (by omega)
      simp only [List.getElem?_set] at this
      rw [this, if_neg (by omega)]
    · by_cases hij : i = j
      · subst hij
        have := hTlt i (by omega)
        simp only [List.getElem?_set, if_pos rfl, if_pos hlt] at this
        rw [this, h2]
        rfl
      · exact hTge i (by omega)

/-- Claim C18. Restore then snapshot is the identity on snapshots: for every
`ComponentStatus` whose lifetimes list has exactly as many entries as the
component has failure modes, `ReadStatus(status)` returns normally and
afterwards `GetState()` returns the same lifetimes in the same order, the same
hazard_rate and the same downtime_remaining, and operational equals
`(status.downtime_remaining < 1e-8)` whatever the flag was before the call. -/
theorem GetState_ReadStatus (c : Component) (status : ComponentStatus) (indeterminate : Bool)
    (hlen : status.lifetimes.length = c.m_failure_types.length) :
    ∃ c' : Component, c.ReadStatus status = .done c' ∧
      (c'.GetState indeterminate).lifetimes = status.lifetimes ∧
      (c'.GetState indeterminate).hazard_rate = status.hazard_rate ∧
      (c'.GetState indeterminate).downtime_remaining = status.downtime_remaining ∧
      c'.m_status.operational = decide (status.downtime_remaining < 1 / 100000000) := by
  obtain ⟨T, hT, hTlen, -, hTge⟩ := ReadStatus_loop_stores status c.m_failure_types.length 0
    { c with m_status :=
        { c.m_status with
          hazard_rate := status.hazard_rate
          downtime_remaining := status.downtime_remaining
          operational := decide (status.downtime_remaining < 1 / 100000000) } }
    hlen (by simp)
  refine ⟨_, hT, ?_, ?_, ?_, rfl⟩
  · simp only [Component.GetState, Component.GetLifetimesAndProbs]
    apply List.ext_getElem?
    intro i
    rw [List.getElem?_map]
    exact hTge i (Nat.zero_le i)
  · simp [Component.GetState]
  · simp [Component.GetState]

/-- Witness of C18: a snapshot taken while down is restored on the two-mode pump,
which was operational. -/
theorem GetState_ReadStatus_witness :
    ([7, 8] : List ℚ).length = pumpTwoModes.comp.m_failure_types.length ∧
    ∃ c' : Component,
      pumpTwoModes.comp.ReadStatus
        { lifetimes := [7, 8], hazard_rate := 3, downtime_remaining := 4,
          operational := true } = .done c' ∧
      (c'.GetState false).lifetimes = [7, 8] ∧
      (c'.GetState false).hazard_rate = 3 ∧
      (c'.GetState false).downtime_remaining = 4 ∧
      c'.m_status.operational = decide ((4 : ℚ) < 1 / 100000000) :=
  ⟨rfl, GetState_ReadStatus pumpTwoModes.comp
    { lifetimes := [7, 8], hazard_rate := 3, downtime_remaining := 4, operational := true }
    false rfl⟩


/-! ### The composite key of the log -/

theorem digitChar_isDigit (k : Nat) (hk : k < 10) : (Nat.digitChar k).isDigit = true := by
  interval_cases k <;> rfl

theorem digitChar_value (k : Nat) (hk : k < 10) : (Nat.digitChar k).toNat - 48 = k := by
  interval_cases k <;> rfl

/-- Every character written by toDigitsCore in base 10 is a decimal digit. -/
theorem toDigitsCore_isDigit : ∀ (fuel n : Nat) (ds : List Char),
    (∀ c ∈ ds, c.isDigit = true) → ∀ c ∈ Nat.toDigitsCore 10 fuel n ds, c.isDigit = true := by
  intro fuel
  induction fuel with
  | zero => intro n ds hds; exact hds
  | succ fuel ih =>
    intro n ds hds
    have hcons : ∀ c ∈ Nat.digitChar (n % 10) :: ds, c.isDigit = true := by
      intro c hc
      rcases List.mem_cons.mp hc with h | h
      · rw [h]; exact digitChar_isDigit _ (Nat.mod_lt _ (by decide))
      · exact hds c h
    simp only [Nat.toDigitsCore]
    split
    · exact hcons
    · exact ih _ _ hcons

theorem toDigitsCore_ne_nil : ∀ (fuel n : Nat) (ds : List Char),
    ds ≠ [] → Nat.toDigitsCore 10 fuel n ds ≠ [] := by
  intro fuel
  induction fuel with
  | zero => intro n ds hds; exact hds
  | succ fuel ih =>
    intro n ds _
    simp only [Nat.toDigitsCore]
    split
    · exact List.cons_ne_nil _ _
    · exact ih _ _ (List.cons_ne_nil _ _)

/-- Reading the digits written by toDigitsCore gives the number back. -/
theorem toDigitsCore_value : ∀ (fuel n : Nat) (ds : List Char), n < fuel →
    (Nat.toDigitsCore 10 fuel n ds).foldl (fun a c => 10 * a + (c.toNat - 48)) 0 =
      ds.foldl (fun a c => 10 * a + (c.toNat - 48)) n := by
  intro fuel
  induction fuel with
  | zero => intro n ds h; exact absurd h (Nat.not_lt_zero n)
  | succ fuel ih =>
    intro n ds hn
    simp only [Nat.toDigitsCore]
    split
    · rename_i hz
      have hlt : n < 10 := by
        by_contra hc
        have : 1 ≤ n / 10 := Nat.div_pos (by omega) (by decide)
        omega
      simp only [List.foldl_cons, Nat.mul_zero, Nat.zero_add]
      rw [digitChar_value _ (Nat.mod_lt _ (by decide)), Nat.mod_eq_of_lt hlt]
    · rename_i hz
      have hfuel : n / 10 < fuel := by
        have : n / 10 < n := Nat.div_lt_self (by omega) (by decide)
        omega
      rw [ih _ _ hfuel]
      simp only [List.foldl_cons]
      rw [digitChar_value _ (Nat.mod_lt _ (by decide)), Nat.div_add_mod]

theorem toDigits_injective (m n : Nat) (h : Nat.toDigits 10 m = Nat.toDigits 10 n) : m = n := by
  have hm := toDigitsCore_value (m + 1) m [] (by omega)
  have hn := toDigitsCore_value (n + 1) n [] (by omega)
  unfold Nat.toDigits at h
  rw [h] at hm
  simp only [List.foldl_nil] at hm hn
  omega

/-- The characters of the decimal text of an integer: every one is a digit or a
minus sign, those after the first are digits, and there is at least one. -/
theorem to_string_shape (t : Int) :
    (to_string t).data ≠ [] ∧
    (∀ c ∈ (to_string t).data, c.isDigit = true ∨ c = '-') ∧
    (∀ (a : List Char) (c : Char) (r : List Char), a ≠ [] →
      (to_string t).data = a ++ c :: r → c.isDigit = true) := by
  cases t with
  | ofNat m =>
    have hdata : (to_string (Int.ofNat m)).data = Nat.toDigits 10 m := rfl
    have hdig : ∀ c ∈ Nat.toDigits 10 m, c.isDigit = true :=
      toDigitsCore_isDigit _ _ [] (fun _ h => absurd h (List.not_mem_nil _))
    rw [hdata]
    refine ⟨?_, fun c hc => Or.inl (hdig c hc), fun a c r _ h => hdig c ?_⟩
    · unfold Nat.toDigits
      simp only [Nat.toDigitsCore]
      split
      · exact List.cons_ne_nil _ _
      · exact toDigitsCore_ne_nil _ _ _ (List.cons_ne_nil _ _)
    · rw [h]; simp
  | negSucc m =>
    have hdata : (to_string (Int.negSucc m)).data = '-' :: Nat.toDigits 10 (m + 1) := rfl
    have hdig : ∀ c ∈ Nat.toDigits 10 (m + 1), c.isDigit = true :=
      toDigitsCore_isDigit _ _ [] (fun _ h => absurd h (List.not_mem_nil _))
    rw [hdata]
    refine ⟨List.cons_ne_nil _ _, fun c hc => ?_, fun a c r ha h => hdig c ?_⟩
    · rcases List.mem_cons.mp hc with h | h
      · exact Or.inr h
      · exact Or.inl (hdig c h)
    · cases a with
      | nil => exact absurd rfl ha
      | cons x a =>
        simp only [List.cons_append, List.cons.injEq] at h
        rw [h.2]; simp

theorem to_string_injective (t1 t2 : Int) (h : (to_string t1).data = (to_string t2).data) :
    t1 = t2 := by
  have hdig : ∀ m : Nat, ∀ c ∈ Nat.toDigits 10 m, c.isDigit = true := fun m =>
    toDigitsCore_isDigit _ _ [] (fun _ h => absurd h (List.not_mem_nil _))
  have hne : ∀ m : Nat, Nat.toDigits 10 m ≠ [] := fun m =>
    (to_string_shape (Int.ofNat m)).1
  have hmix : ∀ m k : Nat, Nat.toDigits 10 m ≠ '-' :: Nat.toDigits 10 (k + 1) := by
    intro m k heq
    have := hdig m '-' (by rw [heq]; simp)
    exact absurd this (by decide)
  cases t1 with
  | ofNat m =>
    cases t2 with
    | ofNat n =>
      have h' : Nat.toDigits 10 m = Nat.toDigits 10 n := h
      rw [toDigits_injective m n h']
    | negSucc n =>
      have h' : Nat.toDigits 10 m = '-' :: Nat.toDigits 10 (n + 1) := h
      exact absurd h' (hmix m n)
  | negSucc m =>
    cases t2 with
    | ofNat n =>
      have h' : '-' :: Nat.toDigits 10 (m + 1) = Nat.toDigits 10 n := h
      exact absurd h'.symm (hmix n m)
    | negSucc n =>
      have h' : '-' :: Nat.toDigits 10 (m + 1) = '-' :: Nat.toDigits 10 (n + 1) := h
      have := toDigits_injective _ _ (List.cons.inj h').2
      have hmn : m = n := by omega
      rw [hmn]

/-- Two numerals followed by a character that is not a digit, at the head of the
same text, are the same numeral. -/
theorem numeral_head_unique (a a' x x' : List Char) (c0 c0' : Char) (r0 r0' : List Char)
    (ha : a ≠ []) (ha' : a' ≠ [])
    (hdig : ∀ (p : List Char) (c : Char) (r : List Char), p ≠ [] →
      a = p ++ c :: r → c.isDigit = true)
    (hdig' : ∀ (p : List Char) (c : Char) (r : List Char), p ≠ [] →
      a' = p ++ c :: r → c.isDigit = true)
    (hx : x = c0 :: r0) (hx' : x' = c0' :: r0')
    (hc0 : c0.isDigit = false) (hc0' : c0'.isDigit = false)
    (h : a ++ x = a' ++ x') : a = a' ∧ x = x' := by
  rcases List.append_eq_append_iff.mp h with ⟨m, hm1, hm2⟩ | ⟨m, hm1, hm2⟩
  · cases m with
    | nil =>
      simp only [List.append_nil] at hm1
      simp only [List.nil_append] at hm2
      exact ⟨hm1.symm, hm2⟩
    | cons c r =>
      exfalso
      have hc := hdig' a c r ha hm1
      rw [hx] at hm2
      simp only [List.cons_append, List.cons.injEq] at hm2
      rw [← hm2.1, hc0] at hc
      exact absurd hc (by decide)
  · cases m with
    | nil =>
      simp only [List.append_nil] at hm1
      simp only [List.nil_append] at hm2
      exact ⟨hm1, hm2.symm⟩
    | cons c r =>
      exfalso
      have hc := hdig a' c r ha' hm1
      rw [hx'] at hm2
      simp only [List.cons_append, List.cons.injEq] at hm2
      rw [← hm2.1, hc0'] at hc
      exact absurd hc (by decide)

/-- The decimal text of an integer that is not negative is made of digits. -/
theorem to_string_digits (i : Int) (h : 0 ≤ i) :
    ∀ c ∈ (to_string i).data, c.isDigit = true := by
  cases i with
  | ofNat m =>
    have hdata : (to_string (Int.ofNat m)).data = Nat.toDigits 10 m := rfl
    rw [hdata]
    exact toDigitsCore_isDigit _ _ [] (fun _ h => absurd h (List.not_mem_nil _))
  | negSucc m => exact absurd h (by simp [Int.negSucc_lt_zero])

/-- Two texts made of digits preceded by a character that is not a digit, at the
end of the same text, are the same. -/
theorem numeral_tail_unique (n n' b b' : List Char) (z z' : Char) (w w' : List Char)
    (hb : ∀ c ∈ b, c.isDigit = true) (hb' : ∀ c ∈ b', c.isDigit = true)
    (hn : n.reverse = z :: w) (hn' : n'.reverse = z' :: w')
    (hz : z.isDigit = false) (hz' : z'.isDigit = false)
    (h : n ++ b = n' ++ b') : n = n' ∧ b = b' := by
  have hlast : ∀ (p m : List Char) (y : Char) (v : List Char), m ≠ [] →
      (p ++ m).reverse = y :: v → y ∈ m := by
    intro p m y v hm hrev
    rw [List.reverse_append] at hrev
    cases hmr : m.reverse with
    | nil => exact absurd (List.reverse_eq_nil_iff.mp hmr) hm
    | cons y' v' =>
      rw [hmr] at hrev
      simp only [List.cons_append, List.cons.injEq] at hrev
      have : y' ∈ m.reverse := by rw [hmr]; exact List.mem_cons_self _ _
      rw [← hrev.1]
      exact List.mem_reverse.mp this
  have hbad : ∀ y : Char, y.isDigit = false → ¬ y.isDigit = true := by
    intro y h1 h3
    rw [h1] at h3
    exact absurd h3 (by decide)
  rcases List.append_eq_append_iff.mp h with ⟨m, hm1, hm2⟩ | ⟨m, hm1, hm2⟩
  · by_cases hm : m = []
    · subst hm
      simp only [List.append_nil] at hm1
      simp only [List.nil_append] at hm2
      exact ⟨hm1.symm, hm2⟩
    · exfalso
      rw [hm1] at hn'
      have hmem := hlast n m z' w' hm hn'
      exact hbad z' hz' (hb z' (by rw [hm2]; exact List.mem_append_left _ hmem))
  · by_cases hm : m = []
    · subst hm
      simp only [List.append_nil] at hm1
      simp only [List.nil_append] at hm2
      exact ⟨hm1, hm2.symm⟩
    · exfalso
      rw [hm1] at hn
      have hmem := hlast n' m z w hm hn
      exact hbad z hz (hb' z (by rw [hm2]; exact List.mem_append_left _ hmem))

theorem keySafeName_shape (name : String) (h : keySafeName name = true) :
    (∃ (c : Char) (r : List Char), name.data = c :: r ∧ c.isDigit = false) ∧
    (∃ (z : Char) (w : List Char), name.data.reverse = z :: w ∧ z.isDigit = false) := by
  simp only [keySafeName, Bool.and_eq_true] at h
  obtain ⟨h1, h2⟩ := h
  constructor
  · unfold startsWithNonDigit at h1
    split at h1
    · exact absurd h1 (by decide)
    · rename_i c r hcr
      exact ⟨c, r, hcr, by simpa using h1⟩
  · unfold endsWithNonDigit at h2
    split at h2
    · exact absurd h2 (by decide)
    · rename_i z w hzw
      exact ⟨z, w, hzw, by simpa using h2⟩

/-- The key of an event identifies its triple when the component names are safe
and the mode indices are not negative. -/
theorem eventLabel_inj (t1 t2 i1 i2 : Int) (n1 n2 : String)
    (h1 : keySafeName n1 = true) (h2 : keySafeName n2 = true)
    (hi1 : 0 ≤ i1) (hi2 : 0 ≤ i2)
    (hkey : eventLabel t1 n1 i1 = eventLabel t2 n2 i2) : t1 = t2 ∧ n1 = n2 ∧ i1 = i2 := by
  obtain ⟨⟨c1, r1, hn1, hc1⟩, ⟨z1, w1, hr1, hz1⟩⟩ := keySafeName_shape n1 h1
  obtain ⟨⟨c2, r2, hn2, hc2⟩, ⟨z2, w2, hr2, hz2⟩⟩ := keySafeName_shape n2 h2
  have hdata : (to_string t1).data ++ (n1.data ++ (to_string i1).data) =
      (to_string t2).data ++ (n2.data ++ (to_string i2).data) := by
    have := congrArg String.data hkey
    simpa only [eventLabel, String.data_append, List.append_assoc] using this
  obtain ⟨ht, hrest⟩ := numeral_head_unique _ _ _ _ c1 c2
    (r1 ++ (to_string i1).data) (r2 ++ (to_string i2).data)
    (to_string_shape t1).1 (to_string_shape t2).1
    (fun p c r hp h => (to_string_shape t1).2.2 p c r hp h)
    (fun p c r hp h => (to_string_shape t2).2.2 p c r hp h)
    (by rw [hn1]; rfl) (by rw [hn2]; rfl) hc1 hc2 hdata
  obtain ⟨hn, hi⟩ := numeral_tail_unique _ _ _ _ z1 z2 w1 w2
    (to_string_digits i1 hi1) (to_string_digits i2 hi2) hr1 hr2 hz1 hz2 hrest
  exact ⟨to_string_injective t1 t2 ht, String.ext hn, to_string_injective i1 i2 hi⟩

/-- Claim C19, as amended. The composite log key identifies its triple when the
component names neither start nor end with a decimal digit: for all timesteps
t1, t2, all mode indices i1, i2 that are not negative and all component names
n1, n2 that are not empty, do not start with a decimal digit and do not end
with a decimal digit, the key `GenerateFailure` builds from (t1, n1, i1)
equals the key built from (t2, n2, i2) only if t1 = t2, n1 = n2 and i1 = i2;
hence, for such names, an event already in the log is not overwritten by an
event of a different (timestep, component, mode) triple. For a negative mode
index `GenerateFailure` builds no key: it throws and leaves the log as it
was. -/
theorem eventLabel_identifies_triple (t1 t2 i1 i2 : Int) (n1 n2 : String)
    (h1 : keySafeName n1 = true) (h2 : keySafeName n2 = true)
    (hi1 : 0 ≤ i1) (hi2 : 0 ≤ i2) :
    (eventLabel t1 n1 i1 = eventLabel t2 n2 i2 → t1 = t2 ∧ n1 = n2 ∧ i1 = i2) ∧
    (∀ (events : FailureEvents) (ev : failure_event),
      ¬ (t1 = t2 ∧ n1 = n2 ∧ i1 = i2) →
      (events.assign (eventLabel t2 n2 i2) ev) (eventLabel t1 n1 i1) =
        events (eventLabel t1 n1 i1)) ∧
    (∀ (t i : Int) (s : Sim), i < 0 →
      (GenerateFailure t i s).raised = true ∧
      (GenerateFailure t i s).state.failure_events = s.failure_events) := by
  refine ⟨eventLabel_inj t1 t2 i1 i2 n1 n2 h1 h2 hi1 hi2, fun events ev hne => ?_,
    fun t i s hi => ?_⟩
  · unfold FailureEvents.assign
    rw [if_neg]
    exact fun hkey => hne (eventLabel_inj t1 t2 i1 i2 n1 n2 h1 h2 hi1 hi2 hkey)
  · have hnone : vectorAt s.comp.m_failure_types i = none := by
      unfold vectorAt
      rw [if_pos hi]
    simp [GenerateFailure, GenerateTimeToRepair, hnone, Exec.raised, Exec.state]

/-- Witness of C19, as amended: the names "pump" and "valve-". -/
theorem eventLabel_identifies_triple_witness :
    keySafeName "pump" = true ∧ keySafeName "valve-" = true ∧
    eventLabel 5 "pump" 11 ≠ eventLabel 5 "valve-" 1 ∧
    (noEvents.assign (eventLabel 5 "valve-" 1)
        { time := 5, component := "valve-", fail_idx := 1, duration := 2, new_life := 3 })
      (eventLabel 5 "pump" 11) = noEvents (eventLabel 5 "pump" 11) := by
  have h := eventLabel_identifies_triple 5 5 11 1 "pump" "valve-" (by decide) (by decide)
    (by decide) (by decide)
  refine ⟨by decide, by decide, fun hkey => ?_, h.2.1 _ _ (fun hc => ?_)⟩
  · exact absurd (h.1 hkey).2.1 (by decide)
  · exact absurd hc.2.1 (by decide)

/-- Counterexample to claim C19 as stated. The components "P1" and "P11" (neither
is "MAINTENANCE") at the same timestep 5, with the valid mode indices 11 and
1: the key of (5, "P1", 11) and the key of (5, "P11", 1) are both "5P111", so
the event of the second triple overwrites the event of the first in the log.
In the same way a name that starts with a digit runs into the timestep: the
key of (5, "1P", 1) and the key of (51, "P", 1) are both "51P1". -/
theorem eventLabel_collision_counterexample :
    "P1" ≠ "MAINTENANCE" ∧ "P11" ≠ "MAINTENANCE" ∧
    eventLabel 5 "P1" 11 = eventLabel 5 "P11" 1 ∧
    ¬ ((5 : Int) = 5 ∧ "P1" = "P11" ∧ (11 : Int) = 1) ∧
    ((noEvents.assign (eventLabel 5 "P1" 11)
          { time := 5, component := "P1", fail_idx := 11, duration := 2, new_life := 3 }).assign
        (eventLabel 5 "P11" 1)
        { time := 5, component := "P11", fail_idx := 1, duration := 4, new_life := 6 })
      (eventLabel 5 "P1" 11) =
        some { time := 5, component := "P11", fail_idx := 1, duration := 4, new_life := 6 } ∧
    "1P" ≠ "MAINTENANCE" ∧ "P" ≠ "MAINTENANCE" ∧
    eventLabel 5 "1P" 1 = eventLabel 51 "P" 1 := by
  have hkey : eventLabel 5 "P1" 11 = eventLabel 5 "P11" 1 := by decide
  refine ⟨by decide, by decide, hkey, by decide, ?_, by decide, by decide, by decide⟩
  simp only [FailureEvents.assign, hkey, if_true]

/-! ### Binary64 arithmetic -/

namespace Dbl

theorem pow2_pos (e : Int) : 0 < pow2 e := by
  unfold pow2
  split
  · positivity
  · positivity

/-- A rounded magnitude is not negative. -/
theorem roundMagnitude_nonneg (n d : Nat) (y : ℚ) (h : roundMagnitude n d = some y) :
    0 ≤ y := by
  unfold roundMagnitude at h
  simp only at h
  split_ifs at h <;> cases h <;>
    exact mul_nonneg (Nat.cast_nonneg _) (le_of_lt (pow2_pos _))

/-- Rounding keeps the sign: a value that is not negative rounds to a finite value
that is not negative, or to +INFINITY. -/
theorem round_nonneg (x : ℚ) (hx : 0 ≤ x) :
    (∃ y : ℚ, round x = fin y ∧ 0 ≤ y) ∨ round x = inf false := by
  unfold round
  split
  · exact Or.inl ⟨0, rfl, le_rfl⟩
  · have hlt : ¬ x < 0 := not_lt.mpr hx
    split
    · right
      simp [hlt]
    · rename_i y hy
      left
      exact ⟨y, by simp [hlt], roundMagnitude_nonneg _ _ y hy⟩

/-- Rounding keeps the sign: a value that is not positive rounds to a finite value
that is not positive, or to -INFINITY. -/
theorem round_nonpos (x : ℚ) (hx : x ≤ 0) :
    (∃ y : ℚ, round x = fin y ∧ y ≤ 0) ∨ round x = inf true := by
  unfold round
  split
  · exact Or.inl ⟨0, rfl, le_rfl⟩
  · rename_i hne
    have hlt : x < 0 := lt_of_le_of_ne hx hne
    split
    · right
      simp [hlt]
    · rename_i y hy
      left
      refine ⟨-y, by simp [hlt], ?_⟩
      have := roundMagnitude_nonneg _ _ y hy
      linarith

theorem lt_iff (a b : Dbl) : a < b ↔ lt a b = true := Iff.rfl

theorem le_iff (a b : Dbl) : a ≤ b ↔ le a b = true := Iff.rfl

theorem sub_def (a b : Dbl) : a - b = sub a b := rfl

theorem mul_def (a b : Dbl) : a * b = mul a b := rfl

theorem zero_def : (0 : Dbl) = fin 0 := rfl

/-- A double is not negative exactly when it is NaN or at least 0. -/
theorem not_lt_zero_iff (x : Dbl) : ¬ x < 0 ↔ (0 ≤ x ∨ x = nan) := by
  cases x with
  | nan => simp [lt_iff, le_iff, zero_def, lt, le]
  | inf s => cases s <;> simp [lt_iff, le_iff, zero_def, lt, le]
  | fin a => simp [lt_iff, le_iff, zero_def, lt, le]

theorem not_lt_of_le (x : Dbl) (h : 0 ≤ x) : ¬ x < 0 :=
  (not_lt_zero_iff x).mpr (Or.inl h)

/-- What `x <= 0.0` being false leaves: NaN or a positive value, never a negative
one. -/
theorem not_lt_zero_of_not_le (x : Dbl) (h : ¬ x ≤ 0) : ¬ x < 0 := by
  cases x with
  | nan => simp [lt_iff, zero_def, lt]
  | inf s => cases s <;> simp_all [lt_iff, le_iff, zero_def, lt, le]
  | fin a =>
    simp only [lt_iff, le_iff, zero_def, lt, le, decide_eq_true_eq, not_le, not_lt] at h ⊢
    exact le_of_lt h

theorem nonneg_of_not_le (x : Dbl) (hx : x ≠ nan) (h : ¬ x ≤ 0) : 0 ≤ x := by
  rcases (not_lt_zero_iff x).mp (not_lt_zero_of_not_le x h) with h1 | h1
  · exact h1
  · exact absurd h1 hx

/-- Subtracting a non-negative time from 0.0 leaves a value `<= 0.0`. -/
theorem zero_sub_le (t : Dbl) (ht : 0 ≤ t) : (0 : Dbl) - t ≤ 0 := by
  cases t with
  | nan => simp [le_iff, zero_def, le] at ht
  | inf s =>
    cases s with
    | true => simp [le_iff, zero_def, le] at ht
    | false => simp [le_iff, zero_def, sub_def, sub, le]
  | fin b =>
    have hb : 0 ≤ b := by simpa [le_iff, zero_def, le] using ht
    simp only [le_iff, zero_def, sub_def, sub]
    rcases round_nonpos (0 - b) (by rw [zero_sub]; exact neg_nonpos.mpr hb) with ⟨y, hy, hy0⟩ | hinf
    · rw [hy]; simpa [le] using hy0
    · rw [hinf]; simp [le]

/-- After the test `delta > life` has failed, `life - delta` is not negative: it
is at least 0, or NaN. -/
theorem sub_not_neg (life delta : Dbl) (h : ¬ life < delta) : ¬ life - delta < 0 := by
  cases life with
  | nan => simp [lt_iff, zero_def, sub_def, sub, lt]
  | inf s =>
    cases delta with
    | nan => simp [lt_iff, zero_def, sub_def, sub, lt]
    | inf s' => cases s <;> cases s' <;> simp_all [lt_iff, zero_def, sub_def, sub, lt]
    | fin b => cases s <;> simp_all [lt_iff, zero_def, sub_def, sub, lt]
  | fin a =>
    cases delta with
    | nan => simp [lt_iff, zero_def, sub_def, sub, lt]
    | inf s' => cases s' <;> simp_all [lt_iff, zero_def, sub_def, sub, lt]
    | fin b =>
      have hab : b ≤ a := by
        simp only [lt_iff, lt, decide_eq_true_eq, not_lt] at h
        exact h
      simp only [lt_iff, zero_def, sub_def, sub]
      rcases round_nonneg (a - b) (sub_nonneg.mpr hab) with ⟨y, hy, hy0⟩ | hinf
      · rw [hy]; simpa [lt] using hy0
      · rw [hinf]; simp [lt]

/-- A product by 0.0 is 0.0 when the other factor is finite, NaN otherwise. -/
theorem mul_zero_eq (x : Dbl) :
    x * 0 = if x.isFinite = true then 0 else nan := by
  cases x with
  | nan => rfl
  | inf s => simp [mul_def, zero_def, mul, isFinite]
  | fin a => simp [mul_def, zero_def, mul, isFinite, round]

/-- Subtracting 0.0 from a double leaves it as it is. -/
theorem sub_zero_eq (x : Dbl) (hx : x.isDouble = true) : x - 0 = x := by
  cases x with
  | nan => rfl
  | inf s => rfl
  | fin a =>
    simp only [sub_def, zero_def, sub, sub_zero]
    exact of_decide_eq_true hx

/-- No value is below NaN. -/
theorem not_lt_nan (a : Dbl) : ¬ a < nan := by
  cases a <;> simp [lt_iff, lt]

/-- Subtracting NaN gives NaN. -/
theorem sub_nan (a : Dbl) : a - nan = nan := by
  cases a <;> rfl

theorem zero_le_zero : (0 : Dbl) ≤ 0 := by
  simp [le_iff, zero_def, le]

/-- A positive value is not `<= 0.0`. -/
theorem not_le_of_pos (d : Dbl) (h : 0 < d) : ¬ d ≤ 0 := by
  cases d with
  | nan => simp [le_iff, le]
  | inf s => cases s <;> simp_all [lt_iff, le_iff, zero_def, lt, le]
  | fin a =>
    simp only [lt_iff, le_iff, zero_def, lt, le, decide_eq_true_eq, not_le] at h ⊢
    exact h

/-- The difference of a non-negative value and a time is NaN only when the time
is NaN, or both are +INFINITY. -/
theorem sub_eq_nan_iff (a t : Dbl) (ha : 0 ≤ a) :
    a - t = nan ↔ (t = nan ∨ (t = inf false ∧ a = inf false)) := by
  cases a with
  | nan => simp [le_iff, zero_def, le] at ha
  | inf s =>
    cases s with
    | true => simp [le_iff, zero_def, le] at ha
    | false =>
      cases t with
      | nan => simp [sub_def, sub]
      | inf s2 => cases s2 <;> simp [sub_def, sub]
      | fin b => simp [sub_def, sub]
  | fin a =>
    cases t with
    | nan => simp [sub_def, sub]
    | inf s2 => simp [sub_def, sub]
    | fin b =>
      simp only [sub_def, sub]
      unfold round
      split
      · simp
      · split <;> simp

end Dbl

/-! ### The state machine on binary64 values: loops and invariants -/

namespace F64

/-- Invariant rule for the loop over the failure modes: P j holds before
iteration j, the body keeps the size of the vector, and Q describes the
state left by an exception. -/
theorem forLoop_rule_f64 (body : Nat → Sim → Exec Sim) (n : Nat)
    (P : Nat → Sim → Prop) (Q : Sim → Prop)
    (hbody : ∀ j s, j < n → s.comp.m_failure_types.length = n → P j s →
      match body j s with
      | .done s' => s'.comp.m_failure_types.length = n ∧ P (j + 1) s'
      | .threw _ s' => Q s') :
    ∀ fuel j s, j + fuel ≤ n → s.comp.m_failure_types.length = n → P j s →
      match forLoop body fuel j s with
      | .done s' => s'.comp.m_failure_types.length = n ∧ P (j + fuel) s'
      | .threw _ s' => Q s' := by
  intro fuel
  induction fuel with
  | zero =>
    intro j s _ hn hP
    simp only [forLoop]
    exact ⟨hn, hP⟩
  | succ fuel ih =>
    intro j s hj hn hP
    rw [forLoop, if_pos (by omega)]
    have hb := hbody j s (by omega) hn hP
    cases hbj : body j s with
    | done s' =>
      rw [hbj] at hb
      rw [Exec.bind_done]
      have := ih (j + 1) s' (by omega) hb.1 hb.2
      rwa [show j + 1 + fuel = j + (fuel + 1) by omega] at this
    | threw w s' =>
      rw [hbj] at hb
      rw [Exec.bind_threw]
      exact hb

/-- A property kept by the body, whether it returns or throws, is kept by the
loop. -/
theorem forLoop_preserves_f64 (body : Nat → Sim → Exec Sim) (I : Sim → Prop)
    (hbody : ∀ j s, I s → I (body j s).state) :
    ∀ fuel j s, I s → I (forLoop body fuel j s).state := by
  intro fuel
  induction fuel with
  | zero => intro j s hI; exact hI
  | succ fuel ih =>
    intro j s hI
    rw [forLoop]
    split
    · have hb := hbody j s hI
      cases hbj : body j s with
      | done s' =>
        rw [hbj] at hb
        rw [Exec.bind_done]
        exact ih (j + 1) s' hb
      | threw w s' =>
        rw [hbj] at hb
        exact hb
    · exact hI

/-- The depletion loop of Operate: on normal return every matching mode
has lost delta and nothing else changed; it throws exactly when a matching mode
has less life than delta and the call is not read-only. -/
theorem Operate_loop_f64 (time ramp_mult : Dbl) (read_only : Bool) (opmode : String) (s : Sim) :
    match forLoop (Operate.body time ramp_mult read_only opmode)
        s.comp.m_failure_types.length 0 s with
    | .done s' =>
      s' = s.withModes s'.comp.m_failure_types ∧
      s'.comp.m_failure_types.length = s.comp.m_failure_types.length ∧
      (∀ (j : Nat) (ft : FailureType), s.comp.m_failure_types[j]? = some ft →
        s'.comp.m_failure_types[j]? = some (if ft.GetFailureMode = opmode then
          ft.ReduceLifeRemaining (time * s.comp.m_status.hazard_rate * ramp_mult) else ft)) ∧
      (∀ (j : Nat) (ft : FailureType), s.comp.m_failure_types[j]? = some ft →
        ft.GetFailureMode = opmode →
        ¬ (time * s.comp.m_status.hazard_rate * ramp_mult > ft.GetLifeRemaining ∧
            read_only = false))
    | .threw _ s' =>
      s' = s.withModes s'.comp.m_failure_types ∧
      s'.comp.m_failure_types.length = s.comp.m_failure_types.length ∧
      ∃ (j : Nat) (ft : FailureType), s.comp.m_failure_types[j]? = some ft ∧
        ft.GetFailureMode = opmode ∧
        time * s.comp.m_status.hazard_rate * ramp_mult > ft.GetLifeRemaining ∧
        read_only = false := by
  have key := forLoop_rule_f64 (Operate.body time ramp_mult read_only opmode)
    s.comp.m_failure_types.length
    (fun k s' => ∃ T, s' = s.withModes T ∧
      (∀ (j : Nat) (ft : FailureType), j < k → s.comp.m_failure_types[j]? = some ft →
        T[j]? = some (if ft.GetFailureMode = opmode then
          ft.ReduceLifeRemaining (time * s.comp.m_status.hazard_rate * ramp_mult) else ft)) ∧
      (∀ (j : Nat), k ≤ j → T[j]? = s.comp.m_failure_types[j]?) ∧
      (∀ (j : Nat) (ft : FailureType), j < k → s.comp.m_failure_types[j]? = some ft →
        ft.GetFailureMode = opmode →
        ¬ (time * s.comp.m_status.hazard_rate * ramp_mult > ft.GetLifeRemaining ∧
            read_only = false)))
    (fun s' =>
      s' = s.withModes s'.comp.m_failure_types ∧
      s'.comp.m_failure_types.length = s.comp.m_failure_types.length ∧
      ∃ (j : Nat) (ft : FailureType), s.comp.m_failure_types[j]? = some ft ∧
        ft.GetFailureMode = opmode ∧
        time * s.comp.m_status.hazard_rate * ramp_mult > ft.GetLifeRemaining ∧
        read_only = false)
    ?_ s.comp.m_failure_types.length 0 s (by omega) rfl
    ⟨s.comp.m_failure_types, rfl, fun j ft hj => absurd hj (Nat.not_lt_zero j), fun j _ => rfl,
      fun j ft hj => absurd hj (Nat.not_lt_zero j)⟩
  · revert key
    cases forLoop (Operate.body time ramp_mult read_only opmode)
        s.comp.m_failure_types.length 0 s with
    | done s' =>
      rw [Nat.zero_add]
      rintro ⟨hlen, T, hrest, hlt, -, hno⟩
      have hT : s'.comp.m_failure_types = T := by rw [hrest]; rfl
      refine ⟨by rw [hT]; exact hrest, hlen, fun j ft hj => ?_, fun j ft hj => hno j ft ?_ hj⟩
      · rw [hT]
        exact hlt j ft (List.getElem?_eq_some.mp hj).1 hj
      · exact (List.getElem?_eq_some.mp hj).1
    | threw w s' => exact id
  · rintro j s' hj hlen ⟨T, rfl, hlt, hge, hno⟩
    have hlenT : T.length = s.comp.m_failure_types.length := hlen
    have hsj : T[j]? = s.comp.m_failure_types[j]? := hge j le_rfl
    have hs : s.comp.m_failure_types[j]? = some s.comp.m_failure_types[j] :=
      List.getElem?_eq_getElem hj
    simp only [Operate.body, Sim.withModes, hsj, hs]
    by_cases hm : (s.comp.m_failure_types[j]).GetFailureMode = opmode
    · rw [if_pos hm]
      by_cases htr : time * s.comp.m_status.hazard_rate * ramp_mult >
          (s.comp.m_failure_types[j]).GetLifeRemaining ∧ ¬ read_only = true
      · rw [if_pos htr]
        refine ⟨rfl, hlen, j, _, hs, hm, htr.1, ?_⟩
        simpa using htr.2
      · rw [if_neg htr]
        refine ⟨by simpa using hlenT, T.set j _, rfl, ?_, ?_, ?_⟩
        · intro i ft hi hft
          simp only [List.getElem?_set]
          by_cases hij : j = i
          · subst hij
            rw [hs] at hft
            cases hft
            simp [hlenT, hj, hm]
          · rw [if_neg hij]
            exact hlt i ft (by omega) hft
        · intro i hi
          simp only [List.getElem?_set]
          rw [if_neg (by omega)]
          exact hge i (by omega)
        · intro i ft hi hft hmi
          by_cases hij : i = j
          · subst hij
            rw [hs] at hft
            cases hft
            simpa using htr
          · exact hno i ft (by omega) hft hmi
    · rw [if_neg hm]
      refine ⟨hlen, T, rfl, ?_, ?_, ?_⟩
      · intro i ft hi hft
        by_cases hij : i = j
        · subst hij
          rw [hs] at hft
          cases hft
          rw [if_neg hm, hsj, hs]
        · exact hlt i ft (by omega) hft
      · intro i hi
        exact hge i (by omega)
      · intro i ft hi hft hmi
        by_cases hij : i = j
        · subst hij
          rw [hs] at hft
          cases hft
          exact absurd hmi hm
        · exact hno i ft (by omega) hft hmi

/-- When no matching mode exceeds its life, the wear-out loop of TestForFailure
returns the state it was given. -/
theorem TestForFailure_loop_quiet_f64 (time ramp_mult p : Dbl) (t : Int) (opmode : String) (s : Sim)
    (hno : ∀ (j : Nat) (ft : FailureType), s.comp.m_failure_types[j]? = some ft →
      ft.GetFailureMode = opmode →
      ¬ time * (s.comp.m_status.hazard_rate + p) * ramp_mult > ft.GetLifeRemaining) :
    forLoop (TestForFailure.body time ramp_mult p t opmode)
      s.comp.m_failure_types.length 0 s = .done s := by
  have key := forLoop_rule_f64 (TestForFailure.body time ramp_mult p t opmode)
    s.comp.m_failure_types.length (fun _ sk => sk = s) (fun _ => False)
    ?_ s.comp.m_failure_types.length 0 s (by omega) rfl rfl
  · revert key
    cases forLoop (TestForFailure.body time ramp_mult p t opmode)
        s.comp.m_failure_types.length 0 s with
    | done s' =>
      rintro ⟨-, h⟩
      rw [h]
    | threw w s' => exact fun h => h.elim
  · rintro j sj hj - rfl
    have hs : sj.comp.m_failure_types[j]? = some sj.comp.m_failure_types[j] :=
      List.getElem?_eq_getElem hj
    simp only [TestForFailure.body, hs]
    by_cases hm : (sj.comp.m_failure_types[j]).GetFailureMode = opmode
    · rw [if_pos hm, if_neg (hno j _ hs hm)]
      exact ⟨rfl, rfl⟩
    · rw [if_neg hm]
      exact ⟨rfl, rfl⟩

/-- After GenerateFailure, returned or thrown, the component is not operational and
its downtime is a sample of the repair distribution. -/
theorem GenerateFailure_statusInv_f64 (D : Distribution) (R : Bool → Dbl → Prop)
    (hgen : ∀ g, R false (D.GetVariate g).1) (t fail_idx : Int) (s : Sim)
    (hD : s.comp.m_repair_dist = D) :
    StatusInv D R (GenerateFailure t fail_idx s).state := by
  have hR : R false (s.comp.m_repair_dist.GetVariate s.gen).1 := by
    rw [hD]; exact hgen s.gen
  unfold GenerateFailure
  simp only
  split
  · exact ⟨hD, hR⟩
  · split
    · exact ⟨hD, hR⟩
    · exact ⟨hD, hR⟩

theorem TestForBinaryFailure_body_statusInv_f64 (D : Distribution) (R : Bool → Dbl → Prop)
    (hgen : ∀ g, R false (D.GetVariate g).1) (mode : String) (t : Int) (j : Nat) (s : Sim)
    (h : StatusInv D R s) : StatusInv D R (TestForBinaryFailure.body mode t j s).state := by
  unfold TestForBinaryFailure.body
  split
  · exact h
  · simp only
    split
    · split
      · exact GenerateFailure_statusInv_f64 D R hgen t j _ h.1
      · exact h
    · exact h

theorem TestForFailure_body_statusInv_f64 (D : Distribution) (R : Bool → Dbl → Prop)
    (hgen : ∀ g, R false (D.GetVariate g).1) (time ramp_mult p : Dbl) (t : Int)
    (opmode : String) (j : Nat) (s : Sim)
    (h : StatusInv D R s) :
    StatusInv D R (TestForFailure.body time ramp_mult p t opmode j s).state := by
  unfold TestForFailure.body
  split
  · exact h
  · split
    · split
      · exact GenerateFailure_statusInv_f64 D R hgen t j _ h.1
      · exact h
    · exact h

theorem Operate_body_statusInv_f64 (D : Distribution) (R : Bool → Dbl → Prop)
    (time ramp_mult : Dbl) (read_only : Bool) (opmode : String) (j : Nat) (s : Sim)
    (h : StatusInv D R s) :
    StatusInv D R (Operate.body time ramp_mult read_only opmode j s).state := by
  unfold Operate.body
  split
  · exact h
  · split
    · split
      · exact h
      · exact h
    · exact h

theorem TestForBinaryFailure_statusInv_f64 (D : Distribution) (R : Bool → Dbl → Prop)
    (hgen : ∀ g, R false (D.GetVariate g).1) (mode : String) (t : Int) (s : Sim)
    (h : StatusInv D R s) : StatusInv D R (TestForBinaryFailure mode t s).state :=
  forLoop_preserves_f64 _ (StatusInv D R)
    (fun j s hs => TestForBinaryFailure_body_statusInv_f64 D R hgen mode t j s hs) _ _ s h

theorem TestForFailure_statusInv_f64 (D : Distribution) (R : Bool → Dbl → Prop)
    (hgen : ∀ g, R false (D.GetVariate g).1) (time ramp_mult : Dbl) (t : Int)
    (start mode : String) (s : Sim) (h : StatusInv D R s) :
    StatusInv D R (TestForFailure time ramp_mult t start mode s).state := by
  have hwear : ∀ (opmode : String) (s1 : Sim), StatusInv D R s1 →
      StatusInv D R (forLoop (TestForFailure.body time ramp_mult (startPenalty s.comp start)
        t opmode) s1.comp.m_failure_types.length 0 s1).state :=
    fun opmode s1 h1 => forLoop_preserves_f64 _ (StatusInv D R)
      (fun j s hs => TestForFailure_body_statusInv_f64 D R hgen time ramp_mult _ t opmode j s hs)
      _ _ s1 h1
  unfold TestForFailure
  simp only
  split
  · exact Exec.state_bind _ _ _ (TestForBinaryFailure_statusInv_f64 D R hgen mode t s h)
      (hwear "OF")
  · split
    · exact Exec.state_bind _ _ _ (TestForBinaryFailure_statusInv_f64 D R hgen mode t s h)
        (hwear "SF")
    · exact hwear mode s h

/-- The start penalty only changes the stored hazard rate. -/
theorem addStartPenalty_eq_f64 (c : Component) (start : String) :
    addStartPenalty c start =
      { c with m_status := { c.m_status with
          hazard_rate := (addStartPenalty c start).m_status.hazard_rate } } := by
  unfold addStartPenalty
  by_cases h1 : start = "HotStart"
  · subst h1; simp
  · by_cases h2 : start = "WarmStart"
    · subst h2; simp
    · by_cases h3 : start = "ColdStart"
      · subst h3; simp
      · simp [h1, h2, h3]

theorem Operate_statusInv_f64 (D : Distribution) (R : Bool → Dbl → Prop)
    (hgen : ∀ g, R false (D.GetVariate g).1) (time ramp_mult : Dbl) (read_only : Bool)
    (t : Int) (start mode : String) (s : Sim) (h : StatusInv D R s) :
    StatusInv D R (Operate time ramp_mult read_only t start mode s).state := by
  have hdep : ∀ (opmode : String) (s1 : Sim), StatusInv D R s1 →
      StatusInv D R (forLoop (Operate.body time ramp_mult read_only opmode)
        s1.comp.m_failure_types.length 0 s1).state :=
    fun opmode s1 h1 => forLoop_preserves_f64 _ (StatusInv D R)
      (fun j s hs => Operate_body_statusInv_f64 D R time ramp_mult read_only opmode j s hs)
      _ _ s1 h1
  have h1 : StatusInv D R { s with comp := addStartPenalty s.comp start } := by
    rw [addStartPenalty_eq_f64]
    exact h
  unfold Operate
  simp only
  split
  · exact h
  · split
    · exact Exec.state_bind _ _ _ (TestForBinaryFailure_statusInv_f64 D R hgen mode t _ h1)
        (hdep "OF")
    · split
      · exact Exec.state_bind _ _ _ (TestForBinaryFailure_statusInv_f64 D R hgen mode t _ h1)
          (hdep "SF")
      · exact hdep mode _ h1

/-- The status and the repair distribution of a fresh component. -/
theorem freshSim_status_f64 (ExponentialDist : Dbl → Dbl → String → Distribution)
    (mkDist : String → Dbl → Dbl → Distribution)
    (name type : String) (repair_rate repair_cooldown_time : Dbl)
    (hot_start_penalty warm_start_penalty cold_start_penalty : Dbl)
    (availability_reduction repair_cost : Dbl)
    (modes : List ModeConfig) (events : FailureEvents) (gen : WELLFiveTwelve) (s0 : Sim)
    (h : freshSim ExponentialDist mkDist name type repair_rate repair_cooldown_time
      hot_start_penalty warm_start_penalty cold_start_penalty availability_reduction
      repair_cost modes events gen = .ok s0) :
    s0.comp.m_repair_dist = ExponentialDist repair_rate repair_cooldown_time "exponential" ∧
    s0.comp.m_status.operational = true ∧
    s0.comp.m_status.downtime_remaining = 0 ∧
    s0.comp.m_status.hazard_rate = 1 := by
  have hfold : ∀ (ms : List ModeConfig) (c : Component),
      (ms.foldl (fun c m => c.AddFailureMode mkDist m.component m.id m.failure_mode
        m.dist_type m.alpha m.beta) c).m_repair_dist = c.m_repair_dist ∧
      (ms.foldl (fun c m => c.AddFailureMode mkDist m.component m.id m.failure_mode
        m.dist_type m.alpha m.beta) c).m_status = c.m_status := by
    intro ms
    induction ms with
    | nil => intro c; exact ⟨rfl, rfl⟩
    | cons m ms ih =>
      intro c
      rw [List.foldl_cons]
      exact ih _
  unfold freshSim Component.ctor at h
  by_cases hn : name = "MAINTENANCE"
  · simp [hn] at h
  · simp only [hn, if_false] at h
    have h' := Except.ok.inj h
    subst h'
    simp only [GenerateInitialLifesAndProbs]
    refine ⟨?_, ?_, ?_, ?_⟩
    · exact (hfold modes _).1
    · exact congrArg ComponentStatus.operational (hfold modes _).2
    · exact congrArg ComponentStatus.downtime_remaining (hfold modes _).2
    · exact congrArg ComponentStatus.hazard_rate (hfold modes _).2

theorem AdvanceDowntime_repair_dist_f64 (c : Component) (time : Dbl) :
    (c.AdvanceDowntime time).m_repair_dist = c.m_repair_dist := by
  unfold Component.AdvanceDowntime
  simp only
  split <;> rfl

/-- A property of the state kept by every call is kept by a sequence of calls. -/
theorem runCalls_preserves_f64 (I : Sim → Prop) (A : Call → Prop)
    (hA : ∀ c s, A c → I s → I (c.run s).state) :
    ∀ (calls : List Call) (s : Sim), (∀ c ∈ calls, A c) → I s → I (runCalls calls s) := by
  intro calls
  induction calls with
  | nil => intro s _ h; exact h
  | cons c cs ih =>
    intro s hall h
    exact ih _ (fun c' hc' => hall c' (List.mem_cons_of_mem c hc'))
      (hA c s (hall c (List.mem_cons_self c cs)) h)

end F64

/-! ### Downtime on binary64 values -/

namespace F64

theorem freshPump_eq_f64 : freshPump = .ok freshPumpSim := by
  simp [freshPump, freshSim, Component.ctor, freshPumpSim, pump, wearMode,
    GenerateInitialLifesAndProbs, GenerateInitialLifesAndProbs.go, Component.AddFailureMode,
    FailureType.GenerateFailureVariate, alphaDist, constDist, zeroGen,
    WELLFiveTwelve.getVariate]

/-- What one call of the four leaves in downtime_remaining is never negative, when
the repair samples are at least 0. -/
theorem Call_run_downtime_f64 (D : Distribution) (hgen : ∀ g, 0 ≤ (D.GetVariate g).1)
    (c : Call) (s : Sim) (hc : c.isOperateTestAdvanceGenerate = true)
    (hs : StatusInv D (fun _ dt => ¬ dt < 0) s) :
    StatusInv D (fun _ dt => ¬ dt < 0) (c.run s).state := by
  have hgen2 : ∀ g, ¬ (D.GetVariate g).1 < 0 := fun g => Dbl.not_lt_of_le _ (hgen g)
  cases c with
  | Operate time ramp_mult read_only t start mode =>
    exact Operate_statusInv_f64 D _ hgen2 time ramp_mult read_only t start mode s hs
  | TestForFailure time ramp_mult t start mode =>
    exact TestForFailure_statusInv_f64 D _ hgen2 time ramp_mult t start mode s hs
  | GenerateFailure t fail_idx => exact GenerateFailure_statusInv_f64 D _ hgen2 t fail_idx s hs.1
  | AdvanceDowntime time =>
    refine ⟨by rw [← hs.1]; exact AdvanceDowntime_repair_dist_f64 s.comp time, ?_⟩
    simp only [Call.run, Exec.state, Component.AdvanceDowntime]
    split
    · exact Dbl.not_lt_of_le _ Dbl.zero_le_zero
    · rename_i hpos
      exact Dbl.not_lt_zero_of_not_le _ hpos
  | ReadFailure _ _ _ _ => exact absurd hc Bool.false_ne_true
  | Shutdown _ => exact absurd hc Bool.false_ne_true
  | RestoreComponent => exact absurd hc Bool.false_ne_true

/-- While every subtraction of `AdvanceDowntime` is defined, downtime_remaining
stays at least 0. -/
theorem runCalls_downtime_f64 (D : Distribution) (hgen : ∀ g, 0 ≤ (D.GetVariate g).1) :
    ∀ (calls : List Call) (s : Sim), (∀ c ∈ calls, c.isOperateTestAdvanceGenerate = true) →
      advanceTimesDefined calls s = true →
      StatusInv D (fun _ dt => 0 ≤ dt) s →
      StatusInv D (fun _ dt => 0 ≤ dt) (runCalls calls s) := by
  intro calls
  induction calls with
  | nil => intro s _ _ h; exact h
  | cons c cs ih =>
    intro s hall hdef hs
    have hcs : ∀ c' ∈ cs, c'.isOperateTestAdvanceGenerate = true :=
      fun c' hc' => hall c' (List.mem_cons_of_mem c hc')
    have hc := hall c (List.mem_cons_self c cs)
    cases c with
    | Operate time ramp_mult read_only t start mode =>
      exact ih _ hcs hdef
        (Operate_statusInv_f64 D _ hgen time ramp_mult read_only t start mode s hs)
    | TestForFailure time ramp_mult t start mode =>
      exact ih _ hcs hdef
        (TestForFailure_statusInv_f64 D _ hgen time ramp_mult t start mode s hs)
    | GenerateFailure t fail_idx =>
      exact ih _ hcs hdef (GenerateFailure_statusInv_f64 D _ hgen t fail_idx s hs.1)
    | AdvanceDowntime time =>
      simp only [advanceTimesDefined, Bool.and_eq_true, decide_eq_true_eq, Bool.not_eq_true',
        Bool.and_eq_false_imp, decide_eq_false_iff_not] at hdef
      obtain ⟨⟨hnan, hinf⟩, hrest⟩ := hdef
      refine ih _ hcs hrest ⟨by rw [← hs.1]; exact AdvanceDowntime_repair_dist_f64 s.comp time, ?_⟩
      simp only [Call.run, Exec.state, Component.AdvanceDowntime]
      split
      · exact Dbl.zero_le_zero
      · rename_i hpos
        refine Dbl.nonneg_of_not_le _ ?_ hpos
        intro hn
        rcases (Dbl.sub_eq_nan_iff _ time hs.2).mp hn with h1 | h1
        · exact hnan h1
        · exact hinf h1.1 h1.2
    | ReadFailure _ _ _ _ => exact absurd hc Bool.false_ne_true
    | Shutdown _ => exact absurd hc Bool.false_ne_true
    | RestoreComponent => exact absurd hc Bool.false_ne_true

/-- Claim C6, as amended. In every state reachable from a freshly constructed
component by any finite sequence of `Operate`, `TestForFailure`,
`AdvanceDowntime` and `GenerateFailure` calls, whatever their arguments and
whether or not they raise, provided every value returned by the repair
distribution is at least 0: downtime_remaining is never negative (it is at
least 0, or NaN); and downtime_remaining >= 0 holds when no time passed to
`AdvanceDowntime` is NaN, and none is +INFINITY while downtime_remaining is
+INFINITY. The values are binary64 values, every operation rounded as the
machine rounds it. -/
theorem downtime_remaining_never_negative
    (ExponentialDist : Dbl → Dbl → String → Distribution)
    (mkDist : String → Dbl → Dbl → Distribution)
    (name type : String) (repair_rate repair_cooldown_time : Dbl)
    (hot_start_penalty warm_start_penalty cold_start_penalty : Dbl)
    (availability_reduction repair_cost : Dbl)
    (modes : List ModeConfig) (events : FailureEvents) (gen : WELLFiveTwelve) (s0 : Sim)
    (calls : List Call)
    (hfresh : freshSim ExponentialDist mkDist name type repair_rate repair_cooldown_time
      hot_start_penalty warm_start_penalty cold_start_penalty availability_reduction
      repair_cost modes events gen = .ok s0)
    (hcalls : ∀ c ∈ calls, c.isOperateTestAdvanceGenerate = true)
    (hrepair : ∀ g, 0 ≤
      ((ExponentialDist repair_rate repair_cooldown_time "exponential").GetVariate g).1) :
    (0 ≤ (runCalls calls s0).comp.m_status.downtime_remaining ∨
      (runCalls calls s0).comp.m_status.downtime_remaining = Dbl.nan) ∧
    (advanceTimesDefined calls s0 = true →
      0 ≤ (runCalls calls s0).comp.m_status.downtime_remaining) := by
  obtain ⟨hD, -, hdt, -⟩ := freshSim_status_f64 ExponentialDist mkDist name type repair_rate
    repair_cooldown_time hot_start_penalty warm_start_penalty cold_start_penalty
    availability_reduction repair_cost modes events gen s0 hfresh
  constructor
  · have key := runCalls_preserves_f64
      (StatusInv (ExponentialDist repair_rate repair_cooldown_time "exponential")
        (fun _ dt => ¬ dt < 0))
      (fun c => c.isOperateTestAdvanceGenerate = true)
      (fun c s hc hs => Call_run_downtime_f64 _ hrepair c s hc hs) calls s0 hcalls
      ⟨hD, by rw [hdt]; exact Dbl.not_lt_of_le _ Dbl.zero_le_zero⟩
    exact (Dbl.not_lt_zero_iff _).mp key.2
  · intro hdef
    exact (runCalls_downtime_f64 _ hrepair calls s0 hcalls hdef
      ⟨hD, by rw [hdt]; exact Dbl.zero_le_zero⟩).2

/-- Witness of C6, as amended: a probe that predicts a failure, a negative time
step, an out-of-range failure index and an infinite time step. -/
theorem downtime_remaining_never_negative_witness :
    freshPump = .ok freshPumpSim ∧
    (∀ g, 0 ≤ ((floorDist 1 1 "exponential").GetVariate g).1) ∧
    advanceTimesDefined [.TestForFailure (Dbl.fin 200) 1 0 "None" "OF",
      .AdvanceDowntime (Dbl.fin (-3)), .GenerateFailure 1 5,
      .AdvanceDowntime (Dbl.inf false)] freshPumpSim = true ∧
    0 ≤ (runCalls [.TestForFailure (Dbl.fin 200) 1 0 "None" "OF",
          .AdvanceDowntime (Dbl.fin (-3)), .GenerateFailure 1 5,
          .AdvanceDowntime (Dbl.inf false)]
        freshPumpSim).comp.m_status.downtime_remaining := by
  have hrep : ∀ g, 0 ≤ ((floorDist 1 1 "exponential").GetVariate g).1 :=
    fun _ => (by decide! : (0 : Dbl) ≤ 1)
  have hdef : advanceTimesDefined [.TestForFailure (Dbl.fin 200) 1 0 "None" "OF",
      .AdvanceDowntime (Dbl.fin (-3)), .GenerateFailure 1 5,
      .AdvanceDowntime (Dbl.inf false)] freshPumpSim = true := by decide!
  refine ⟨freshPump_eq_f64, hrep, hdef,
    (downtime_remaining_never_negative floorDist alphaDist "pump" "rotating" 1 1 1
      (Dbl.fin 2) (Dbl.fin 3) 1 0
      [{ component := "pump", id := "0", failure_mode := "OF", dist_type := "gamma",
         alpha := Dbl.fin 100, beta := 1 }]
      noEvents zeroGen freshPumpSim _ freshPump_eq_f64 ?_ hrep).2 hdef⟩
  intro c hc
  simp only [List.mem_cons, List.mem_singleton, List.not_mem_nil, or_false] at hc
  rcases hc with rfl | rfl | rfl | rfl <;> rfl

/-- Counterexample to claim C6 as stated. On the fresh pump, whose repair
distribution only returns 1: `AdvanceDowntime(NaN)` stores `0 - NaN = NaN`, the
test `NaN <= 0.0` is false, and downtime_remaining is NaN, which is not
`>= 0`; `AdvanceDowntime(-INFINITY)` then `AdvanceDowntime(+INFINITY)` stores
`+INFINITY - +INFINITY = NaN` in the same way. -/
theorem downtime_remaining_nan_counterexample :
    freshPump = .ok freshPumpSim ∧
    (∀ g, 0 ≤ ((floorDist 1 1 "exponential").GetVariate g).1) ∧
    (runCalls [.AdvanceDowntime Dbl.nan] freshPumpSim).comp.m_status.downtime_remaining
      = Dbl.nan ∧
    ¬ (0 ≤ (runCalls [.AdvanceDowntime Dbl.nan]
        freshPumpSim).comp.m_status.downtime_remaining) ∧
    (runCalls [.AdvanceDowntime (Dbl.inf true)]
        freshPumpSim).comp.m_status.downtime_remaining = Dbl.inf false ∧
    ¬ (0 ≤ (runCalls [.AdvanceDowntime (Dbl.inf true), .AdvanceDowntime (Dbl.inf false)]
        freshPumpSim).comp.m_status.downtime_remaining) := by
  refine ⟨freshPump_eq_f64, fun _ => (by decide! : (0 : Dbl) ≤ 1), by decide!, by decide!,
    by decide!, by decide!⟩

end F64

/-! ### Repair on binary64 values -/

namespace F64

/-- Once repaired, a component stays repaired under time steps that are at
least 0. -/
theorem AdvanceDowntime_repaired_f64 (ts : List Dbl) (hts : ∀ x ∈ ts, 0 ≤ x) (c : Component)
    (hop : c.m_status.operational = true) (hdt : c.m_status.downtime_remaining = 0) :
    ts.foldl Component.AdvanceDowntime c = c := by
  induction ts with
  | nil => rfl
  | cons x ts ih =>
    have hx : 0 ≤ x := hts x (List.mem_cons_self x ts)
    have hstep : c.AdvanceDowntime x = c := by
      obtain ⟨n, ty, p1, p2, p3, rc, ar, ct, ⟨l, hz, dt, op⟩, rd, ft⟩ := c
      simp only at hop hdt
      subst hop hdt
      simp [Component.AdvanceDowntime, Dbl.zero_sub_le x hx]
    rw [List.foldl_cons, hstep]
    exact ih (fun y hy => hts y (List.mem_cons_of_mem x hy))

/-- Repair of a component that is down, step by step. -/
theorem AdvanceDowntime_sequence_f64 (ts : List Dbl) :
    ∀ (c : Component), (∀ x ∈ ts, 0 ≤ x) → c.m_status.operational = false →
      ((∀ j, 1 ≤ j → j ≤ ts.length →
          ¬ remainingAfter c.m_status.downtime_remaining (ts.take j) ≤ 0) →
        ts.foldl Component.AdvanceDowntime c =
          { c with m_status := { c.m_status with
              downtime_remaining := remainingAfter c.m_status.downtime_remaining ts } }) ∧
      ((∃ j, 1 ≤ j ∧ j ≤ ts.length ∧
          remainingAfter c.m_status.downtime_remaining (ts.take j) ≤ 0) →
        ts.foldl Component.AdvanceDowntime c =
          { c with m_status := { c.m_status with
              downtime_remaining := 0, operational := true } }) := by
  induction ts with
  | nil =>
    intro c _ _
    refine ⟨fun _ => rfl, ?_⟩
    rintro ⟨j, h1, h2, -⟩
    simp only [List.length_nil] at h2
    omega
  | cons x ts ih =>
    intro c hts hop
    have hx : 0 ≤ x := hts x (List.mem_cons_self x ts)
    have hts2 : ∀ y ∈ ts, 0 ≤ y := fun y hy => hts y (List.mem_cons_of_mem x hy)
    rw [List.foldl_cons]
    by_cases hle : c.m_status.downtime_remaining - x ≤ 0
    · have hstep : c.AdvanceDowntime x =
          { c with m_status := { c.m_status with
              downtime_remaining := 0, operational := true } } := by
        simp [Component.AdvanceDowntime, hle]
      rw [hstep, AdvanceDowntime_repaired_f64 ts hts2 _ rfl rfl]
      refine ⟨fun h => ?_, fun _ => rfl⟩
      exact absurd hle (h 1 le_rfl (by simp))
    · have hstep : c.AdvanceDowntime x =
          { c with m_status := { c.m_status with
              downtime_remaining := c.m_status.downtime_remaining - x } } := by
        simp [Component.AdvanceDowntime, hle]
      rw [hstep]
      obtain ⟨ih1, ih2⟩ := ih
        { c with m_status := { c.m_status with
            downtime_remaining := c.m_status.downtime_remaining - x } }
        hts2 hop
      refine ⟨fun h => ?_, ?_⟩
      · rw [ih1 (fun j hj1 hj2 => h (j + 1) (by omega) (by simp; omega))]
        rfl
      · rintro ⟨j, hj1, hj2, hj⟩
        cases j with
        | zero => omega
        | succ j =>
          cases j with
          | zero => exact absurd hj hle
          | succ j =>
            rw [ih2 ⟨j + 1, by omega, by simp at hj2; omega, hj⟩]

/-- The partial sums of steps that are at least 0 do not decrease. -/
theorem sum_take_mono_f64 (tq : List ℚ) (htq : ∀ x ∈ tq, 0 ≤ x) (j k : Nat) (hjk : j ≤ k) :
    (tq.take j).sum ≤ (tq.take k).sum := by
  obtain ⟨n, rfl⟩ := Nat.exists_eq_add_of_le hjk
  rw [List.take_add, List.sum_append]
  have : 0 ≤ ((tq.drop j).take n).sum :=
    List.sum_nonneg (fun x hx => htq x (List.mem_of_mem_drop (List.mem_of_mem_take hx)))
  linarith

/-- Claim C9, as amended. `AdvanceDowntime` on a component that is down with
downtime_remaining `d > 0`, for any list of steps `t1 .. tn` that are at least 0
and every `k`, with the running difference `d - t1 - ... - tj` computed as the
code computes it (from the left, every subtraction rounded to a double): while
no running difference up to `k` is `<= 0` the component is still not
operational and its downtime_remaining is the running difference
`d - t1 - ... - tk`; as soon as one running difference is `<= 0` the component
is operational with downtime_remaining exactly 0, whether that difference is 0
or negative. In both cases nothing else in the component changes, so the
state after the repair does not depend on the overshoot. When every
subtraction up to `k` is exact (the running difference is `d` minus the sum of
the steps) this is the rule on sums: not operational with
`d - (t1 + ... + tk)` while `t1 + ... + tk < d`, operational with exactly 0 as
soon as `t1 + ... + tk >= d`. -/
theorem AdvanceDowntime_repair_rounded (c : Component) (ts : List Dbl) (k : Nat)
    (hdown : c.m_status.operational = false) (hd : 0 < c.m_status.downtime_remaining)
    (hts : ∀ x ∈ ts, 0 ≤ x) :
    ((∀ j, 1 ≤ j → j ≤ k →
        ¬ remainingAfter c.m_status.downtime_remaining (ts.take j) ≤ 0) →
      (ts.take k).foldl Component.AdvanceDowntime c =
        { c with m_status := { c.m_status with
            operational := false
            downtime_remaining :=
              remainingAfter c.m_status.downtime_remaining (ts.take k) } }) ∧
    ((∃ j, 1 ≤ j ∧ j ≤ k ∧
        remainingAfter c.m_status.downtime_remaining (ts.take j) ≤ 0) →
      (ts.take k).foldl Component.AdvanceDowntime c =
        { c with m_status := { c.m_status with
            operational := true, downtime_remaining := 0 } }) ∧
    (∀ (dq : ℚ) (tq : List ℚ), c.m_status.downtime_remaining = Dbl.fin dq →
      ts = tq.map Dbl.fin →
      (∀ j, j ≤ k → remainingAfter (Dbl.fin dq) ((tq.take j).map Dbl.fin) =
        Dbl.fin (dq - (tq.take j).sum)) →
      ((tq.take k).sum < dq →
        (ts.take k).foldl Component.AdvanceDowntime c =
          { c with m_status := { c.m_status with
              operational := false
              downtime_remaining := Dbl.fin (dq - (tq.take k).sum) } }) ∧
      (dq ≤ (tq.take k).sum →
        (ts.take k).foldl Component.AdvanceDowntime c =
          { c with m_status := { c.m_status with
              operational := true, downtime_remaining := 0 } })) := by
  have htk : ∀ x ∈ ts.take k, 0 ≤ x := fun x hx => hts x (List.mem_of_mem_take hx)
  obtain ⟨h1, h2⟩ := AdvanceDowntime_sequence_f64 (ts.take k) c htk hdown
  have htake : ∀ j, j ≤ k → (ts.take k).take j = ts.take j := by
    intro j hj
    rw [List.take_take, Nat.min_eq_left hj]
  have hA : (∀ j, 1 ≤ j → j ≤ k →
        ¬ remainingAfter c.m_status.downtime_remaining (ts.take j) ≤ 0) →
      (ts.take k).foldl Component.AdvanceDowntime c =
        { c with m_status := { c.m_status with
            operational := false
            downtime_remaining :=
              remainingAfter c.m_status.downtime_remaining (ts.take k) } } := by
    intro h
    rw [h1 (fun j hj1 hj2 => by
      have hjk : j ≤ k := by
        have := List.length_take_le k ts
        omega
      rw [htake j hjk]
      exact h j hj1 hjk), ← hdown]
  have hB : (∃ j, 1 ≤ j ∧ j ≤ k ∧
        remainingAfter c.m_status.downtime_remaining (ts.take j) ≤ 0) →
      (ts.take k).foldl Component.AdvanceDowntime c =
        { c with m_status := { c.m_status with
            operational := true, downtime_remaining := 0 } } := by
    rintro ⟨j, hj1, hj2, hj⟩
    by_cases hjl : j ≤ (ts.take k).length
    · exact h2 ⟨j, hj1, hjl, by rw [htake j hj2]; exact hj⟩
    · have hall : ts.take j = ts.take k := by
        have hlen : (ts.take k).length = min k ts.length := List.length_take k ts
        have hge : ts.length ≤ j := by omega
        have hge2 : ts.length ≤ k := by omega
        rw [List.take_of_length_le hge, List.take_of_length_le hge2]
      rw [hall] at hj
      by_cases hz : (ts.take k).length = 0
      · have hnil : ts.take k = [] := List.length_eq_zero.mp hz
        rw [hnil] at hj
        exact absurd hj (Dbl.not_le_of_pos _ hd)
      · refine h2 ⟨(ts.take k).length, by omega, le_rfl, ?_⟩
        rw [List.take_length]
        exact hj
  refine ⟨hA, hB, ?_⟩
  intro dq tq hdq htq hexact
  have hpos : 0 < dq := by
    rw [hdq] at hd
    simpa [Dbl.lt_iff, Dbl.zero_def, Dbl.lt] using hd
  have hnn : ∀ x ∈ tq, 0 ≤ x := by
    intro x hx
    have := hts (Dbl.fin x) (by rw [htq]; exact List.mem_map_of_mem _ hx)
    simpa [Dbl.le_iff, Dbl.zero_def, Dbl.le] using this
  have hrem : ∀ j, j ≤ k → remainingAfter c.m_status.downtime_remaining (ts.take j) =
      Dbl.fin (dq - (tq.take j).sum) := by
    intro j hj
    rw [hdq, htq, ← List.map_take]
    exact hexact j hj
  have hle : ∀ j, j ≤ k → (remainingAfter c.m_status.downtime_remaining (ts.take j) ≤ 0 ↔
      dq ≤ (tq.take j).sum) := by
    intro j hj
    rw [hrem j hj]
    simp [Dbl.le_iff, Dbl.zero_def, Dbl.le]
  constructor
  · intro hlt
    rw [hA (fun j _ hj2 => by
      rw [hle j hj2, not_le]
      exact lt_of_le_of_lt (sum_take_mono_f64 tq hnn j k hj2) hlt), hrem k le_rfl]
  · intro hge
    apply hB
    have hk : 1 ≤ k := by
      by_contra hc
      have hk0 : k = 0 := by omega
      rw [hk0] at hge
      simp only [List.take_zero, List.sum_nil] at hge
      exact absurd hpos (not_lt.mpr hge)
    exact ⟨k, hk, le_rfl, (hle k le_rfl).mpr hge⟩

/-- Witness of C9, as amended: a downtime of 5 h advanced by 2 h, 3 h, 4 h, all
exact; after one step 3 h are left, after two steps the sum equals the
downtime, after three it overshoots by 4 h. -/
theorem AdvanceDowntime_repair_rounded_witness :
    ([Dbl.fin 2, Dbl.fin 3, Dbl.fin 4].take 1).foldl Component.AdvanceDowntime
        ((pump100.comp).Shutdown (Dbl.fin 5)) =
      { (pump100.comp).Shutdown (Dbl.fin 5) with m_status :=
          { ((pump100.comp).Shutdown (Dbl.fin 5)).m_status with
            operational := false, downtime_remaining := Dbl.fin 3 } } ∧
    ([Dbl.fin 2, Dbl.fin 3, Dbl.fin 4].take 2).foldl Component.AdvanceDowntime
        ((pump100.comp).Shutdown (Dbl.fin 5)) =
      { (pump100.comp).Shutdown (Dbl.fin 5) with m_status :=
          { ((pump100.comp).Shutdown (Dbl.fin 5)).m_status with
            operational := true, downtime_remaining := 0 } } ∧
    ([Dbl.fin 2, Dbl.fin 3, Dbl.fin 4].take 3).foldl Component.AdvanceDowntime
        ((pump100.comp).Shutdown (Dbl.fin 5)) =
      { (pump100.comp).Shutdown (Dbl.fin 5) with m_status :=
          { ((pump100.comp).Shutdown (Dbl.fin 5)).m_status with
            operational := true, downtime_remaining := 0 } } := by
  have hts : ∀ x ∈ [Dbl.fin 2, Dbl.fin 3, Dbl.fin 4], (0 : Dbl) ≤ x := by
    intro x hx
    simp only [List.mem_cons, List.mem_singleton, List.not_mem_nil, or_false] at hx
    rcases hx with rfl | rfl | rfl <;> decide!
  have hd : 0 < ((pump100.comp).Shutdown (Dbl.fin 5)).m_status.downtime_remaining := by
    decide!
  have h53 : remainingAfter ((pump100.comp).Shutdown (Dbl.fin 5)).m_status.downtime_remaining
      ([Dbl.fin 2, Dbl.fin 3, Dbl.fin 4].take 1) = Dbl.fin 3 := by decide!
  have hexact : ∀ j, j ≤ 3 →
      remainingAfter (Dbl.fin 5) ((([2, 3, 4] : List ℚ).take j).map Dbl.fin) =
        Dbl.fin (5 - (([2, 3, 4] : List ℚ).take j).sum) := by
    intro j hj
    interval_cases j <;> decide!
  refine ⟨?_, ?_, ?_⟩
  · have h := (AdvanceDowntime_repair_rounded ((pump100.comp).Shutdown (Dbl.fin 5))
      [Dbl.fin 2, Dbl.fin 3, Dbl.fin 4] 1 rfl hd hts).1
      (fun j hj1 hj2 => by
        have hj : j = 1 := by omega
        subst hj
        decide!)
    rw [h53] at h
    exact h
  · exact (AdvanceDowntime_repair_rounded ((pump100.comp).Shutdown (Dbl.fin 5))
      [Dbl.fin 2, Dbl.fin 3, Dbl.fin 4] 2 rfl hd hts).2.1
        ⟨2, by omega, by omega, by decide!⟩
  · exact ((AdvanceDowntime_repair_rounded ((pump100.comp).Shutdown (Dbl.fin 5))
      [Dbl.fin 2, Dbl.fin 3, Dbl.fin 4] 3 rfl hd hts).2.2 5 [2, 3, 4] rfl rfl hexact).2
        (by norm_num)

/-- Counterexample to claim C9 as stated. A component down with the double 0.7 is
advanced by seven steps of the double 0.1: the sum of the seven steps is at
least 0.7, as exact values and as a sum of doubles, yet the seven rounded
subtractions leave 2^-55 h and the component is still not operational. And a
component down with 1.0 advanced by the doubles 0.3 and 0.7, whose exact sum is
below 1, is operational with downtime_remaining 0 after the second step,
because `1.0 - 0.3` rounds to the double 0.7. -/
theorem AdvanceDowntime_rounding_counterexample :
    Dbl.round (7 / 10) = zeroPointSeven ∧ Dbl.round (1 / 10) = zeroPointOne ∧
    Dbl.round (3 / 10) = zeroPointThree ∧
    ((pump100.comp).Shutdown zeroPointSeven).m_status.operational = false ∧
    0 < ((pump100.comp).Shutdown zeroPointSeven).m_status.downtime_remaining ∧
    (0 : Dbl) ≤ zeroPointOne ∧
    (3152519739159347 / 4503599627370496 : ℚ) ≤
      7 * (3602879701896397 / 36028797018963968) ∧
    zeroPointSeven ≤ [zeroPointOne, zeroPointOne, zeroPointOne, zeroPointOne, zeroPointOne,
      zeroPointOne, zeroPointOne].foldl (fun a t => a + t) 0 ∧
    ([zeroPointOne, zeroPointOne, zeroPointOne, zeroPointOne, zeroPointOne, zeroPointOne,
        zeroPointOne].foldl Component.AdvanceDowntime
      ((pump100.comp).Shutdown zeroPointSeven)).m_status.operational = false ∧
    ([zeroPointOne, zeroPointOne, zeroPointOne, zeroPointOne, zeroPointOne, zeroPointOne,
        zeroPointOne].foldl Component.AdvanceDowntime
      ((pump100.comp).Shutdown zeroPointSeven)).m_status.downtime_remaining =
        Dbl.fin (1 / 36028797018963968) ∧
    (5404319552844595 / 18014398509481984 + 3152519739159347 / 4503599627370496 : ℚ) < 1 ∧
    ([zeroPointThree, zeroPointSeven].foldl Component.AdvanceDowntime
      ((pump100.comp).Shutdown 1)).m_status.operational = true ∧
    ([zeroPointThree, zeroPointSeven].foldl Component.AdvanceDowntime
      ((pump100.comp).Shutdown 1)).m_status.downtime_remaining = 0 := by
  refine ⟨by decide!, by decide!, by decide!, by decide!, by decide!, by decide!, by norm_num,
    by decide!, by decide!, by decide!, by norm_num, by decide!, by decide!⟩

end F64

/-! ### A ramp multiplier of 0 on binary64 values -/

namespace F64

theorem addStartPenalty_modes_f64 (c : Component) (start : String) :
    (addStartPenalty c start).m_failure_types = c.m_failure_types := by
  rw [addStartPenalty_eq_f64]

/-- Operate with a continuous mode on an operational component is the depletion
loop run after the start penalty has been added. -/
theorem Operate_continuous_f64 (time ramp_mult : Dbl) (read_only : Bool) (t : Int)
    (start mode : String) (s : Sim) (hmode : mode = "OF" ∨ mode = "SF")
    (hop : s.comp.m_status.operational = true) :
    Operate time ramp_mult read_only t start mode s =
      forLoop (Operate.body time ramp_mult read_only mode)
        (addStartPenalty s.comp start).m_failure_types.length 0
        { s with comp := addStartPenalty s.comp start } := by
  have h1 : mode ≠ "OS" := by rcases hmode with h | h <;> subst h <;> decide
  have h2 : mode ≠ "SS" := by rcases hmode with h | h <;> subst h <;> decide
  simp only [Operate, Component.IsOperational, hop, h1, h2]
  simp

/-- TestForFailure with a continuous mode is the wear-out loop alone. -/
theorem TestForFailure_continuous_f64 (time ramp_mult : Dbl) (t : Int) (start mode : String)
    (s : Sim) (hmode : mode = "OF" ∨ mode = "SF") :
    TestForFailure time ramp_mult t start mode s =
      forLoop (TestForFailure.body time ramp_mult (startPenalty s.comp start) t mode)
        s.comp.m_failure_types.length 0 s := by
  have h1 : mode ≠ "OS" := by rcases hmode with h | h <;> subst h <;> decide
  have h2 : mode ≠ "SS" := by rcases hmode with h | h <;> subst h <;> decide
  simp only [TestForFailure, h1, h2, if_false]

/-- With ramp_mult 0 the comparison of the wear-out check is true only for a
negative life against a finite product. -/
theorem zero_ramp_comparison_f64 (x life : Dbl)
    (h : x.isFinite = false ∨ ¬ life < 0) : ¬ x * 0 > life := by
  rw [Dbl.mul_zero_eq]
  rcases h with h | h
  · rw [h]
    simp only [Bool.false_eq_true, if_false]
    exact Dbl.not_lt_nan life
  · split
    · exact h
    · exact Dbl.not_lt_nan life

/-- Claim C12, as amended. With ramp_mult = 0 and mode OF or SF, for every time
(NaN and the infinities included) and every start value, on binary64 values.
`TestForFailure` generates no failure and returns the state unchanged when no
failure mode labelled `mode` has a negative life_remaining, and also when
`time * (hazard_rate + start penalty)` is not finite (its product with 0 is
then NaN and the comparison is false). `Operate` on an operational component
returns without raising and generates no failure when `read_only` is true,
whatever the life values, or when `time * hazard_rate` (start penalty added)
is not finite, or when no failure mode labelled `mode` has a negative
life_remaining. An `Operate` that returns leaves every failure mode unchanged
when `time * hazard_rate` is finite (every stored life_remaining being a
double); when it is infinite or NaN the life_remaining of every mode labelled
`mode` becomes NaN and the other modes are unchanged. -/
theorem zero_ramp_wearout_check (time : Dbl) (read_only : Bool) (t : Int)
    (start mode : String) (s : Sim) (hmode : mode = "OF" ∨ mode = "SF") :
    (((time * (s.comp.m_status.hazard_rate + startPenalty s.comp start)).isFinite = false ∨
        ∀ (j : Nat) (ft : FailureType), s.comp.m_failure_types[j]? = some ft →
          ft.GetFailureMode = mode → ¬ ft.GetLifeRemaining < 0) →
      TestForFailure time 0 t start mode s = .done s) ∧
    (s.comp.m_status.operational = true →
      (read_only = true ∨
        (time * (addStartPenalty s.comp start).m_status.hazard_rate).isFinite = false ∨
        ∀ (j : Nat) (ft : FailureType), s.comp.m_failure_types[j]? = some ft →
          ft.GetFailureMode = mode → ¬ ft.GetLifeRemaining < 0) →
      ∃ s' : Sim, Operate time 0 read_only t start mode s = .done s' ∧
        s'.generated = s.generated) ∧
    (∀ s' : Sim, s.comp.m_status.operational = true →
      Operate time 0 read_only t start mode s = .done s' →
      ((time * (addStartPenalty s.comp start).m_status.hazard_rate).isFinite = true →
        (∀ ft ∈ s.comp.m_failure_types, ft.GetLifeRemaining.isDouble = true) →
        s'.comp.m_failure_types = s.comp.m_failure_types) ∧
      ((time * (addStartPenalty s.comp start).m_status.hazard_rate).isFinite = false →
        ∀ (j : Nat) (ft : FailureType), s.comp.m_failure_types[j]? = some ft →
          s'.comp.m_failure_types[j]? = some
            (if ft.GetFailureMode = mode then { ft with life_or_prob := Dbl.nan }
             else ft))) := by
  refine ⟨?_, ?_, ?_⟩
  · intro h
    rw [TestForFailure_continuous_f64 time 0 t start mode s hmode]
    apply TestForFailure_loop_quiet_f64
    intro j ft hj hm
    apply zero_ramp_comparison_f64
    rcases h with h | h
    · exact Or.inl h
    · exact Or.inr (h j ft hj hm)
  · intro hop h
    rw [Operate_continuous_f64 time 0 read_only t start mode s hmode hop]
    have key := Operate_loop_f64 time 0 read_only mode
      { s with comp := addStartPenalty s.comp start }
    simp only at key
    revert key
    cases forLoop (Operate.body time 0 read_only mode)
        (addStartPenalty s.comp start).m_failure_types.length 0
        { s with comp := addStartPenalty s.comp start } with
    | done s' =>
      rintro ⟨hrest, -, -, -⟩
      exact ⟨s', rfl, by rw [hrest]; rfl⟩
    | threw w s' =>
      rintro ⟨-, -, j, ft, hj, hm, hgt, hro⟩
      exfalso
      rw [addStartPenalty_modes_f64] at hj
      rcases h with h | h | h
      · rw [h] at hro; exact absurd hro (by decide)
      · exact zero_ramp_comparison_f64 _ _ (Or.inl h) hgt
      · exact zero_ramp_comparison_f64 _ _ (Or.inr (h j ft hj hm)) hgt
  · intro s' hop hret
    rw [Operate_continuous_f64 time 0 read_only t start mode s hmode hop] at hret
    have key := Operate_loop_f64 time 0 read_only mode
      { s with comp := addStartPenalty s.comp start }
    simp only at key
    rw [hret] at key
    obtain ⟨-, hlen, hmodes, -⟩ := key
    rw [addStartPenalty_modes_f64] at hlen
    simp only [addStartPenalty_modes_f64] at hmodes
    constructor
    · intro hfin hdbl
      apply List.ext_getElem?
      intro j
      cases hj : s.comp.m_failure_types[j]? with
      | none =>
        rw [List.getElem?_eq_none_iff] at hj ⊢
        omega
      | some ft =>
        rw [hmodes j ft hj]
        by_cases hm : ft.GetFailureMode = mode
        · rw [if_pos hm, Dbl.mul_zero_eq, hfin]
          have hd := hdbl ft (List.getElem?_mem hj)
          simp only [FailureType.GetLifeRemaining] at hd
          simp [FailureType.ReduceLifeRemaining, Dbl.sub_zero_eq _ hd]
        · rw [if_neg hm]
    · intro hinf j ft hj
      rw [hmodes j ft hj, Dbl.mul_zero_eq, hinf]
      by_cases hm : ft.GetFailureMode = mode
      · rw [if_pos hm, if_pos hm]
        simp [FailureType.ReduceLifeRemaining, Dbl.sub_nan]
      · rw [if_neg hm, if_neg hm]

/-- Witness of C12, as amended, on the 100 h pump: 1000 h after a cold start. -/
theorem zero_ramp_wearout_check_witness :
    TestForFailure (Dbl.fin 1000) 0 0 "ColdStart" "OF" pump100 = .done pump100 ∧
    ∃ s' : Sim, Operate (Dbl.fin 1000) 0 false 0 "ColdStart" "OF" pump100 = .done s' ∧
      s'.generated = pump100.generated ∧
      s'.comp.m_failure_types = pump100.comp.m_failure_types := by
  have hlife : ∀ (j : Nat) (ft : FailureType), pump100.comp.m_failure_types[j]? = some ft →
      ft.GetFailureMode = "OF" → ¬ ft.GetLifeRemaining < 0 := by
    intro j ft hj _
    have hj2 : [wearMode "OF" (Dbl.fin 100)][j]? = some ft := hj
    cases j with
    | zero =>
      simp only [List.getElem?_cons_zero, Option.some.injEq] at hj2
      subst hj2
      decide!
    | succ j => simp at hj2
  have hdbl : ∀ ft ∈ pump100.comp.m_failure_types, ft.GetLifeRemaining.isDouble = true := by
    intro ft hft
    have hft2 : ft ∈ [wearMode "OF" (Dbl.fin 100)] := hft
    simp only [List.mem_singleton] at hft2
    subst hft2
    decide!
  have h := zero_ramp_wearout_check (Dbl.fin 1000) false 0 "ColdStart" "OF" pump100
    (Or.inl rfl)
  obtain ⟨s', hs', hg⟩ := h.2.1 rfl (Or.inr (Or.inr hlife))
  exact ⟨h.1 (Or.inr hlife), s', hs', hg, (h.2.2 s' rfl hs').1 (by decide!) hdbl⟩

/-- Counterexample to claim C12 as stated. The pump whose OF mode is overdrawn
(life_remaining = -50, the state a read-only `Operate` of 150 h leaves) is
operational; with ramp_mult = 0 the comparison is `1 * (1 + 0) * 0 = 0 > -50`,
so `TestForFailure(1, 0, gen, 0, "None", "OF")` generates a failure for mode 0
and `Operate(1, 0, gen, false, 0, "None", "OF")` raises. And on the 100 h pump
`Operate(+INFINITY, 0, gen, false, 0, "None", "OF")` computes
`+INFINITY * 1 * 0 = NaN`, the test `NaN > 100` is false, the call returns and
life_remaining is NaN instead of 100. -/
theorem zero_ramp_wearout_counterexample :
    (Operate (Dbl.fin 150) 1 true 0 "None" "OF" pump100).raised = false ∧
    (Operate (Dbl.fin 150) 1 true 0 "None" "OF" pump100).state.comp.GetLifetimesAndProbs =
      pumpOverdrawn.comp.GetLifetimesAndProbs ∧
    pumpOverdrawn.comp.m_status.operational = true ∧
    pumpOverdrawn.generated = [] ∧
    (TestForFailure 1 0 0 "None" "OF" pumpOverdrawn).state.generated = [0] ∧
    (Operate 1 0 false 0 "None" "OF" pumpOverdrawn).raised = true ∧
    pump100.comp.m_status.operational = true ∧
    pump100.comp.GetLifetimesAndProbs = [Dbl.fin 100] ∧
    (Operate (Dbl.inf false) 0 false 0 "None" "OF" pump100).raised = false ∧
    (Operate (Dbl.inf false) 0 false 0 "None" "OF" pump100).state.comp.GetLifetimesAndProbs =
      [Dbl.nan] := by
  refine ⟨by decide!, by decide!, rfl, rfl, by decide!, by decide!, rfl, by decide!,
    by decide!, by decide!⟩

end F64

/-! ### Committed operation on binary64 values -/

namespace F64

theorem LifeInv_set_f64 (T : List FailureType) (j : Nat) (ft : FailureType)
    (hT : ∀ x ∈ T, ¬ x.GetLifeRemaining < 0 ∧ ∀ g, 0 ≤ (x.dist.GetVariate g).1)
    (hft : ¬ ft.GetLifeRemaining < 0 ∧ ∀ g, 0 ≤ (ft.dist.GetVariate g).1) :
    ∀ x ∈ T.set j ft, ¬ x.GetLifeRemaining < 0 ∧ ∀ g, 0 ≤ (x.dist.GetVariate g).1 := by
  intro x hx
  rcases List.mem_or_eq_of_mem_set hx with h | h
  · exact hT x h
  · rw [h]; exact hft

theorem GenerateFailure_lifeInv_f64 (t fail_idx : Int) (s : Sim) (h : LifeInv s) :
    LifeInv (GenerateFailure t fail_idx s).state := by
  unfold GenerateFailure
  simp only
  split
  · exact h
  · rename_i ft hft
    have hmem : ft ∈ s.comp.m_failure_types := by
      have := (vectorAt_eq_some hft).2.2
      exact List.getElem?_mem this
    have hnew : ∀ x ∈ s.comp.m_failure_types.set fail_idx.toNat
        (ft.GenerateFailureVariate (GenerateTimeToRepair
          { s with generated := s.generated ++ [fail_idx]
                   comp := { s.comp with m_status :=
                     { s.comp.m_status with operational := false } } }).gen).1,
        ¬ x.GetLifeRemaining < 0 ∧ ∀ g, 0 ≤ (x.dist.GetVariate g).1 :=
      LifeInv_set_f64 _ _ _ h ⟨Dbl.not_lt_of_le _ ((h ft hmem).2 _), (h ft hmem).2⟩
    split
    · exact hnew
    · exact hnew

theorem TestForBinaryFailure_body_lifeInv_f64 (mode : String) (t : Int) (j : Nat) (s : Sim)
    (h : LifeInv s) : LifeInv (TestForBinaryFailure.body mode t j s).state := by
  unfold TestForBinaryFailure.body
  split
  · exact h
  · simp only
    split
    · split
      · exact GenerateFailure_lifeInv_f64 t j _ h
      · exact h
    · exact h

theorem TestForBinaryFailure_lifeInv_f64 (mode : String) (t : Int) (s : Sim)
    (h : LifeInv s) : LifeInv (TestForBinaryFailure mode t s).state :=
  forLoop_preserves_f64 _ LifeInv
    (fun j s hs => TestForBinaryFailure_body_lifeInv_f64 mode t j s hs) _ _ s h

/-- A committed depletion step never leaves a negative life: it throws when the
product exceeds the life, and otherwise the rounded difference is at least 0,
or NaN. -/
theorem Operate_body_lifeInv_f64 (time ramp_mult : Dbl) (opmode : String)
    (j : Nat) (s : Sim) (h : LifeInv s) :
    LifeInv (Operate.body time ramp_mult false opmode j s).state := by
  unfold Operate.body
  split
  · exact h
  · rename_i ft hft
    have hmem : ft ∈ s.comp.m_failure_types := List.getElem?_mem hft
    split
    · split
      · exact h
      · rename_i hnot
        have hnlt : ¬ ft.GetLifeRemaining <
            time * s.comp.m_status.hazard_rate * ramp_mult := by
          intro hc
          exact hnot ⟨hc, by simp⟩
        refine LifeInv_set_f64 _ _ _ h ⟨?_, (h ft hmem).2⟩
        exact Dbl.sub_not_neg _ _ hnlt
    · exact h

theorem Operate_lifeInv_f64 (time ramp_mult : Dbl) (t : Int)
    (start mode : String) (s : Sim) (h : LifeInv s) :
    LifeInv (Operate time ramp_mult false t start mode s).state := by
  have hdep : ∀ (opmode : String) (s1 : Sim), LifeInv s1 →
      LifeInv (forLoop (Operate.body time ramp_mult false opmode)
        s1.comp.m_failure_types.length 0 s1).state :=
    fun opmode s1 h1 => forLoop_preserves_f64 _ LifeInv
      (fun j s hs => Operate_body_lifeInv_f64 time ramp_mult opmode j s hs)
      _ _ s1 h1
  have h1 : LifeInv { s with comp := addStartPenalty s.comp start } := by
    rw [addStartPenalty_eq_f64]
    exact h
  unfold Operate
  simp only
  split
  · exact h
  · split
    · exact Exec.state_bind LifeInv _ _ (TestForBinaryFailure_lifeInv_f64 mode t _ h1)
        (hdep "OF")
    · split
      · exact Exec.state_bind LifeInv _ _ (TestForBinaryFailure_lifeInv_f64 mode t _ h1)
          (hdep "SF")
      · exact hdep mode { s with comp := addStartPenalty s.comp start } h1

theorem Call_run_lifeInv_f64 (c : Call) (s : Sim) (hc : c.isCommitted = true)
    (h : LifeInv s) : LifeInv (c.run s).state := by
  cases c with
  | Operate time ramp_mult read_only t start mode =>
    have hro : read_only = false := by simpa [Call.isCommitted] using hc
    subst hro
    exact Operate_lifeInv_f64 time ramp_mult t start mode s h
  | GenerateFailure t fail_idx => exact GenerateFailure_lifeInv_f64 t fail_idx s h
  | ReadFailure downtime life_remaining fail_idx reset_hazard =>
    have hl : 0 ≤ life_remaining := of_decide_eq_true hc
    simp only [Call.run, Component.ReadFailure]
    split
    · exact h
    · rename_i ft hft
      have hmem : ft ∈ s.comp.m_failure_types := by
        have := (vectorAt_eq_some hft).2.2
        exact List.getElem?_mem this
      exact LifeInv_set_f64 _ _ _ h ⟨Dbl.not_lt_of_le _ hl, (h ft hmem).2⟩
  | AdvanceDowntime time =>
    simp only [Call.run, Exec.state, Component.AdvanceDowntime]
    split
    · exact h
    · exact h
  | TestForFailure _ _ _ _ _ => exact absurd hc Bool.false_ne_true
  | Shutdown _ => exact absurd hc Bool.false_ne_true
  | RestoreComponent => exact absurd hc Bool.false_ne_true

/-- Claim C20, as amended. Committed operation never leaves a wear-out channel
overdrawn: if every failure mode's life_remaining is >= 0 and every value
sampled by the mode distributions is >= 0, then after any finite sequence of
`Operate` calls with `read_only` false (any mode, start, time and ramp_mult,
NaN and the infinities included), `GenerateFailure`, `ReadFailure` with a
non-negative life, and `AdvanceDowntime` calls that do not raise, every
failure mode's life_remaining is still >= 0 unless it is NaN: it is never
negative. In one committed depletion step that does not throw, on a mode
whose life_remaining is >= 0, the new life_remaining is >= 0 when the
product `time * hazard_rate * ramp_mult` is not NaN and is not +INFINITY
against a life of +INFINITY, and it is NaN otherwise. The values are binary64
values, every operation rounded as the machine rounds it. -/
theorem committed_operation_never_overdraws (s : Sim) (calls : List Call)
    (hlife : ∀ ft ∈ s.comp.m_failure_types, 0 ≤ ft.GetLifeRemaining)
    (hdist : ∀ ft ∈ s.comp.m_failure_types, ∀ g, 0 ≤ (ft.dist.GetVariate g).1)
    (hcalls : ∀ c ∈ calls, c.isCommitted = true)
    (_hreturn : noneRaises calls s = true) :
    (∀ ft ∈ (runCalls calls s).comp.m_failure_types,
      0 ≤ ft.GetLifeRemaining ∨ ft.GetLifeRemaining = Dbl.nan) ∧
    (∀ (time ramp_mult : Dbl) (opmode : String) (j : Nat) (s1 s2 : Sim) (ft : FailureType),
      s1.comp.m_failure_types[j]? = some ft → ft.GetFailureMode = opmode →
      0 ≤ ft.GetLifeRemaining →
      Operate.body time ramp_mult false opmode j s1 = .done s2 →
      s2.comp.m_failure_types[j]? = some (ft.ReduceLifeRemaining
        (time * s1.comp.m_status.hazard_rate * ramp_mult)) ∧
      (0 ≤ (ft.ReduceLifeRemaining
          (time * s1.comp.m_status.hazard_rate * ramp_mult)).GetLifeRemaining ↔
        ¬ (time * s1.comp.m_status.hazard_rate * ramp_mult = Dbl.nan ∨
          (time * s1.comp.m_status.hazard_rate * ramp_mult = Dbl.inf false ∧
            ft.GetLifeRemaining = Dbl.inf false))) ∧
      ((ft.ReduceLifeRemaining
          (time * s1.comp.m_status.hazard_rate * ramp_mult)).GetLifeRemaining = Dbl.nan ↔
        (time * s1.comp.m_status.hazard_rate * ramp_mult = Dbl.nan ∨
          (time * s1.comp.m_status.hazard_rate * ramp_mult = Dbl.inf false ∧
            ft.GetLifeRemaining = Dbl.inf false)))) := by
  constructor
  · have h0 : LifeInv s := fun ft hft => ⟨Dbl.not_lt_of_le _ (hlife ft hft), hdist ft hft⟩
    have key := runCalls_preserves_f64 LifeInv (fun c => c.isCommitted = true)
      (fun c s hc hs => Call_run_lifeInv_f64 c s hc hs) calls s hcalls h0
    exact fun ft hft => (Dbl.not_lt_zero_iff _).mp (key ft hft).1
  · intro time ramp_mult opmode j s1 s2 ft hj hm hl hret
    have hjlt : j < s1.comp.m_failure_types.length := (List.getElem?_eq_some.mp hj).1
    simp only [Operate.body, hj, hm, if_true] at hret
    split at hret
    · cases hret
    · rename_i hnot
      have hnlt : ¬ ft.GetLifeRemaining <
          time * s1.comp.m_status.hazard_rate * ramp_mult := by
        intro hc
        exact hnot ⟨hc, by simp⟩
      cases hret
      have hnan := Dbl.sub_eq_nan_iff ft.GetLifeRemaining
        (time * s1.comp.m_status.hazard_rate * ramp_mult) hl
      refine ⟨by simp [hjlt], ?_, ?_⟩
      · simp only [FailureType.ReduceLifeRemaining, FailureType.GetLifeRemaining] at hnan hl ⊢
        constructor
        · intro h0 hc
          rw [hnan.mpr hc] at h0
          exact absurd h0 (by decide!)
        · intro hc
          rcases (Dbl.not_lt_zero_iff _).mp (Dbl.sub_not_neg _ _ hnlt) with h1 | h1
          · exact h1
          · exact absurd (hnan.mp h1) hc
      · simp only [FailureType.ReduceLifeRemaining, FailureType.GetLifeRemaining] at hnan ⊢
        exact hnan

/-- Witness of C20, as amended, on the 100 h pump: 60 h committed, a failure of
mode 0, a full repair. -/
theorem committed_operation_never_overdraws_witness :
    noneRaises [.Operate (Dbl.fin 60) 1 false 0 "None" "OF", .GenerateFailure 1 0,
      .AdvanceDowntime 1] pump100 = true ∧
    ∀ ft ∈ (runCalls [.Operate (Dbl.fin 60) 1 false 0 "None" "OF", .GenerateFailure 1 0,
        .AdvanceDowntime 1] pump100).comp.m_failure_types,
      0 ≤ ft.GetLifeRemaining ∨ ft.GetLifeRemaining = Dbl.nan := by
  have hret : noneRaises [.Operate (Dbl.fin 60) 1 false 0 "None" "OF", .GenerateFailure 1 0,
      .AdvanceDowntime 1] pump100 = true := by decide!
  refine ⟨hret, (committed_operation_never_overdraws pump100 _ ?_ ?_ ?_ hret).1⟩
  · intro ft hft
    have hft2 : ft ∈ [wearMode "OF" (Dbl.fin 100)] := hft
    simp only [List.mem_singleton] at hft2
    subst hft2
    decide!
  · intro ft hft g
    have hft2 : ft ∈ [wearMode "OF" (Dbl.fin 100)] := hft
    simp only [List.mem_singleton] at hft2
    subst hft2
    exact (by decide! : (0 : Dbl) ≤ Dbl.fin 100)
  · intro c hc
    simp only [List.mem_cons, List.mem_singleton, List.not_mem_nil, or_false] at hc
    rcases hc with rfl | rfl | rfl
    · rfl
    · rfl
    · rfl

/-- Counterexample to claim C20 as stated. On the 100 h pump (life_remaining 100,
every sample of its distribution 100) the committed call
`Operate(NaN, 1, gen, false, 0, "None", "OF")` computes the product
`NaN * 1 * 1 = NaN`; the test `NaN > 100` is false, so nothing is thrown and
`ReduceLifeRemaining(NaN)` stores NaN, which is not `>= 0`. -/
theorem committed_operation_nan_counterexample :
    pump100.comp.GetLifetimesAndProbs = [Dbl.fin 100] ∧
    (0 : Dbl) ≤ Dbl.fin 100 ∧
    (Call.Operate Dbl.nan 1 false 0 "None" "OF").isCommitted = true ∧
    noneRaises [.Operate Dbl.nan 1 false 0 "None" "OF"] pump100 = true ∧
    (runCalls [.Operate Dbl.nan 1 false 0 "None" "OF"] pump100).comp.GetLifetimesAndProbs =
      [Dbl.nan] ∧
    ¬ ((0 : Dbl) ≤ Dbl.nan) := by
  refine ⟨by decide!, by decide!, rfl, by decide!, by decide!, by decide!⟩

end F64

end Libcycle
